import Mathlib

/-!
# RHEL 8.2 distro catalog and pipeline translation

A shallow embedding of `internal/distro/rhel82/distro.go`: the catalog built by
`New`, the query functions and the translation `Pipeline`, followed by the
properties proved about them.

Conventions of the embedding

* Go strings are Lean strings; the Go order on strings (byte-wise
  lexicographic, which on UTF-8 text is the order of the code points) is
  `strLe`, a structural function on the characters.
* A Go `map[string]T` is an association list with unique keys (`mapGet`,
  `mapSet`).
* A Go pointer that may be nil is an `Option`.
* A Go function returning `(*T, error)` returns both components, each an
  `Option`, exactly as the `return` statements of the source give them.
* `panic` is the `Except.error` outcome of a computation.
* The receiver catalog is threaded through `Pipeline` explicitly, since
  `sort.Strings` sorts in place a slice that may share its array with a
  catalog entry.
-/

namespace rhel82

/-! ## Go strings, `sort.Strings`, maps -/

/-- Lexicographic comparison `a <= b` of two character sequences. -/
def bytesLe : List Char → List Char → Bool
  | [], _ => true
  | _ :: _, [] => false
  | a :: as, b :: bs =>
    if a.toNat < b.toNat then true
    else if b.toNat < a.toNat then false
    else bytesLe as bs

/-- The Go comparison `a <= b` on strings. -/
def strLe (a b : String) : Bool := bytesLe a.data b.data

/-- The result of `sort.Strings`: the list in increasing order. The order is
total and equal strings are indistinguishable, so the sorted arrangement is
unique and does not depend on the sorting algorithm. -/
def sortStrings (l : List String) : List String :=
  l.insertionSort (fun a b => strLe a b = true)

/-- An error value, identified with its message (`errors.New msg`). -/
abbrev GoError := String

/-- Map lookup `m[k]` with the `exists` flag: `none` when the key is absent. -/
def mapGet {α : Type} (m : List (String × α)) (k : String) : Option α :=
  List.lookup k m

/-- Map assignment `m[k] = v`: replaces the entry of `k`, or adds one. -/
def mapSet {α : Type} : List (String × α) → String → α → List (String × α)
  | [], k, v => [(k, v)]
  | (k', v') :: rest, k, v =>
    if k' = k then (k, v) :: rest else (k', v') :: mapSet rest k v

/-- The keys of a map, one per entry. -/
def mapKeys {α : Type} (m : List (String × α)) : List String := m.map Prod.fst

/-- Lookup `checksums[id]` in a `map[string]string`: the empty string when the
key is absent. -/
def mapGetD (m : List (String × String)) (k : String) : String :=
  (mapGet m k).getD ""

/-- The function `strconv.Itoa`: the decimal representation of an integer. -/
def Itoa (i : Int) : String := toString i

/-! ## UUID parsing (`github.com/google/uuid`) -/

/-- The value of one hexadecimal digit, `none` if the character is not one. -/
def xval (c : Char) : Option Nat :=
  let n := c.toNat
  if 48 ≤ n ∧ n ≤ 57 then some (n - 48)
  else if 97 ≤ n ∧ n ≤ 102 then some (n - 87)
  else if 65 ≤ n ∧ n ≤ 70 then some (n - 55)
  else none

/-- The byte written by two hexadecimal digits (`xtob`). -/
def xtob (a b : Char) : Option Nat :=
  match xval a, xval b with
  | some h, some l => some (16 * h + l)
  | _, _ => none

/-- Decodes a run of hexadecimal digit pairs into bytes. -/
def hexBytes : List Char → Option (List Nat)
  | [] => some []
  | [_] => none
  | a :: b :: rest =>
    match xtob a b, hexBytes rest with
    | some v, some vs => some (v :: vs)
    | _, _ => none

/-- Parses the 36 character form `xxxxxxxx-xxxx-xxxx-xxxx-xxxxxxxxxxxx`. -/
def uuidParseCanonical (s : List Char) : Except GoError (List Nat) :=
  if s.get? 8 ≠ some '-' ∨ s.get? 13 ≠ some '-' ∨ s.get? 18 ≠ some '-' ∨ s.get? 23 ≠ some '-' then
    .error "invalid UUID format"
  else
    match hexBytes ((s.take 8) ++ ((s.drop 9).take 4) ++ ((s.drop 14).take 4)
        ++ ((s.drop 19).take 4) ++ ((s.drop 24).take 12)) with
    | some bs => .ok bs
    | none => .error "invalid UUID format"

/-- The function `uuid.Parse`: accepts the canonical 36 character form, the
same with a `urn:uuid:` lead or enclosed in one character on each side, and the
plain form of 32 digits; the result is the 16 bytes of the UUID. -/
def uuidParse (s : String) : Except GoError (List Nat) :=
  let cs := s.data
  if cs.length = 36 then uuidParseCanonical cs
  else if cs.length = 45 then
    if (cs.take 9).map Char.toLower ≠ "urn:uuid:".data then
      .error ("invalid urn lead: " ++ String.mk (cs.take 9))
    else uuidParseCanonical (cs.drop 9)
  else if cs.length = 38 then uuidParseCanonical (cs.drop 1)
  else if cs.length = 32 then
    match hexBytes cs with
    | some bs => .ok bs
    | none => .error "invalid UUID format"
  else .error ("invalid UUID length: " ++ toString cs.length)

/-! ## The `rpmmd` and `blueprint` collaborators

The packages `internal/rpmmd`, `internal/blueprint` and `internal/crypt` are
collaborators of `distro.go`; the translation reads them only through the
fields and getters below. -/

/-- A repository description `rpmmd.RepoConfig`, with the fields the
translation reads. -/
structure RepoConfig where
  Id : String
  Name : String
  BaseURL : String
  Metalink : String
  MirrorList : String
  deriving DecidableEq, Repr

/-- The struct `blueprint.KernelCustomization`. -/
structure KernelCustomization where
  Append : String
  deriving DecidableEq, Repr

/-- The struct `blueprint.UserCustomization`; a nil pointer field is `none`. -/
structure UserCustomization where
  Name : String
  Description : Option String
  Password : Option String
  Key : Option String
  Home : Option String
  Shell : Option String
  Groups : List String
  UID : Option Int
  GID : Option Int
  deriving DecidableEq, Repr

/-- The struct `blueprint.GroupCustomization`. -/
structure GroupCustomization where
  Name : String
  GID : Option Int
  deriving DecidableEq, Repr

/-- The struct `blueprint.ServicesCustomization`. -/
structure ServicesCustomization where
  Enabled : List String
  Disabled : List String
  deriving DecidableEq, Repr

/-- The struct `blueprint.FirewallServicesCustomization`. -/
structure FirewallServicesCustomization where
  Enabled : List String
  Disabled : List String
  deriving DecidableEq, Repr

/-- The struct `blueprint.FirewallCustomization`. -/
structure FirewallCustomization where
  Ports : List String
  Services : Option FirewallServicesCustomization
  deriving DecidableEq, Repr

/-- A blueprint as the translation sees it: one field per getter that
`Pipeline` calls, holding the value the getter returns. `packages` is
`GetPackages()`, `kernel` is `GetKernel()`, `language` and `keyboard` are the
two results of `GetPrimaryLocale()`, `hostname` is `GetHostname()`, `timezone`
and `ntpServers` are the two results of `GetTimezoneSettings()`, `users` is
`GetUsers()`, `groups` is `GetGroups()`, `services` is `GetServices()` and
`firewall` is `GetFirewall()`. -/
structure Blueprint where
  packages : List String
  kernel : Option KernelCustomization
  language : Option String
  keyboard : Option String
  hostname : Option String
  timezone : Option String
  ntpServers : List String
  users : List UserCustomization
  groups : List GroupCustomization
  services : Option ServicesCustomization
  firewall : Option FirewallCustomization
  deriving DecidableEq, Repr

/-- The credential hashing collaborator `internal/crypt`: the test
`PasswordIsCrypted` and the hash `CryptSHA512`, which may fail. The source
calls the package where it needs a hash and hands it no seed, so a value of
this type stands for the answers of the package during one call of
`Pipeline`; another call may meet another value. -/
structure Crypt where
  PasswordIsCrypted : String → Bool
  CryptSHA512 : String → Except GoError String

/-! ## The `pipeline` data model

The package `internal/pipeline` holds the containers that `distro.go` fills.
Its stage constructors `New...Stage` wrap an options value into a stage of the
matching kind; here a stage is the variant over the stage kinds. -/

/-- Modelled from the spec: `pipeline.DNFRepository`, a repository record of
the package-install stage (type declaration missing from the sources). -/
structure DNFRepository where
  BaseURL : String
  MetaLink : String
  MirrorList : String
  Checksum : String
  deriving DecidableEq, Repr

/-- Modelled from the spec: `pipeline.DNFStageOptions`, the options of the
package-install stage: repositories, include list, exclude list (type
declaration missing from the sources). -/
structure DNFStageOptions where
  Repositories : List DNFRepository
  Packages : List String
  ExcludedPackages : List String
  ReleaseVersion : String
  BaseArchitecture : String
  ModulePlatformId : String
  deriving DecidableEq, Repr

/-- Modelled from the spec: `DNFStageOptions.AddRepository` appends one
repository record (method missing from the sources). -/
def DNFStageOptions.AddRepository (o : DNFStageOptions) (repo : DNFRepository) :
    DNFStageOptions :=
  { o with Repositories := o.Repositories ++ [repo] }

/-- Modelled from the spec: `DNFStageOptions.AddPackage` appends one name to
the include list (method missing from the sources). -/
def DNFStageOptions.AddPackage (o : DNFStageOptions) (pkg : String) : DNFStageOptions :=
  { o with Packages := o.Packages ++ [pkg] }

/-- Modelled from the spec: `DNFStageOptions.ExcludePackage` appends one name
to the exclude list (method missing from the sources). -/
def DNFStageOptions.ExcludePackage (o : DNFStageOptions) (pkg : String) : DNFStageOptions :=
  { o with ExcludedPackages := o.ExcludedPackages ++ [pkg] }

/-- Modelled from the spec: one line of the fstab stage
(`pipeline.FSTabEntryOptions`, type declaration missing from the sources). -/
structure FSTabEntryOptions where
  UUID : String
  VFSType : String
  Path : String
  Options : String
  Freq : Nat
  PassNo : Nat
  deriving DecidableEq, Repr

/-- Modelled from the spec: `pipeline.FSTabStageOptions` (type declaration
missing from the sources). -/
structure FSTabStageOptions where
  FileSystems : List FSTabEntryOptions
  deriving DecidableEq, Repr

/-- Modelled from the spec: `FSTabStageOptions.AddFilesystem` appends one
entry (method missing from the sources). -/
def FSTabStageOptions.AddFilesystem (o : FSTabStageOptions) (id vfsType path opts : String)
    (freq passNo : Nat) : FSTabStageOptions :=
  { o with FileSystems := o.FileSystems ++ [⟨id, vfsType, path, opts, freq, passNo⟩] }

/-- Modelled from the spec: `pipeline.GRUB2StageOptions`; the UUID is the 16
bytes that `uuid.Parse` returns (type declaration missing from the sources). -/
structure GRUB2StageOptions where
  RootFilesystemUUID : List Nat
  KernelOptions : String
  Legacy : Bool
  deriving DecidableEq, Repr

/-- Modelled from the spec: `pipeline.LocaleStageOptions` (type declaration
missing from the sources). -/
structure LocaleStageOptions where
  Language : String
  deriving DecidableEq, Repr

/-- Modelled from the spec: `pipeline.KeymapStageOptions` (type declaration
missing from the sources). -/
structure KeymapStageOptions where
  Keymap : String
  deriving DecidableEq, Repr

/-- Modelled from the spec: `pipeline.HostnameStageOptions` (type declaration
missing from the sources). -/
structure HostnameStageOptions where
  Hostname : String
  deriving DecidableEq, Repr

/-- Modelled from the spec: `pipeline.TimezoneStageOptions` (type declaration
missing from the sources). -/
structure TimezoneStageOptions where
  Zone : String
  deriving DecidableEq, Repr

/-- Modelled from the spec: `pipeline.ChronyStageOptions` (type declaration
missing from the sources). -/
structure ChronyStageOptions where
  Timeservers : List String
  deriving DecidableEq, Repr

/-- Modelled from the spec: `pipeline.UsersStageOptionsUser`, one user of the
users stage (type declaration missing from the sources). -/
structure UsersStageOptionsUser where
  UID : Option String
  GID : Option String
  Groups : List String
  Description : Option String
  Home : Option String
  Shell : Option String
  Password : Option String
  Key : Option String
  deriving DecidableEq, Repr

/-- Modelled from the spec: `pipeline.UsersStageOptions`, a map from user name
to user (type declaration missing from the sources). -/
structure UsersStageOptions where
  Users : List (String × UsersStageOptionsUser)
  deriving DecidableEq, Repr

/-- Modelled from the spec: `pipeline.GroupsStageOptionsGroup` (type
declaration missing from the sources). -/
structure GroupsStageOptionsGroup where
  Name : String
  GID : Option String
  deriving DecidableEq, Repr

/-- Modelled from the spec: `pipeline.GroupsStageOptions`, a map from group
name to group (type declaration missing from the sources). -/
structure GroupsStageOptions where
  Groups : List (String × GroupsStageOptionsGroup)
  deriving DecidableEq, Repr

/-- Modelled from the spec: `pipeline.SystemdStageOptions` (type declaration
missing from the sources). -/
structure SystemdStageOptions where
  EnabledServices : List String
  DisabledServices : List String
  DefaultTarget : String
  deriving DecidableEq, Repr

/-- Modelled from the spec: `pipeline.FirewallStageOptions` (type declaration
missing from the sources). -/
structure FirewallStageOptions where
  Ports : List String
  EnabledServices : List String
  DisabledServices : List String
  deriving DecidableEq, Repr

/-- Modelled from the spec: `pipeline.SELinuxStageOptions` (type declaration
missing from the sources). -/
structure SELinuxStageOptions where
  FileContexts : String
  deriving DecidableEq, Repr

/-- Modelled from the spec: a stage, the variant closed over the stage kinds,
each carrying its options; the constructor `DNF o` is `pipeline.NewDNFStage o`
and so on (type and constructors missing from the sources). -/
inductive Stage where
  | DNF (o : DNFStageOptions)
  | FixBLS
  | FSTab (o : FSTabStageOptions)
  | GRUB2 (o : GRUB2StageOptions)
  | Locale (o : LocaleStageOptions)
  | Keymap (o : KeymapStageOptions)
  | Hostname (o : HostnameStageOptions)
  | Timezone (o : TimezoneStageOptions)
  | Chrony (o : ChronyStageOptions)
  | Users (o : UsersStageOptions)
  | Groups (o : GroupsStageOptions)
  | Systemd (o : SystemdStageOptions)
  | Firewall (o : FirewallStageOptions)
  | SELinux (o : SELinuxStageOptions)
  deriving DecidableEq, Repr

/-- Modelled from the spec: the filesystem of a QEMU partition
(`pipeline.QEMUFilesystem`, type declaration missing from the sources); the
field `Type` of the source is `FsType` here, `Type` being reserved. -/
structure QEMUFilesystem where
  FsType : String
  UUID : String
  Mountpoint : String
  deriving DecidableEq, Repr

/-- Modelled from the spec: `pipeline.QEMUPartition` (type declaration missing
from the sources). -/
structure QEMUPartition where
  Start : Nat
  Bootable : Bool
  Filesystem : QEMUFilesystem
  deriving DecidableEq, Repr

/-- Modelled from the spec: `pipeline.QEMUAssemblerOptions` (type declaration
missing from the sources). -/
structure QEMUAssemblerOptions where
  Format : String
  Filename : String
  Size : Nat
  PTUUID : String
  PTType : String
  Partitions : List QEMUPartition
  deriving DecidableEq, Repr

/-- Modelled from the spec: `pipeline.TarAssemblerOptions` (type declaration
missing from the sources). -/
structure TarAssemblerOptions where
  Filename : String
  Compression : String
  deriving DecidableEq, Repr

/-- Modelled from the spec: `pipeline.RawFSAssemblerOptions`; the field name
`RootFilesystemUUDI` is the one the source writes (type declaration missing
from the sources). -/
structure RawFSAssemblerOptions where
  Filename : String
  RootFilesystemUUDI : List Nat
  Size : Nat
  FilesystemType : String
  deriving DecidableEq, Repr

/-- Modelled from the spec: an assembler, the terminal artifact producer of a
pipeline; `QEMU o` is `pipeline.NewQEMUAssembler o` and so on (type and
constructors missing from the sources). -/
inductive Assembler where
  | QEMU (o : QEMUAssemblerOptions)
  | Tar (o : TarAssemblerOptions)
  | RawFS (o : RawFSAssemblerOptions)
  deriving DecidableEq, Repr

/-- Modelled from the spec: a pipeline, `{buildPipeline: optional<Pipeline>,
runnerIdentity: string, stages: ordered_sequence<Stage>, assembler:
optional<Assembler>}` (type declaration missing from the sources). -/
inductive Pipeline where
  | mk (buildPipeline : Option Pipeline) (runnerIdentity : String) (stages : List Stage)
      (assembler : Option Assembler)

namespace Pipeline

/-- The zero value `&pipeline.Pipeline{}`. -/
def empty : Pipeline := .mk none "" [] none

/-- The attached build pipeline, `none` when there is none. -/
def Build : Pipeline → Option Pipeline
  | .mk b _ _ _ => b

/-- The runner identity recorded with the build pipeline. -/
def Runner : Pipeline → String
  | .mk _ r _ _ => r

/-- The ordered stage list. -/
def Stages : Pipeline → List Stage
  | .mk _ _ s _ => s

/-- The assembler, `none` when nil. -/
def Assembler : Pipeline → Option rhel82.Assembler
  | .mk _ _ _ a => a

/-- Modelled from the spec: `Pipeline.SetBuild` attaches the build pipeline
and its runner identity (method missing from the sources). -/
def SetBuild : Pipeline → Pipeline → String → Pipeline
  | .mk _ _ s a, build, runner => .mk (some build) runner s a

/-- Modelled from the spec: `Pipeline.AddStage` appends a stage at the end of
the ordered stage list (method missing from the sources). -/
def AddStage : Pipeline → Stage → Pipeline
  | .mk b r s a, stage => .mk b r (s ++ [stage]) a

/-- The assignment `p.Assembler = a`. -/
def setAssembler : Pipeline → Option rhel82.Assembler → Pipeline
  | .mk b r s _, a => .mk b r s a

end Pipeline

/-! ## The catalog types -/

/-- The struct `arch`. -/
structure arch where
  Name : String
  BootloaderPackages : List String
  BuildPackages : List String
  deriving DecidableEq, Repr

/-- The struct `output`. The slice `EnabledServices` is tested against nil by
`Pipeline`, so it is an `Option`, `none` being the nil slice; the pointer
`Assembler` is an `Option`, `none` being nil. -/
structure output where
  Name : String
  MimeType : String
  Packages : List String
  ExcludedPackages : List String
  EnabledServices : Option (List String)
  DisabledServices : List String
  Bootable : Bool
  DefaultTarget : String
  KernelOptions : String
  Assembler : Option Assembler
  deriving DecidableEq, Repr

/-- The struct `RHEL82`: the two catalog maps. -/
structure RHEL82 where
  arches : List (String × arch)
  outputs : List (String × output)
  deriving DecidableEq, Repr

/-- The fixed root filesystem identifier written in the source. -/
def rootUUIDLiteral : String := "0bd700f8-090f-4556-b797-b340297ea1bd"

/-- The method `qemuAssembler`. -/
def qemuAssembler (format filename : String) (size : Nat) : Option Assembler :=
  some (.QEMU
    { Format := format
      Filename := filename
      Size := size
      PTUUID := "0x14fc63d2"
      PTType := "mbr"
      Partitions := [
        { Start := 2048
          Bootable := true
          Filesystem := { FsType := "xfs", UUID := rootUUIDLiteral, Mountpoint := "/" } } ] })

/-- The method `tarAssembler`. -/
def tarAssembler (filename compression : String) : Option Assembler :=
  some (.Tar { Filename := filename, Compression := compression })

/-- The method `rawFSAssembler`; `Except.error` is the panic. -/
def rawFSAssembler (filename : String) : Except String (Option Assembler) :=
  match uuidParse rootUUIDLiteral with
  | .error _ => .error "invalid UUID"
  | .ok id =>
    .ok (some (.RawFS
      { Filename := filename
        RootFilesystemUUDI := id
        Size := 3221225472
        FilesystemType := "xfs" }))

/-- The constant `GigaByte` of `New`. -/
def GigaByte : Nat := 1024 * 1024 * 1024

/-- The entry `r.arches["x86_64"]` of `New`. -/
def archX86_64 : arch :=
  { Name := "x86_64"
    BootloaderPackages := ["grub2-pc"]
    BuildPackages := ["grub2-pc"] }

/-- The entry `r.outputs["ami"]` of `New`. -/
def outputAmi : output :=
  { Name := "image.raw.xz"
    MimeType := "application/octet-stream"
    Packages := [
      "checkpolicy", "chrony", "cloud-init", "cloud-init", "cloud-utils-growpart", "@core",
      "dhcp-client", "dracut-config-generic", "gdisk", "insights-client", "kernel",
      "langpacks-en", "net-tools", "NetworkManager", "redhat-release", "redhat-release-eula",
      "rng-tools", "rsync", "selinux-policy-targeted", "tar", "yum-utils"]
    ExcludedPackages := [
      "aic94xx-firmware", "alsa-firmware", "alsa-lib", "alsa-tools-firmware", "biosdevname",
      "dracut-config-rescue", "firewalld", "iprutils", "ivtv-firmware", "iwl1000-firmware",
      "iwl100-firmware", "iwl105-firmware", "iwl135-firmware", "iwl2000-firmware",
      "iwl2030-firmware", "iwl3160-firmware", "iwl3945-firmware", "iwl4965-firmware",
      "iwl5000-firmware", "iwl5150-firmware", "iwl6000-firmware", "iwl6000g2a-firmware",
      "iwl6000g2b-firmware", "iwl6050-firmware", "iwl7260-firmware",
      "libertas-sd8686-firmware", "libertas-sd8787-firmware", "libertas-usb8388-firmware",
      "plymouth", "timedatex"]
    EnabledServices := none
    DisabledServices := []
    DefaultTarget := "multi-user.target"
    Bootable := true
    KernelOptions := "ro console=ttyS0,115200n8 console=tty0 net.ifnames=0 rd.blacklist=nouveau nvme_core.io_timeout=4294967295 crashkernel=auto"
    Assembler := qemuAssembler "raw.xz" "image.raw.xz" (6 * GigaByte) }

/-- The entry `r.outputs["ext4-filesystem"]` of `New`, given its assembler. -/
def outputExt4 (assembler : Option Assembler) : output :=
  { Name := "filesystem.img"
    MimeType := "application/octet-stream"
    Packages := [
      "policycoreutils", "selinux-policy-targeted", "kernel", "firewalld", "chrony",
      "dracut-config-generic", "langpacks-en"]
    ExcludedPackages := ["dracut-config-rescue", "timedatex"]
    EnabledServices := none
    DisabledServices := []
    DefaultTarget := ""
    Bootable := false
    KernelOptions := "ro net.ifnames=0"
    Assembler := assembler }

/-- The entry `r.outputs["partitioned-disk"]` of `New`. -/
def outputPartitionedDisk : output :=
  { Name := "disk.img"
    MimeType := "application/octet-stream"
    Packages := [
      "@core", "chrony", "dracut-config-generic", "firewalld", "kernel", "langpacks-en",
      "selinux-policy-targeted"]
    ExcludedPackages := ["dracut-config-rescue", "timedatex"]
    EnabledServices := none
    DisabledServices := []
    DefaultTarget := ""
    Bootable := true
    KernelOptions := "ro net.ifnames=0"
    Assembler := qemuAssembler "raw" "disk.img" (3 * GigaByte) }

/-- The entry `r.outputs["qcow2"]` of `New`. -/
def outputQcow2 : output :=
  { Name := "disk.qcow2"
    MimeType := "application/x-qemu-disk"
    Packages := [
      "kernel-core", "chrony", "dracut-config-generic", "polkit", "systemd-udev",
      "selinux-policy-targeted", "langpacks-en"]
    ExcludedPackages := [
      "dracut-config-rescue", "etables", "firewalld", "gobject-introspection", "plymouth",
      "timedatex"]
    EnabledServices := none
    DisabledServices := []
    DefaultTarget := ""
    Bootable := true
    KernelOptions := "ro net.ifnames=0"
    Assembler := qemuAssembler "qcow2" "disk.qcow2" (3 * GigaByte) }

/-- The entry `r.outputs["openstack"]` of `New`. -/
def outputOpenstack : output :=
  { Name := "image.qcow2"
    MimeType := "application/x-qemu-disk"
    Packages := [
      "@Core", "langpacks-en", "dracut-config-generic", "kernel", "selinux-policy-targeted",
      "cloud-init", "qemu-guest-agent", "spice-vdagent"]
    ExcludedPackages := ["dracut-config-rescue"]
    EnabledServices := none
    DisabledServices := []
    DefaultTarget := ""
    Bootable := true
    KernelOptions := "ro net.ifnames=0"
    Assembler := qemuAssembler "qcow2" "image.qcow2" (3 * GigaByte) }

/-- The entry `r.outputs["tar"]` of `New`. -/
def outputTar : output :=
  { Name := "root.tar.xz"
    MimeType := "application/x-tar"
    Packages := [
      "policycoreutils", "selinux-policy-targeted", "kernel", "firewalld", "chrony",
      "dracut-config-generic", "langpacks-en"]
    ExcludedPackages := ["dracut-config-rescue", "timedatex"]
    EnabledServices := none
    DisabledServices := []
    DefaultTarget := ""
    Bootable := false
    KernelOptions := "ro net.ifnames=0"
    Assembler := tarAssembler "root.tar.xz" "xz" }

/-- The entry `r.outputs["vhd"]` of `New`. -/
def outputVhd : output :=
  { Name := "image.vhd"
    MimeType := "application/x-vhd"
    Packages := [
      "@Core", "langpacks-en", "dracut-config-generic", "kernel", "selinux-policy-targeted",
      "chrony", "WALinuxAgent", "python3", "net-tools", "cloud-init", "cloud-utils-growpart",
      "gdisk"]
    ExcludedPackages := ["dracut-config-rescue", "timedatex"]
    EnabledServices := some ["sshd", "waagent"]
    DisabledServices := []
    DefaultTarget := "multi-user.target"
    Bootable := true
    KernelOptions := "ro biosdevname=0 rootdelay=300 console=ttyS0 earlyprintk=ttyS0 net.ifnames=0"
    Assembler := qemuAssembler "vpc" "image.vhd" (3 * GigaByte) }

/-- The entry `r.outputs["vmdk"]` of `New`. -/
def outputVmdk : output :=
  { Name := "disk.vmdk"
    MimeType := "application/x-vmdk"
    Packages := [
      "@core", "chrony", "dracut-config-generic", "firewalld", "kernel", "langpacks-en",
      "open-vm-tools", "selinux-policy-targeted"]
    ExcludedPackages := ["dracut-config-rescue", "timedatex"]
    EnabledServices := none
    DisabledServices := []
    DefaultTarget := ""
    Bootable := true
    KernelOptions := "ro net.ifnames=0"
    Assembler := qemuAssembler "vmdk" "disk.vmdk" (3 * GigaByte) }

/-- The constructor `New`: the assignments to the two maps in source order.
`Except.error` is the panic of `rawFSAssembler`. -/
def New : Except String RHEL82 :=
  let r : RHEL82 := { arches := [], outputs := [] }
  let r := { r with arches := mapSet r.arches "x86_64" archX86_64 }
  let r := { r with outputs := mapSet r.outputs "ami" outputAmi }
  match rawFSAssembler "filesystem.img" with
  | .error msg => .error msg
  | .ok rawfs =>
    let r := { r with outputs := mapSet r.outputs "ext4-filesystem" (outputExt4 rawfs) }
    let r := { r with outputs := mapSet r.outputs "partitioned-disk" outputPartitionedDisk }
    let r := { r with outputs := mapSet r.outputs "qcow2" outputQcow2 }
    let r := { r with outputs := mapSet r.outputs "openstack" outputOpenstack }
    let r := { r with outputs := mapSet r.outputs "tar" outputTar }
    let r := { r with outputs := mapSet r.outputs "vhd" outputVhd }
    let r := { r with outputs := mapSet r.outputs "vmdk" outputVmdk }
    .ok r

/-! ## The query functions and the translation

A method that reads its receiver is declared under `RHEL82`; a method whose
body does not read its receiver is a plain function without catalog argument. -/

/-- The method `Repositories`. -/
def Repositories (archName : String) : List RepoConfig :=
  [ { Id := "baseos"
      Name := "BaseOS"
      BaseURL := "http://download-ipv4.eng.brq.redhat.com/rhel-8/nightly/RHEL-8/RHEL-8.2.0-20191213.n.1/compose/BaseOS/" ++ archName ++ "/os"
      Metalink := ""
      MirrorList := "" },
    { Id := "appstream"
      Name := "AppStream"
      BaseURL := "http://download-ipv4.eng.brq.redhat.com/rhel-8/nightly/RHEL-8/RHEL-8.2.0-20191213.n.1/compose/AppStream/" ++ archName ++ "/os"
      Metalink := ""
      MirrorList := "" } ]

/-- The method `ListOutputFormats`: the keys of the output table, sorted. -/
def RHEL82.ListOutputFormats (r : RHEL82) : List String :=
  sortStrings (mapKeys r.outputs)

/-- The method `FilenameFromType`; the three components are the three results
of the source. -/
def RHEL82.FilenameFromType (r : RHEL82) (outputFormat : String) : String × String × Option GoError :=
  match mapGet r.outputs outputFormat with
  | some output => (output.Name, output.MimeType, none)
  | none => ("", "", some ("invalid output format: " ++ outputFormat))

/-- The method `dnfStageOptions`. Both name lists are sorted before they are
added to the options one name at a time. -/
def dnfStageOptions (a : arch) (additionalRepos : List RepoConfig)
    (checksums : List (String × String)) (packages excludedPackages : List String) :
    DNFStageOptions :=
  let options : DNFStageOptions :=
    { Repositories := []
      Packages := []
      ExcludedPackages := []
      ReleaseVersion := "8"
      BaseArchitecture := a.Name
      ModulePlatformId := "platform:el8" }
  let options := (Repositories a.Name ++ additionalRepos).foldl
    (fun o repo => o.AddRepository
      { BaseURL := repo.BaseURL
        MetaLink := repo.Metalink
        MirrorList := repo.MirrorList
        Checksum := mapGetD checksums repo.Id })
    options
  let options := (sortStrings packages).foldl (fun o pkg => o.AddPackage pkg) options
  let options := (sortStrings excludedPackages).foldl (fun o pkg => o.ExcludePackage pkg) options
  options

/-- The method `buildPipeline`. -/
def buildPipeline (a : arch) (checksums : List (String × String)) : Pipeline :=
  let packages := [
    "dnf", "dracut-config-generic", "e2fsprogs", "glibc", "policycoreutils", "python36",
    "qemu-img", "systemd", "tar", "xfsprogs"]
  let packages := packages ++ a.BuildPackages
  let p := Pipeline.empty
  let p := p.AddStage (.DNF (dnfStageOptions a [] checksums packages []))
  p

/-- The body of the loop of `userStageOptions` over the remaining users, with
the map filled so far; the first hashing failure ends the loop with its
error. -/
def userStageOptionsLoop (c : Crypt) :
    List UserCustomization → List (String × UsersStageOptionsUser) →
    Except GoError (List (String × UsersStageOptionsUser))
  | [], users => .ok users
  | u :: rest, users =>
    let hashed : Except GoError (Option String) :=
      match u.Password with
      | some pw =>
        if !c.PasswordIsCrypted pw then
          match c.CryptSHA512 pw with
          | .error err => .error err
          | .ok cryptedPassword => .ok (some cryptedPassword)
        else .ok (some pw)
      | none => .ok none
    match hashed with
    | .error err => .error err
    | .ok password =>
      let user : UsersStageOptionsUser :=
        { Groups := u.Groups
          Description := u.Description
          Home := u.Home
          Shell := u.Shell
          Password := password
          Key := u.Key
          UID := u.UID.map Itoa
          GID := u.GID.map Itoa }
      userStageOptionsLoop c rest (mapSet users u.Name user)

/-- The method `userStageOptions`: the options, or the error of the first
password hash that fails. -/
def userStageOptions (c : Crypt) (users : List UserCustomization) :
    Except GoError UsersStageOptions :=
  match userStageOptionsLoop c users [] with
  | .error err => .error err
  | .ok m => .ok { Users := m }

/-- The method `groupStageOptions`. -/
def groupStageOptions (groups : List GroupCustomization) : GroupsStageOptions :=
  { Groups := groups.foldl
      (fun m group => mapSet m group.Name { Name := group.Name, GID := group.GID.map Itoa })
      [] }

/-- The method `firewallStageOptions`. -/
def firewallStageOptions (firewall : FirewallCustomization) : FirewallStageOptions :=
  match firewall.Services with
  | some services =>
    { Ports := firewall.Ports
      EnabledServices := services.Enabled
      DisabledServices := services.Disabled }
  | none =>
    { Ports := firewall.Ports
      EnabledServices := []
      DisabledServices := [] }

set_option linter.unusedVariables false in
/-- The method `systemdStageOptions`. With a services customization the
variable `enabledServices` is assigned twice, the second time from
`disabledServices`, as in the source. -/
def systemdStageOptions (enabledServices : Option (List String)) (disabledServices : List String)
    (s : Option ServicesCustomization) (target : String) : SystemdStageOptions :=
  let enabledServices : List String :=
    match s with
    | some s =>
      let enabledServices := enabledServices.getD [] ++ s.Enabled
      let enabledServices := disabledServices ++ s.Disabled
      enabledServices
    | none => enabledServices.getD []
  { EnabledServices := enabledServices
    DisabledServices := disabledServices
    DefaultTarget := target }

/-- The method `fsTabStageOptions`. -/
def fsTabStageOptions : FSTabStageOptions :=
  let options : FSTabStageOptions := { FileSystems := [] }
  let options := options.AddFilesystem rootUUIDLiteral "xfs" "/" "defaults" 0 0
  options

/-- The method `grub2StageOptions`; `Except.error` is the panic. -/
def grub2StageOptions (kernelOptions : String) : Except String GRUB2StageOptions :=
  match uuidParse rootUUIDLiteral with
  | .error _ => .error "invalid UUID"
  | .ok id =>
    .ok
      { RootFilesystemUUID := id
        KernelOptions := kernelOptions
        Legacy := true }

/-- The method `selinuxStageOptions`. -/
def selinuxStageOptions : SELinuxStageOptions :=
  { FileContexts := "etc/selinux/targeted/contexts/files/file_contexts" }

/-- A slice being built from a catalog table: its elements, and whether it
still shares the backing array of the table. -/
structure Slice where
  elems : List String
  shared : Bool
  deriving DecidableEq, Repr

/-- The slice of a catalog table itself. -/
def Slice.ofTable (l : List String) : Slice := { elems := l, shared := true }

/-- The call `append(s, xs...)`. A catalog table is a composite literal, whose
capacity equals its length: appending nothing returns the slice itself,
appending at least one element copies the elements to a fresh array, which
later appends and sorts no longer share with the table. -/
def Slice.append (s : Slice) (xs : List String) : Slice :=
  { elems := s.elems ++ xs, shared := s.shared && xs.isEmpty }

/-- The catalog after `dnfStageOptions` has run `sort.Strings` on the two
slices of the entry `outputFormat`: the excluded list is the entry's own slice
and is sorted in place; the package list is sorted in place when the slice
handed over still shares the entry's array. -/
def sortedInPlace (r : RHEL82) (outputFormat : String) (o : output) (packagesShared : Bool) :
    RHEL82 :=
  let sorted : output :=
    { o with
      Packages := if packagesShared then sortStrings o.Packages else o.Packages
      ExcludedPackages := sortStrings o.ExcludedPackages }
  { r with outputs := mapSet r.outputs outputFormat sorted }

/-- What a call of `Pipeline` leaves behind: the two results of the source and
the receiver catalog after the call. -/
structure PipelineReturn where
  pipeline : Option rhel82.Pipeline
  err : Option GoError
  catalog : RHEL82

/-- The method `Pipeline`. `Except.error` is the panic of `grub2StageOptions`;
`Except.ok` carries the two returned values and the catalog after the call. -/
def RHEL82.Pipeline (r : RHEL82) (c : Crypt) (b : Blueprint) (additionalRepos : List RepoConfig)
    (checksums : List (String × String)) (outputArchitecture outputFormat : String) :
    Except String PipelineReturn :=
  match mapGet r.outputs outputFormat with
  | none => .ok ⟨none, some ("invalid output format: " ++ outputFormat), r⟩
  | some output =>
    match mapGet r.arches outputArchitecture with
    | none => .ok ⟨none, some ("invalid architecture: " ++ outputArchitecture), r⟩
    | some arch =>
      let p := rhel82.Pipeline.empty
      let p := p.SetBuild (buildPipeline arch checksums) "org.osbuild.rhel82"
      let packages := (Slice.ofTable output.Packages).append b.packages
      let packages :=
        if output.Bootable then packages.append arch.BootloaderPackages else packages
      let p := p.AddStage (.DNF
        (dnfStageOptions arch additionalRepos checksums packages.elems output.ExcludedPackages))
      let r := sortedInPlace r outputFormat output packages.shared
      let p := p.AddStage .FixBLS
      let p := if output.Bootable then p.AddStage (.FSTab fsTabStageOptions) else p
      let kernelOptions :=
        match b.kernel with
        | some kernel => output.KernelOptions ++ " " ++ kernel.Append
        | none => output.KernelOptions
      match grub2StageOptions kernelOptions with
      | .error msg => .error msg
      | .ok grub2 =>
        let p := p.AddStage (.GRUB2 grub2)
        let p :=
          match b.language with
          | some language => p.AddStage (.Locale { Language := language })
          | none => p.AddStage (.Locale { Language := "en_US" })
        let p :=
          match b.keyboard with
          | some keyboard => p.AddStage (.Keymap { Keymap := keyboard })
          | none => p
        let p :=
          match b.hostname with
          | some hostname => p.AddStage (.Hostname { Hostname := hostname })
          | none => p
        let p :=
          match b.timezone with
          | some timezone => p.AddStage (.Timezone { Zone := timezone })
          | none => p
        let p :=
          if b.ntpServers.length > 0 then p.AddStage (.Chrony { Timeservers := b.ntpServers })
          else p
        let withUsers : Except GoError rhel82.Pipeline :=
          if b.users.length > 0 then
            match userStageOptions c b.users with
            | .error err => .error err
            | .ok options => .ok (p.AddStage (.Users options))
          else .ok p
        match withUsers with
        | .error err => .ok ⟨none, some err, r⟩
        | .ok p =>
          let p :=
            if b.groups.length > 0 then p.AddStage (.Groups (groupStageOptions b.groups))
            else p
          let p :=
            if b.services.isSome ∨ output.EnabledServices.isSome then
              p.AddStage (.Systemd (systemdStageOptions output.EnabledServices
                output.DisabledServices b.services output.DefaultTarget))
            else p
          let p :=
            match b.firewall with
            | some firewall => p.AddStage (.Firewall (firewallStageOptions firewall))
            | none => p
          let p := p.AddStage (.SELinux selinuxStageOptions)
          let p := p.setAssembler output.Assembler
          .ok ⟨some p, none, r⟩

/-! ## Derived notions used to state and prove the properties -/

/-- The 16 bytes of the fixed root filesystem identifier. -/
def rootUUID : List Nat :=
  [11, 215, 0, 248, 9, 15, 69, 86, 183, 151, 179, 64, 41, 126, 161, 189]

/-- The catalog value that `New` returns (`New_eq`). -/
def newCatalog : RHEL82 :=
  { arches := [("x86_64", archX86_64)]
    outputs := [
      ("ami", outputAmi),
      ("ext4-filesystem", outputExt4 (some (.RawFS
        { Filename := "filesystem.img"
          RootFilesystemUUDI := rootUUID
          Size := 3221225472
          FilesystemType := "xfs" }))),
      ("partitioned-disk", outputPartitionedDisk),
      ("qcow2", outputQcow2),
      ("openstack", outputOpenstack),
      ("tar", outputTar),
      ("vhd", outputVhd),
      ("vmdk", outputVmdk)] }

/-- The kinds of stage. -/
inductive StageKind where
  | DNF | FixBLS | FSTab | GRUB2 | Locale | Keymap | Hostname | Timezone | Chrony | Users
  | Groups | Systemd | Firewall | SELinux
  deriving DecidableEq, Repr

/-- The kind of a stage. -/
def Stage.kind : Stage → StageKind
  | .DNF _ => .DNF
  | .FixBLS => .FixBLS
  | .FSTab _ => .FSTab
  | .GRUB2 _ => .GRUB2
  | .Locale _ => .Locale
  | .Keymap _ => .Keymap
  | .Hostname _ => .Hostname
  | .Timezone _ => .Timezone
  | .Chrony _ => .Chrony
  | .Users _ => .Users
  | .Groups _ => .Groups
  | .Systemd _ => .Systemd
  | .Firewall _ => .Firewall
  | .SELinux _ => .SELinux

/-- The password of the user needs no hashing, or its hash is computed
without error. -/
def hashSucceeds (c : Crypt) (u : UserCustomization) : Prop :=
  ∀ pw, u.Password = some pw → c.PasswordIsCrypted pw = false → ∃ h, c.CryptSHA512 pw = .ok h

/-- Hashing the password of the user fails with the error `e`. -/
def hashFails (c : Crypt) (u : UserCustomization) (e : GoError) : Prop :=
  ∃ pw, u.Password = some pw ∧ c.PasswordIsCrypted pw = false ∧ c.CryptSHA512 pw = .error e

/-- The hashing collaborator answers alike for the password of the user as
`c` and as `c2`: the same test result and, when the password is to be hashed,
the same hash or the same error. -/
def sameHash (c c2 : Crypt) (u : UserCustomization) : Prop :=
  ∀ pw, u.Password = some pw →
    c.PasswordIsCrypted pw = c2.PasswordIsCrypted pw ∧
    (c.PasswordIsCrypted pw = false → c.CryptSHA512 pw = c2.CryptSHA512 pw)

/-- Whether the package slice handed to `dnfStageOptions` by `Pipeline` still
shares the array of the catalog table: nothing was appended to it. -/
def packagesShared (o : output) (ar : arch) (b : Blueprint) : Bool :=
  b.packages.isEmpty && (!o.Bootable || ar.BootloaderPackages.isEmpty)

/-- The stage list that `Pipeline` builds for the entries `o` and `ar`, in
closed form (`Pipeline_success`); `uo` is the users stage options. -/
def stagesOf (o : output) (ar : arch) (b : Blueprint) (repos : List RepoConfig)
    (cks : List (String × String)) (uo : UsersStageOptions) : List Stage :=
  [ Stage.DNF (dnfStageOptions ar repos cks
      (o.Packages ++ b.packages ++ (if o.Bootable then ar.BootloaderPackages else []))
      o.ExcludedPackages),
    Stage.FixBLS ]
  ++ (if o.Bootable then [Stage.FSTab fsTabStageOptions] else [])
  ++ [ Stage.GRUB2
        { RootFilesystemUUID := rootUUID
          KernelOptions :=
            match b.kernel with
            | some kernel => o.KernelOptions ++ " " ++ kernel.Append
            | none => o.KernelOptions
          Legacy := true },
       Stage.Locale { Language := b.language.getD "en_US" } ]
  ++ (b.keyboard.map (fun k => Stage.Keymap { Keymap := k })).toList
  ++ (b.hostname.map (fun h => Stage.Hostname { Hostname := h })).toList
  ++ (b.timezone.map (fun t => Stage.Timezone { Zone := t })).toList
  ++ (if b.ntpServers.length > 0 then [Stage.Chrony { Timeservers := b.ntpServers }] else [])
  ++ (if b.users.length > 0 then [Stage.Users uo] else [])
  ++ (if b.groups.length > 0 then [Stage.Groups (groupStageOptions b.groups)] else [])
  ++ (if b.services.isSome ∨ o.EnabledServices.isSome then
        [Stage.Systemd (systemdStageOptions o.EnabledServices o.DisabledServices b.services
          o.DefaultTarget)]
      else [])
  ++ (b.firewall.map (fun fw => Stage.Firewall (firewallStageOptions fw))).toList
  ++ [Stage.SELinux selinuxStageOptions]

/-- The pipeline `q` is the pipeline `p` with the stages `X` added at the end. -/
def Grows (p : Pipeline) (X : List Stage) (q : Pipeline) : Prop :=
  q = .mk p.Build p.Runner (p.Stages ++ X) p.Assembler

/-- A blueprint without any customization. -/
def emptyBlueprint : Blueprint :=
  { packages := []
    kernel := none
    language := none
    keyboard := none
    hostname := none
    timezone := none
    ntpServers := []
    users := []
    groups := []
    services := none
    firewall := none }

/-- A blueprint whose only customization adds the package "firewalld". -/
def firewalldBlueprint : Blueprint :=
  { emptyBlueprint with packages := ["firewalld"] }

/-- A user with a plain password and nothing else set. -/
def sampleUser : UserCustomization :=
  { Name := "admin"
    Description := none
    Password := some "secret"
    Key := none
    Home := none
    Shell := none
    Groups := []
    UID := none
    GID := none }

/-- A hashing collaborator that always succeeds. -/
def sampleCrypt : Crypt :=
  { PasswordIsCrypted := fun _ => false
    CryptSHA512 := fun pw => .ok ("$6$" ++ pw) }

/-- A hashing collaborator that hashes with the salt it holds. -/
def saltedCrypt (salt : String) : Crypt :=
  { PasswordIsCrypted := fun _ => false
    CryptSHA512 := fun pw => .ok ("$6$" ++ salt ++ "$" ++ pw) }

/-- A hashing collaborator that always fails. -/
def failingCrypt : Crypt :=
  { PasswordIsCrypted := fun _ => false
    CryptSHA512 := fun _ => .error "crypt: hashing failed" }

/-- A blueprint whose only customization enables the service "httpd" and
disables the service "bluetooth". -/
def servicesBlueprint : Blueprint :=
  { emptyBlueprint with services := some { Enabled := ["httpd"], Disabled := ["bluetooth"] } }

/-- The stage kinds in the order in which `Pipeline` adds stages. -/
def stageOrder : List StageKind :=
  [StageKind.DNF, StageKind.FixBLS, StageKind.FSTab, StageKind.GRUB2, StageKind.Locale,
    StageKind.Keymap, StageKind.Hostname, StageKind.Timezone, StageKind.Chrony,
    StageKind.Users, StageKind.Groups, StageKind.Systemd, StageKind.Firewall,
    StageKind.SELinux]

/-- The ten bootstrap packages of `buildPipeline`, as written in the source. -/
def bootstrapPackages : List String :=
  ["dnf", "dracut-config-generic", "e2fsprogs", "glibc", "policycoreutils", "python36",
    "qemu-img", "systemd", "tar", "xfsprogs"]

/-- The `Filename` option of an assembler. -/
def Assembler.Filename : Assembler → String
  | .QEMU o => o.Filename
  | .Tar o => o.Filename
  | .RawFS o => o.Filename

/-- The root filesystem identifiers that the options of an assembler carry
denote the UUID `u`: the filesystem mounted at "/" of each QEMU partition has
a UUID string that parses to `u`, the raw filesystem assembler holds `u`; the
tar assembler carries none. -/
def Assembler.rootUUIDIs (u : List Nat) : Assembler → Prop
  | .QEMU o => ∀ part ∈ o.Partitions, part.Filesystem.Mountpoint = "/" →
      uuidParse part.Filesystem.UUID = .ok u
  | .Tar _ => True
  | .RawFS o => o.RootFilesystemUUDI = u

/-- The catalogs a program can hold: the one `New` returns, and the one a call
of `Pipeline` leaves behind on such a catalog. -/
inductive Reachable : RHEL82 → Prop where
  | new (r : RHEL82) (h : New = .ok r) : Reachable r
  | call (r : RHEL82) (c : Crypt) (b : Blueprint) (repos : List RepoConfig)
      (cks : List (String × String)) (a f : String) (ret : PipelineReturn)
      (hr : Reachable r) (h : r.Pipeline c b repos cks a f = .ok ret) : Reachable ret.catalog

end rhel82

/-!
# The OSTree installer image

A shallow embedding of `pkg/image/anaconda_ostree_installer.go`: the image
definition `AnacondaOSTreeInstaller` and its method `InstantiateManifest`,
which chains six pipelines of the package `manifest`.

The pipelines are Go pointers; each one is complete when a later pipeline
takes it, so a pipeline holds the pipelines it is built from by value. What
the call adds to the manifest is the record of the six pipelines.
-/

namespace image

/-- An architecture identity, a value of the enumeration `arch.Arch`; the
method only compares it with `arch.ARCH_X86_64`. -/
abbrev Arch := Nat

/-- The types of the values that `InstantiateManifest` only passes on, declared
in packages outside the sources: repository descriptions, users, groups, the
OSTree commit source, the runner, the manifest, the state of the random
generator, the partition table, the artifact descriptor, the embedded `Base`
and the installer type. -/
structure Ext where
  RepoConfig : Type
  User : Type
  Group : Type
  SourceSpec : Type
  Runner : Type
  Manifest : Type
  Rand : Type
  PartitionTable : Type
  Artifact : Type
  Base : Type
  InstallerType : Type

/-- The interface `platform.Platform`, with the two methods the source
calls. -/
structure Platform where
  GetArch : Arch
  GetUEFIVendor : String

/-- The struct `rpmmd.PackageSet`. -/
structure PackageSet (E : Ext) where
  Include : List String
  Exclude : List String
  Repositories : List E.RepoConfig

/-- The struct `AnacondaOSTreeInstaller`. -/
structure AnacondaOSTreeInstaller (E : Ext) where
  Base : E.Base
  Platform : Platform
  ExtraBasePackages : PackageSet E
  Users : List E.User
  Groups : List E.Group
  Language : Option String
  Keyboard : Option String
  Timezone : Option String
  NoPasswd : List String
  UnattendedKickstart : Bool
  SquashfsCompression : String
  ISOLabel : String
  Product : String
  Variant : String
  OSName : String
  OSVersion : String
  Release : String
  Preview : Bool
  Remote : String
  Commit : E.SourceSpec
  Filename : String
  AdditionalDracutModules : List String
  AdditionalAnacondaModules : List String
  AdditionalDrivers : List String
  FIPS : Bool

/-- Modelled from the spec: the build pipeline `manifest.Build`, with the
arguments of `manifest.NewBuild` and the checkpoint mark (type declaration
missing from the sources). -/
structure Build (E : Ext) where
  manifest : E.Manifest
  runner : E.Runner
  repos : List E.RepoConfig
  Checkpoint : Bool

/-- Modelled from the spec: the installer-environment pipeline
`manifest.AnacondaInstaller`, with the arguments of
`manifest.NewAnacondaInstaller` and the fields the source assigns (type
declaration missing from the sources). -/
structure AnacondaInstaller (E : Ext) where
  installerType : E.InstallerType
  buildPipeline : Build E
  platform : Platform
  repos : List E.RepoConfig
  kernelName : String
  product : String
  version : String
  preview : Bool
  ExtraPackages : List String
  ExcludePackages : List String
  ExtraRepos : List E.RepoConfig
  Users : List E.User
  Groups : List E.Group
  Variant : String
  Biosdevname : Bool
  Checkpoint : Bool
  AdditionalDracutModules : List String
  AdditionalAnacondaModules : List String
  AdditionalDrivers : List String

/-- Modelled from the spec: the root-filesystem-image pipeline
`manifest.ISORootfsImg` (type declaration missing from the sources). -/
structure ISORootfsImg (E : Ext) where
  buildPipeline : Build E
  installerPipeline : AnacondaInstaller E
  Size : Nat

/-- Modelled from the spec: the boot-tree pipeline `manifest.EFIBootTree`
(type declaration missing from the sources). -/
structure EFIBootTree (E : Ext) where
  buildPipeline : Build E
  product : String
  version : String
  Platform : Option Platform
  UEFIVendor : String
  ISOLabel : String
  KernelOpts : List String

/-- The struct `kickstart.OSTree`. -/
structure KickstartOSTree where
  OSName : String
  Remote : String

/-- The struct `kickstart.Options`, with the fields the source assigns. -/
structure KickstartOptions (E : Ext) where
  OSTree : Option KickstartOSTree
  Users : List E.User
  Groups : List E.Group
  SudoNopasswd : List String
  Language : Option String
  Keyboard : Option String
  Timezone : Option String
  Unattended : Bool
  Path : String

/-- Modelled from the spec: the ISO-tree pipeline
`manifest.AnacondaInstallerISOTree` (type declaration missing from the
sources). -/
structure AnacondaInstallerISOTree (E : Ext) where
  buildPipeline : Build E
  anacondaPipeline : AnacondaInstaller E
  rootfsPipeline : ISORootfsImg E
  bootTreePipeline : EFIBootTree E
  PartitionTable : Option E.PartitionTable
  Release : String
  Kickstart : Option (KickstartOptions E)
  SquashfsCompression : String
  PayloadPath : String
  OSTreeCommitSource : Option E.SourceSpec
  ISOLinux : Bool
  KernelOpts : List String

/-- Modelled from the spec: the final ISO pipeline `manifest.ISO`, with the
arguments of `manifest.NewISO` and the fields the source assigns (type
declaration missing from the sources). -/
structure ISO (E : Ext) where
  buildPipeline : Build E
  treePipeline : AnacondaInstallerISOTree E
  isoLabel : String
  Filename : String
  ISOLinux : Bool

/-- The constants and functions of other packages that the method uses and
that the sources do not hold: the constants `arch.ARCH_X86_64`,
`osbuild.KickstartPathOSBuild`, `common.GibiByte` and
`manifest.AnacondaInstallerTypePayload`, the function `efiBootPartitionTable`
(which draws from the random generator), the kernel options that
`manifest.NewAnacondaInstallerISOTree` leaves in a fresh ISO-tree pipeline, and
the method `Export` of the ISO pipeline. -/
structure Collaborators (E : Ext) where
  ARCH_X86_64 : Arch
  KickstartPathOSBuild : String
  GibiByte : Nat
  AnacondaInstallerTypePayload : E.InstallerType
  efiBootPartitionTable : E.Rand → E.PartitionTable × E.Rand
  isoTreeKernelOpts : List String
  Export : ISO E → E.Artifact

/-- What a call of `InstantiateManifest` leaves behind: the six pipelines added
to the manifest, the state of the random generator, and the two results of the
source. -/
structure Instantiated (E : Ext) where
  buildPipeline : Build E
  anacondaPipeline : AnacondaInstaller E
  rootfsImagePipeline : ISORootfsImg E
  bootTreePipeline : EFIBootTree E
  isoTreePipeline : AnacondaInstallerISOTree E
  isoPipeline : ISO E
  rng : E.Rand
  artifact : Option E.Artifact
  err : Option String

/-- The method `AnacondaOSTreeInstaller.InstantiateManifest`. -/
def AnacondaOSTreeInstaller.InstantiateManifest {E : Ext} (env : Collaborators E)
    (img : AnacondaOSTreeInstaller E) (m : E.Manifest) (repos : List E.RepoConfig)
    (runner : E.Runner) (rng : E.Rand) : Instantiated E :=
  let buildPipeline : Build E :=
    { manifest := m, runner := runner, repos := repos, Checkpoint := false }
  let buildPipeline : Build E := { buildPipeline with Checkpoint := true }
  let anacondaPipeline : AnacondaInstaller E :=
    { installerType := env.AnacondaInstallerTypePayload
      buildPipeline := buildPipeline
      platform := img.Platform
      repos := repos
      kernelName := "kernel"
      product := img.Product
      version := img.OSVersion
      preview := img.Preview
      ExtraPackages := []
      ExcludePackages := []
      ExtraRepos := []
      Users := []
      Groups := []
      Variant := ""
      Biosdevname := false
      Checkpoint := false
      AdditionalDracutModules := []
      AdditionalAnacondaModules := []
      AdditionalDrivers := [] }
  let anacondaPipeline : AnacondaInstaller E := { anacondaPipeline with ExtraPackages := img.ExtraBasePackages.Include }
  let anacondaPipeline : AnacondaInstaller E := { anacondaPipeline with ExcludePackages := img.ExtraBasePackages.Exclude }
  let anacondaPipeline : AnacondaInstaller E :=
    { anacondaPipeline with ExtraRepos := img.ExtraBasePackages.Repositories }
  let anacondaPipeline : AnacondaInstaller E := { anacondaPipeline with Users := img.Users }
  let anacondaPipeline : AnacondaInstaller E := { anacondaPipeline with Groups := img.Groups }
  let anacondaPipeline : AnacondaInstaller E := { anacondaPipeline with Variant := img.Variant }
  let anacondaPipeline : AnacondaInstaller E :=
    { anacondaPipeline with Biosdevname := decide (img.Platform.GetArch = env.ARCH_X86_64) }
  let anacondaPipeline : AnacondaInstaller E := { anacondaPipeline with Checkpoint := true }
  let anacondaPipeline : AnacondaInstaller E :=
    { anacondaPipeline with AdditionalDracutModules := img.AdditionalDracutModules }
  let anacondaPipeline : AnacondaInstaller E :=
    { anacondaPipeline with AdditionalAnacondaModules := img.AdditionalAnacondaModules }
  let anacondaPipeline : AnacondaInstaller E :=
    if img.FIPS then
      { anacondaPipeline with
        AdditionalAnacondaModules := anacondaPipeline.AdditionalAnacondaModules
          ++ ["org.fedoraproject.Anaconda.Modules.Security"] }
    else anacondaPipeline
  let anacondaPipeline : AnacondaInstaller E := { anacondaPipeline with AdditionalDrivers := img.AdditionalDrivers }
  let rootfsImagePipeline : ISORootfsImg E :=
    { buildPipeline := buildPipeline, installerPipeline := anacondaPipeline, Size := 0 }
  let rootfsImagePipeline : ISORootfsImg E := { rootfsImagePipeline with Size := 4 * env.GibiByte }
  let bootTreePipeline : EFIBootTree E :=
    { buildPipeline := buildPipeline
      product := img.Product
      version := img.OSVersion
      Platform := none
      UEFIVendor := ""
      ISOLabel := ""
      KernelOpts := [] }
  let bootTreePipeline : EFIBootTree E := { bootTreePipeline with Platform := some img.Platform }
  let bootTreePipeline : EFIBootTree E := { bootTreePipeline with UEFIVendor := img.Platform.GetUEFIVendor }
  let bootTreePipeline : EFIBootTree E := { bootTreePipeline with ISOLabel := img.ISOLabel }
  let kspath := env.KickstartPathOSBuild
  let bootTreePipeline : EFIBootTree E :=
    { bootTreePipeline with
      KernelOpts := [
        "inst.stage2=hd:LABEL=" ++ img.ISOLabel,
        "inst.ks=hd:LABEL=" ++ img.ISOLabel ++ ":" ++ kspath] }
  let bootTreePipeline : EFIBootTree E :=
    if img.FIPS then
      { bootTreePipeline with KernelOpts := bootTreePipeline.KernelOpts ++ ["fips=1"] }
    else bootTreePipeline
  let isoLinuxEnabled := decide (img.Platform.GetArch = env.ARCH_X86_64)
  let isoTreePipeline : AnacondaInstallerISOTree E :=
    { buildPipeline := buildPipeline
      anacondaPipeline := anacondaPipeline
      rootfsPipeline := rootfsImagePipeline
      bootTreePipeline := bootTreePipeline
      PartitionTable := none
      Release := ""
      Kickstart := none
      SquashfsCompression := ""
      PayloadPath := ""
      OSTreeCommitSource := none
      ISOLinux := false
      KernelOpts := env.isoTreeKernelOpts }
  let drawn := env.efiBootPartitionTable rng
  let isoTreePipeline : AnacondaInstallerISOTree E := { isoTreePipeline with PartitionTable := some drawn.1 }
  let isoTreePipeline : AnacondaInstallerISOTree E := { isoTreePipeline with Release := img.Release }
  let isoTreePipeline : AnacondaInstallerISOTree E :=
    { isoTreePipeline with
      Kickstart := some
        { OSTree := some { OSName := img.OSName, Remote := img.Remote }
          Users := img.Users
          Groups := img.Groups
          SudoNopasswd := img.NoPasswd
          Language := img.Language
          Keyboard := img.Keyboard
          Timezone := img.Timezone
          Unattended := img.UnattendedKickstart
          Path := kspath } }
  let isoTreePipeline : AnacondaInstallerISOTree E := { isoTreePipeline with SquashfsCompression := img.SquashfsCompression }
  let isoTreePipeline : AnacondaInstallerISOTree E := { isoTreePipeline with PayloadPath := "/ostree/repo" }
  let isoTreePipeline : AnacondaInstallerISOTree E := { isoTreePipeline with OSTreeCommitSource := some img.Commit }
  let isoTreePipeline : AnacondaInstallerISOTree E := { isoTreePipeline with ISOLinux := isoLinuxEnabled }
  let isoTreePipeline : AnacondaInstallerISOTree E :=
    if img.FIPS then
      { isoTreePipeline with KernelOpts := isoTreePipeline.KernelOpts ++ ["fips=1"] }
    else isoTreePipeline
  let isoPipeline : ISO E :=
    { buildPipeline := buildPipeline
      treePipeline := isoTreePipeline
      isoLabel := img.ISOLabel
      Filename := ""
      ISOLinux := false }
  let isoPipeline : ISO E := { isoPipeline with Filename := img.Filename }
  let isoPipeline : ISO E := { isoPipeline with ISOLinux := isoLinuxEnabled }
  let artifact := env.Export isoPipeline
  { buildPipeline := buildPipeline
    anacondaPipeline := anacondaPipeline
    rootfsImagePipeline := rootfsImagePipeline
    bootTreePipeline := bootTreePipeline
    isoTreePipeline := isoTreePipeline
    isoPipeline := isoPipeline
    rng := drawn.2
    artifact := some artifact
    err := none }

/-- Sample collaborator types: every value passed on is a string. -/
abbrev sampleExt : Ext :=
  { RepoConfig := String
    User := String
    Group := String
    SourceSpec := String
    Runner := String
    Manifest := String
    Rand := Nat
    PartitionTable := Nat
    Artifact := String
    Base := String
    InstallerType := String }

/-- Sample collaborators: x86_64 is the identity 4, the kickstart path is
"/osbuild.ks", a fresh ISO-tree pipeline has no kernel options. -/
def sampleEnv : Collaborators sampleExt :=
  { ARCH_X86_64 := 4
    KickstartPathOSBuild := "/osbuild.ks"
    GibiByte := 1073741824
    AnacondaInstallerTypePayload := "payload"
    efiBootPartitionTable := fun (seed : Nat) => (seed, seed + 1)
    isoTreeKernelOpts := []
    Export := fun iso => iso.Filename }

/-- A sample installer image, given its architecture and its FIPS flag. -/
def sampleImage (a : Arch) (fips : Bool) : AnacondaOSTreeInstaller sampleExt :=
  { Base := "ostree-installer"
    Platform := { GetArch := a, GetUEFIVendor := "fedora" }
    ExtraBasePackages := { Include := [], Exclude := [], Repositories := [] }
    Users := []
    Groups := []
    Language := none
    Keyboard := none
    Timezone := none
    NoPasswd := []
    UnattendedKickstart := false
    SquashfsCompression := "xz"
    ISOLabel := "Fedora-IoT"
    Product := "Fedora"
    Variant := "IoT"
    OSName := "fedora-iot"
    OSVersion := "40"
    Release := "Fedora 40"
    Preview := false
    Remote := "fedora-iot"
    Commit := "commit"
    Filename := "installer.iso"
    AdditionalDracutModules := []
    AdditionalAnacondaModules := ["org.fedoraproject.Anaconda.Modules.Users"]
    AdditionalDrivers := []
    FIPS := fips }

end image

/-! # The wire format of a repository configuration

Source: `src/pkg/rpmmd/test/repository_test.go`. Only the tests of the package
are among the sources; the type and its two JSON methods are modelled from the
spec and from the inputs and expected results of the tests. -/

namespace rpmmd

/-- Modelled from the spec: the type `rpmmd.RepoConfig`, whose declaration is
missing from the sources. The fields are the ones the literals of
`repository_test.go` set; a slice is a list and a pointer is an option. -/
structure RepoConfig where
  Id : String
  Name : String
  BaseURLs : List String
  Metalink : String
  MirrorList : String
  GPGKeys : List String
  CheckGPG : Option Bool
  CheckRepoGPG : Option Bool
  Priority : Option Int
  IgnoreSSL : Option Bool
  MetadataExpire : String
  RHSM : Bool
  Enabled : Option Bool
  ImageTypeTags : List String
  PackageSets : List String
  deriving DecidableEq, Repr

/-- Modelled from the spec: the JSON values of the wire format of a
`RepoConfig`: null, booleans, integers, strings and arrays of strings. The
text layer of `encoding/json` is outside the model. -/
inductive Value where
  | null
  | bool (b : Bool)
  | num (n : Int)
  | str (s : String)
  | strs (l : List String)
  deriving DecidableEq, Repr

/-- A JSON object: its members in the order in which they are written; the
keys of an object are taken to be distinct. -/
abbrev Object := List (String × Value)

/-- The words of a list written one after another with `sep` between them. -/
def joinChars (sep : Char) : List (List Char) → List Char
  | [] => []
  | [w] => w
  | w :: w2 :: ws => w ++ sep :: joinChars sep (w2 :: ws)

/-- The words between the occurrences of `sep`; the empty text has the one
empty word. -/
def splitChars (sep : Char) : List Char → List (List Char)
  | [] => [[]]
  | c :: cs =>
    if c = sep then [] :: splitChars sep cs
    else
      match splitChars sep cs with
      | [] => [[c]]
      | w :: ws => (c :: w) :: ws

/-- The library function `strings.Join` for a separator of one character. -/
def stringsJoin (l : List String) (sep : Char) : String :=
  String.mk (joinChars sep (l.map String.data))

/-- The library function `strings.Split` for a separator of one character. -/
def stringsSplit (s : String) (sep : Char) : List String :=
  (splitChars sep s.data).map String.mk

/-- A string member with `omitempty`: left out when the string is empty. -/
def stringField (k s : String) : Object := if s = "" then [] else [(k, Value.str s)]

/-- A string-array member with `omitempty`: left out when the list is empty. -/
def listField (k : String) (l : List String) : Object :=
  match l with
  | [] => []
  | _ :: _ => [(k, Value.strs l)]

/-- A member for a pointer to a boolean with `omitempty`: left out when the
pointer is nil. -/
def boolPtrField (k : String) (p : Option Bool) : Object :=
  match p with
  | none => []
  | some b => [(k, Value.bool b)]

/-- A member for a pointer to an integer with `omitempty`: left out when the
pointer is nil. -/
def intPtrField (k : String) (p : Option Int) : Object :=
  match p with
  | none => []
  | some n => [(k, Value.num n)]

/-- A boolean member with `omitempty`: left out when the value is false. -/
def boolField (k : String) (b : Bool) : Object := if b then [(k, Value.bool true)] else []

/-- Modelled from the spec: the JSON object of the wire record of a
`RepoConfig` (the marshalling code is missing from the sources): the members
in the order of the expected texts of `TestOldWorkerRepositoryCompatMarshal`,
empty members left out, with the explicit URL list `baseURLs` under "baseurls"
and the legacy single field `baseURL` under "baseurl", which comes last. -/
def wire (r : RepoConfig) (baseURLs : List String) (baseURL : String) : Object :=
  stringField "id" r.Id ++ stringField "name" r.Name ++ listField "baseurls" baseURLs
    ++ stringField "metalink" r.Metalink ++ stringField "mirrorlist" r.MirrorList
    ++ listField "gpgkeys" r.GPGKeys ++ boolPtrField "check_gpg" r.CheckGPG
    ++ boolPtrField "check_repo_gpg" r.CheckRepoGPG ++ intPtrField "priority" r.Priority
    ++ boolPtrField "ignore_ssl" r.IgnoreSSL ++ stringField "metadata_expire" r.MetadataExpire
    ++ boolField "rhsm" r.RHSM ++ boolPtrField "enabled" r.Enabled
    ++ listField "image_type_tags" r.ImageTypeTags ++ listField "package_sets" r.PackageSets
    ++ stringField "baseurl" baseURL

/-- Modelled from the spec: `json.Marshal` of a `RepoConfig` (the method
`MarshalJSON` is missing from the sources): the wire record with the URL list
and, in the legacy field, the same URLs joined by commas. -/
def RepoConfig.Marshal (r : RepoConfig) : Object :=
  wire r r.BaseURLs (stringsJoin r.BaseURLs ',')

/-- The error for a member whose value has the wrong JSON type. -/
def typeError (k : String) : String := "json: cannot unmarshal value into Go struct field " ++ k

/-- Decoding of a string member: absent or null leaves the empty string. -/
def getString (o : Object) (k : String) : Except String String :=
  match o.lookup k with
  | none => .ok ""
  | some Value.null => .ok ""
  | some (Value.str s) => .ok s
  | some _ => .error (typeError k)

/-- Decoding of a string-array member: absent or null leaves the empty list. -/
def getList (o : Object) (k : String) : Except String (List String) :=
  match o.lookup k with
  | none => .ok []
  | some Value.null => .ok []
  | some (Value.strs l) => .ok l
  | some _ => .error (typeError k)

/-- Decoding of a member for a pointer to a boolean: absent or null leaves
the nil pointer. -/
def getBoolPtr (o : Object) (k : String) : Except String (Option Bool) :=
  match o.lookup k with
  | none => .ok none
  | some Value.null => .ok none
  | some (Value.bool b) => .ok (some b)
  | some _ => .error (typeError k)

/-- Decoding of a member for a pointer to an integer: absent or null leaves
the nil pointer. -/
def getIntPtr (o : Object) (k : String) : Except String (Option Int) :=
  match o.lookup k with
  | none => .ok none
  | some Value.null => .ok none
  | some (Value.num n) => .ok (some n)
  | some _ => .error (typeError k)

/-- Decoding of a boolean member: absent or null leaves false. -/
def getBool (o : Object) (k : String) : Except String Bool :=
  match o.lookup k with
  | none => .ok false
  | some Value.null => .ok false
  | some (Value.bool b) => .ok b
  | some _ => .error (typeError k)

/-- Modelled from the spec: `json.Unmarshal` into a `RepoConfig` (the method
`UnmarshalJSON` is missing from the sources). Every member is decoded into its
field; when no explicit URL list is present and the legacy field "baseurl" is
not empty, the URL list is the legacy field split at the commas. The tests
leave open which of the two wins when both are present; here the explicit list
does, following the spec (the legacy field counts when only it is present). -/
def Unmarshal (data : Object) : Except String RepoConfig := do
  let id ← getString data "id"
  let name ← getString data "name"
  let baseURLs ← getList data "baseurls"
  let metalink ← getString data "metalink"
  let mirrorList ← getString data "mirrorlist"
  let gpgKeys ← getList data "gpgkeys"
  let checkGPG ← getBoolPtr data "check_gpg"
  let checkRepoGPG ← getBoolPtr data "check_repo_gpg"
  let priority ← getIntPtr data "priority"
  let ignoreSSL ← getBoolPtr data "ignore_ssl"
  let metadataExpire ← getString data "metadata_expire"
  let rhsm ← getBool data "rhsm"
  let enabled ← getBoolPtr data "enabled"
  let imageTypeTags ← getList data "image_type_tags"
  let packageSets ← getList data "package_sets"
  let baseURL ← getString data "baseurl"
  let baseURLs :=
    match baseURLs with
    | [] => if baseURL = "" then [] else stringsSplit baseURL ','
    | _ :: _ => baseURLs
  return { Id := id, Name := name, BaseURLs := baseURLs, Metalink := metalink,
           MirrorList := mirrorList, GPGKeys := gpgKeys, CheckGPG := checkGPG,
           CheckRepoGPG := checkRepoGPG, Priority := priority, IgnoreSSL := ignoreSSL,
           MetadataExpire := metadataExpire, RHSM := rhsm, Enabled := enabled,
           ImageTypeTags := imageTypeTags, PackageSets := packageSets }

/-- The zero value of `RepoConfig`. -/
def zeroRepoConfig : RepoConfig :=
  ⟨"", "", [], "", "", [], none, none, none, none, "", false, none, [], []⟩

/-- The repository "all" of the two tests, with every field set. -/
def repoAll : RepoConfig :=
  { Id := "all"
    Name := "all"
    BaseURLs := ["http://example.com/all"]
    Metalink := "http://example.com/metalink"
    MirrorList := "http://example.com/mirrorlist"
    GPGKeys := ["key1", "key2"]
    CheckGPG := some true
    CheckRepoGPG := some true
    Priority := some 10
    IgnoreSSL := some true
    MetadataExpire := "test"
    RHSM := true
    Enabled := some true
    ImageTypeTags := ["one", "two"]
    PackageSets := ["1", "2"] }

/-- The legacy input "multiple" of `TestOldWorkerRepositoryCompatUnmarshal`. -/
def jsonMultipleLegacy : Object :=
  [("name", Value.str "multiple"),
    ("baseurl", Value.str "http://example.com/one,http://example.com/two")]

end rpmmd

namespace rhel82

/-! ## Basic facts -/

theorem uuidParse_rootUUIDLiteral : uuidParse rootUUIDLiteral = .ok rootUUID := rfl

theorem grub2StageOptions_eq (k : String) :
    grub2StageOptions k = .ok ⟨rootUUID, k, true⟩ := by
  unfold grub2StageOptions
  rw [uuidParse_rootUUIDLiteral]

theorem New_eq : New = .ok newCatalog := rfl

theorem mapGet_mem {α : Type} (m : List (String × α)) (k : String) (v : α)
    (h : mapGet m k = some v) : (k, v) ∈ m := by
  induction m with
  | nil => simp [mapGet] at h
  | cons e rest ih =>
    obtain ⟨k', v'⟩ := e
    by_cases hk : k = k'
    · subst hk
      simp [mapGet, List.lookup] at h
      simp [h]
    · have hb : (k == k') = false := by simpa using hk
      simp only [mapGet, List.lookup, hb] at h
      exact List.mem_cons_of_mem _ (ih h)

/-! ## The order on strings and `sort.Strings` -/

theorem char_lt_iff (a b : Char) : a < b ↔ a.toNat < b.toNat := Iff.rfl

theorem bytesLe_iff (l1 l2 : List Char) : bytesLe l1 l2 = true ↔ ¬ List.lt l2 l1 := by
  induction l1 generalizing l2 with
  | nil =>
    simp only [bytesLe, true_iff]
    intro h; cases h
  | cons a as ih =>
    cases l2 with
    | nil =>
      simp only [bytesLe, Bool.false_eq_true, false_iff, not_not]
      exact List.lt.nil a as
    | cons b bs =>
      unfold bytesLe
      by_cases hab : a.toNat < b.toNat
      · simp only [hab, if_true, true_iff]
        intro h
        cases h with
        | head _ _ h => exact absurd ((char_lt_iff b a).1 h) (by omega)
        | tail _ h2 _ => exact h2 ((char_lt_iff a b).2 hab)
      · by_cases hba : b.toNat < a.toNat
        · simp only [hab, hba, if_true, if_false, Bool.false_eq_true, false_iff, not_not]
          exact List.lt.head _ _ ((char_lt_iff b a).2 hba)
        · simp only [hab, hba, if_false]
          rw [ih bs]
          constructor
          · intro h h'
            cases h' with
            | head _ _ h3 => exact hba ((char_lt_iff b a).1 h3)
            | tail _ _ h3 => exact h h3
          · intro h h'
            exact h (List.lt.tail (fun x => hba ((char_lt_iff b a).1 x))
              (fun x => hab ((char_lt_iff a b).1 x)) h')

/-- The comparison `strLe` is the lexicographic order `≤` on strings. -/
theorem strLe_iff (a b : String) : strLe a b = true ↔ a ≤ b := by
  unfold strLe
  rw [bytesLe_iff, String.le_iff_toList_le, ← not_lt]
  exact not_congr (List.lt_iff_lex_lt _ _)

theorem sorted_sortStrings (l : List String) : List.Sorted (· ≤ ·) (sortStrings l) := by
  have htot : IsTotal String (fun a b => strLe a b = true) :=
    ⟨fun a b => by simpa only [strLe_iff] using le_total a b⟩
  have htrans : IsTrans String (fun a b => strLe a b = true) :=
    ⟨fun a b c => by simpa only [strLe_iff] using le_trans⟩
  have h := List.sorted_insertionSort (fun a b => strLe a b = true) l
  exact h.imp (fun hab => (strLe_iff _ _).1 hab)

theorem perm_sortStrings (l : List String) : (sortStrings l).Perm l :=
  List.perm_insertionSort _ l

theorem mem_sortStrings (l : List String) (x : String) : x ∈ sortStrings l ↔ x ∈ l :=
  (perm_sortStrings l).mem_iff

/-! ## The package-install stage options -/

theorem foldl_AddRepository (g : RepoConfig → DNFRepository) (l : List RepoConfig)
    (o : DNFStageOptions) :
    (l.foldl (fun o repo => o.AddRepository (g repo)) o).Packages = o.Packages ∧
    (l.foldl (fun o repo => o.AddRepository (g repo)) o).ExcludedPackages = o.ExcludedPackages ∧
    (l.foldl (fun o repo => o.AddRepository (g repo)) o).Repositories
      = o.Repositories ++ l.map g := by
  induction l generalizing o with
  | nil => simp
  | cons x xs ih =>
    simp only [List.foldl_cons, List.map_cons]
    obtain ⟨h1, h2, h3⟩ := ih (o.AddRepository (g x))
    refine ⟨h1, h2, ?_⟩
    rw [h3]
    simp [DNFStageOptions.AddRepository]

theorem foldl_AddPackage (l : List String) (o : DNFStageOptions) :
    (l.foldl (fun o pkg => o.AddPackage pkg) o).Packages = o.Packages ++ l ∧
    (l.foldl (fun o pkg => o.AddPackage pkg) o).ExcludedPackages = o.ExcludedPackages := by
  induction l generalizing o with
  | nil => simp
  | cons x xs ih =>
    simp only [List.foldl_cons]
    obtain ⟨h1, h2⟩ := ih (o.AddPackage x)
    refine ⟨?_, h2⟩
    rw [h1]
    simp [DNFStageOptions.AddPackage]

theorem foldl_ExcludePackage (l : List String) (o : DNFStageOptions) :
    (l.foldl (fun o pkg => o.ExcludePackage pkg) o).Packages = o.Packages ∧
    (l.foldl (fun o pkg => o.ExcludePackage pkg) o).ExcludedPackages
      = o.ExcludedPackages ++ l := by
  induction l generalizing o with
  | nil => simp
  | cons x xs ih =>
    simp only [List.foldl_cons]
    obtain ⟨h1, h2⟩ := ih (o.ExcludePackage x)
    refine ⟨h1, ?_⟩
    rw [h2]
    simp [DNFStageOptions.ExcludePackage]

/-- The include list built by `dnfStageOptions` is the sorted package list. -/
theorem dnfStageOptions_Packages (a : arch) (repos : List RepoConfig)
    (cks : List (String × String)) (pk ex : List String) :
    (dnfStageOptions a repos cks pk ex).Packages = sortStrings pk := by
  unfold dnfStageOptions
  simp only [(foldl_ExcludePackage _ _).1, (foldl_AddPackage _ _).1,
    (foldl_AddRepository _ _ _).1, List.nil_append]

/-- The exclude list built by `dnfStageOptions` is the sorted excluded list. -/
theorem dnfStageOptions_ExcludedPackages (a : arch) (repos : List RepoConfig)
    (cks : List (String × String)) (pk ex : List String) :
    (dnfStageOptions a repos cks pk ex).ExcludedPackages = sortStrings ex := by
  unfold dnfStageOptions
  simp only [(foldl_ExcludePackage _ _).2, (foldl_AddPackage _ _).2,
    (foldl_AddRepository _ _ _).2.1, List.nil_append]

/-! ## The users stage options -/

theorem userStageOptionsLoop_ok (c : Crypt) (users : List UserCustomization)
    (acc : List (String × UsersStageOptionsUser)) (h : ∀ u ∈ users, hashSucceeds c u) :
    ∃ m, userStageOptionsLoop c users acc = .ok m := by
  induction users generalizing acc with
  | nil => exact ⟨acc, rfl⟩
  | cons u rest ih =>
    have hu := h u (List.mem_cons_self _ _)
    have hrest : ∀ x ∈ rest, hashSucceeds c x := fun x hx => h x (List.mem_cons_of_mem _ hx)
    unfold userStageOptionsLoop
    cases hp : u.Password with
    | none => simpa using ih _ hrest
    | some pw =>
      cases hc : c.PasswordIsCrypted pw with
      | true => simpa [hc] using ih _ hrest
      | false =>
        obtain ⟨hash, hh⟩ := hu pw hp hc
        simpa [hc, hh] using ih _ hrest

theorem userStageOptionsLoop_error (c : Crypt) (pre : List UserCustomization)
    (u : UserCustomization) (post : List UserCustomization)
    (acc : List (String × UsersStageOptionsUser)) (e : GoError)
    (hpre : ∀ x ∈ pre, hashSucceeds c x) (hu : hashFails c u e) :
    userStageOptionsLoop c (pre ++ u :: post) acc = .error e := by
  induction pre generalizing acc with
  | nil =>
    obtain ⟨pw, hp, hc, he⟩ := hu
    simp [userStageOptionsLoop, hp, hc, he]
  | cons x rest ih =>
    have hx := hpre x (List.mem_cons_self _ _)
    have hrest : ∀ y ∈ rest, hashSucceeds c y := fun y hy => hpre y (List.mem_cons_of_mem _ hy)
    simp only [List.cons_append]
    unfold userStageOptionsLoop
    cases hp : x.Password with
    | none => simpa using ih _ hrest
    | some pw =>
      cases hc : c.PasswordIsCrypted pw with
      | true => simpa [hc] using ih _ hrest
      | false =>
        obtain ⟨hash, hh⟩ := hx pw hp hc
        simpa [hc, hh] using ih _ hrest

theorem userStageOptions_ok (c : Crypt) (users : List UserCustomization)
    (h : ∀ u ∈ users, hashSucceeds c u) : ∃ uo, userStageOptions c users = .ok uo := by
  obtain ⟨m, hm⟩ := userStageOptionsLoop_ok c users [] h
  exact ⟨⟨m⟩, by simp [userStageOptions, hm]⟩

theorem userStageOptions_error (c : Crypt) (pre : List UserCustomization)
    (u : UserCustomization) (post : List UserCustomization) (e : GoError)
    (hpre : ∀ x ∈ pre, hashSucceeds c x) (hu : hashFails c u e) :
    userStageOptions c (pre ++ u :: post) = .error e := by
  simp [userStageOptions, userStageOptionsLoop_error c pre u post [] e hpre hu]

theorem userStageOptions_nil (c : Crypt) : userStageOptions c [] = .ok ⟨[]⟩ := rfl

/-! ## The closed form of `Pipeline` -/

theorem Grows.add (p : Pipeline) (st : Stage) : Grows p [st] (p.AddStage st) := by
  cases p; rfl

theorem Grows.addIf (c : Prop) [Decidable c] (p : Pipeline) (st : Stage) :
    Grows p (if c then [st] else []) (if c then p.AddStage st else p) := by
  cases p; split <;> simp [Grows, Pipeline.AddStage, Pipeline.Build, Pipeline.Runner,
    Pipeline.Stages, Pipeline.Assembler]

theorem Grows.refl (p : Pipeline) : Grows p [] p := by
  cases p; simp [Grows, Pipeline.Build, Pipeline.Runner, Pipeline.Stages, Pipeline.Assembler]

theorem Grows.trans {p q s : Pipeline} {X Y : List Stage} (h1 : Grows p X q)
    (h2 : Grows q Y s) : Grows p (X ++ Y) s := by
  cases p; subst h1; subst h2
  simp [Grows, Pipeline.Build, Pipeline.Runner, Pipeline.Stages, Pipeline.Assembler]

/-- An unknown output format: the invalid-output-format error, whatever the
architecture. -/
theorem Pipeline_invalidFormat (r : RHEL82) (c : Crypt) (b : Blueprint)
    (repos : List RepoConfig) (cks : List (String × String)) (a f : String)
    (h1 : mapGet r.outputs f = none) :
    r.Pipeline c b repos cks a f
      = .ok ⟨none, some ("invalid output format: " ++ f), r⟩ := by
  unfold RHEL82.Pipeline
  simp only [h1]

/-- A known output format with an unknown architecture: the
invalid-architecture error. -/
theorem Pipeline_invalidArch (r : RHEL82) (c : Crypt) (b : Blueprint)
    (repos : List RepoConfig) (cks : List (String × String)) (a f : String) (o : output)
    (h1 : mapGet r.outputs f = some o) (h2 : mapGet r.arches a = none) :
    r.Pipeline c b repos cks a f
      = .ok ⟨none, some ("invalid architecture: " ++ a), r⟩ := by
  unfold RHEL82.Pipeline
  simp only [h1, h2]

/-- Both names known and the users stage options computed: the pipeline in
closed form. -/
theorem Pipeline_success (r : RHEL82) (c : Crypt) (b : Blueprint) (repos : List RepoConfig)
    (cks : List (String × String)) (a f : String) (o : output) (ar : arch)
    (uo : UsersStageOptions)
    (h1 : mapGet r.outputs f = some o) (h2 : mapGet r.arches a = some ar)
    (hu : userStageOptions c b.users = .ok uo) :
    r.Pipeline c b repos cks a f
      = .ok ⟨some (.mk (some (buildPipeline ar cks)) "org.osbuild.rhel82"
          (stagesOf o ar b repos cks uo) o.Assembler), none,
          sortedInPlace r f o (packagesShared o ar b)⟩ := by
  unfold RHEL82.Pipeline
  simp -zeta only [h1, h2, grub2StageOptions_eq, hu]
  lift_lets
  intro p0 p1 pk1 pk2 p2 r1 p3 p4 ko p5 p6 p7 p8 p9 p10 wu
  have e1 : p1 = .mk (some (buildPipeline ar cks)) "org.osbuild.rhel82" [] none := rfl
  have epk : pk2 = ⟨o.Packages ++ b.packages
      ++ (if o.Bootable then ar.BootloaderPackages else []), packagesShared o ar b⟩ := by
    simp only [pk2, pk1, Slice.append, Slice.ofTable, packagesShared]
    cases o.Bootable <;> simp
  have g2 : Grows p1 _ p2 := Grows.add p1 _
  have g3 : Grows p2 _ p3 := Grows.add p2 _
  have g4 : Grows p3 _ p4 := Grows.addIf _ p3 _
  have g5 : Grows p4 _ p5 := Grows.add p4 _
  have g6 : Grows p5 [Stage.Locale ⟨b.language.getD "en_US"⟩] p6 := by
    have : p6 = p5.AddStage (Stage.Locale ⟨b.language.getD "en_US"⟩) := by
      simp only [p6]; cases b.language <;> rfl
    rw [this]; exact Grows.add p5 _
  have g7 : Grows p6 (b.keyboard.map (fun k => Stage.Keymap ⟨k⟩)).toList p7 := by
    simp only [p7]; cases b.keyboard
    · exact Grows.refl p6
    · exact Grows.add p6 _
  have g8 : Grows p7 (b.hostname.map (fun k => Stage.Hostname ⟨k⟩)).toList p8 := by
    simp only [p8]; cases b.hostname
    · exact Grows.refl p7
    · exact Grows.add p7 _
  have g9 : Grows p8 (b.timezone.map (fun k => Stage.Timezone ⟨k⟩)).toList p9 := by
    simp only [p9]; cases b.timezone
    · exact Grows.refl p8
    · exact Grows.add p8 _
  have g10 : Grows p9 _ p10 := Grows.addIf _ p9 _
  have ewu : wu = .ok (if b.users.length > 0 then p10.AddStage (Stage.Users uo) else p10) := by
    simp only [wu]; split <;> rfl
  simp -zeta only [ewu]
  lift_lets
  intro p11 p12 p13 p14 p15
  have g11 : Grows p10 _ p11 := (Grows.addIf _ p10 _).trans (Grows.addIf _ _ _)
  have g12 : Grows p11 _ p12 := Grows.addIf _ p11 _
  have g13 : Grows p12
      (b.firewall.map (fun k => Stage.Firewall (firewallStageOptions k))).toList p13 := by
    simp only [p13]; cases b.firewall
    · exact Grows.refl p12
    · exact Grows.add p12 _
  have g14 : Grows p13 _ p14 := Grows.add p13 _
  have gall := ((((((((((((g2.trans g3).trans g4).trans g5).trans g6).trans g7).trans
    g8).trans g9).trans g10).trans g11).trans g12).trans g13).trans g14)
  have e15 : p15 = .mk (some (buildPipeline ar cks)) "org.osbuild.rhel82"
      (stagesOf o ar b repos cks uo) o.Assembler := by
    simp only [p15]
    rw [gall, e1]
    simp only [Pipeline.setAssembler, Pipeline.Build, Pipeline.Runner, Pipeline.Stages, epk,
      stagesOf, List.nil_append, List.append_assoc, List.cons_append, ko]
  have er : r1 = sortedInPlace r f o (packagesShared o ar b) := by
    simp only [r1, epk]
  rw [e15, er]

/-- Both names known and a password hash failing: that error, no pipeline. -/
theorem Pipeline_hashError (r : RHEL82) (c : Crypt) (b : Blueprint) (repos : List RepoConfig)
    (cks : List (String × String)) (a f : String) (o : output) (ar : arch) (e : GoError)
    (h1 : mapGet r.outputs f = some o) (h2 : mapGet r.arches a = some ar)
    (hu : userStageOptions c b.users = .error e) :
    r.Pipeline c b repos cks a f
      = .ok ⟨none, some e, sortedInPlace r f o (packagesShared o ar b)⟩ := by
  have hne : b.users.length > 0 := by
    cases hb : b.users with
    | nil => rw [hb, userStageOptions_nil] at hu; cases hu
    | cons x xs => simp
  unfold RHEL82.Pipeline
  simp -zeta only [h1, h2, grub2StageOptions_eq, hu, hne, if_true]
  lift_lets
  intro pk1 pk2 r1 wu
  have epk : pk2 = ⟨o.Packages ++ b.packages
      ++ (if o.Bootable then ar.BootloaderPackages else []), packagesShared o ar b⟩ := by
    simp only [pk2, pk1, Slice.append, Slice.ofTable, packagesShared]
    cases o.Bootable <;> simp
  have er : r1 = sortedInPlace r f o (packagesShared o ar b) := by
    simp only [r1, epk]
  simp only [wu, er]

/-- Every call returns: either no pipeline and an error, or the pipeline in
closed form and no error. -/
theorem Pipeline_returns (r : RHEL82) (c : Crypt) (b : Blueprint) (repos : List RepoConfig)
    (cks : List (String × String)) (a f : String) :
    ∃ ret, r.Pipeline c b repos cks a f = .ok ret ∧
      ((ret.pipeline = none ∧ ∃ e, ret.err = some e) ∨
       (∃ o ar uo, mapGet r.outputs f = some o ∧ mapGet r.arches a = some ar ∧
          userStageOptions c b.users = .ok uo ∧ ret.err = none ∧
          ret.pipeline = some (.mk (some (buildPipeline ar cks)) "org.osbuild.rhel82"
            (stagesOf o ar b repos cks uo) o.Assembler))) := by
  cases h1 : mapGet r.outputs f with
  | none => exact ⟨_, Pipeline_invalidFormat r c b repos cks a f h1, Or.inl ⟨rfl, _, rfl⟩⟩
  | some o =>
    cases h2 : mapGet r.arches a with
    | none => exact ⟨_, Pipeline_invalidArch r c b repos cks a f o h1 h2, Or.inl ⟨rfl, _, rfl⟩⟩
    | some ar =>
      cases hu : userStageOptions c b.users with
      | error e =>
        exact ⟨_, Pipeline_hashError r c b repos cks a f o ar e h1 h2 hu, Or.inl ⟨rfl, _, rfl⟩⟩
      | ok uo =>
        exact ⟨_, Pipeline_success r c b repos cks a f o ar uo h1 h2 hu,
          Or.inr ⟨o, ar, uo, rfl, rfl, rfl, rfl, rfl⟩⟩

/-- The stage list of a successful translation starts with the package-install
stage and the BLS-fix stage. -/
theorem stagesOf_eq_cons (o : output) (ar : arch) (b : Blueprint) (repos : List RepoConfig)
    (cks : List (String × String)) (uo : UsersStageOptions) :
    ∃ rest, stagesOf o ar b repos cks uo
      = Stage.DNF (dnfStageOptions ar repos cks
          (o.Packages ++ b.packages ++ (if o.Bootable then ar.BootloaderPackages else []))
          o.ExcludedPackages) :: Stage.FixBLS :: rest := by
  unfold stagesOf
  simp only [List.cons_append, List.append_assoc, List.nil_append]
  exact ⟨_, rfl⟩

/-- The stage list of a successful translation ends with the SELinux stage. -/
theorem stagesOf_eq_concat (o : output) (ar : arch) (b : Blueprint) (repos : List RepoConfig)
    (cks : List (String × String)) (uo : UsersStageOptions) :
    ∃ front, stagesOf o ar b repos cks uo = front ++ [Stage.SELinux selinuxStageOptions] := by
  unfold stagesOf
  exact ⟨_, rfl⟩

/-- The build pipeline has one stage and no assembler. -/
theorem buildPipeline_eq (ar : arch) (cks : List (String × String)) :
    buildPipeline ar cks = .mk none ""
      [Stage.DNF (dnfStageOptions ar [] cks
        (["dnf", "dracut-config-generic", "e2fsprogs", "glibc", "policycoreutils", "python36",
          "qemu-img", "systemd", "tar", "xfsprogs"] ++ ar.BuildPackages) [])] none := rfl

/-! ## Stage kinds of the closed form -/

@[simp] theorem kind_DNF (o) : (Stage.DNF o).kind = StageKind.DNF := rfl

@[simp] theorem kind_FixBLS : Stage.FixBLS.kind = StageKind.FixBLS := rfl

@[simp] theorem kind_FSTab (o) : (Stage.FSTab o).kind = StageKind.FSTab := rfl

@[simp] theorem kind_GRUB2 (o) : (Stage.GRUB2 o).kind = StageKind.GRUB2 := rfl

@[simp] theorem kind_Locale (o) : (Stage.Locale o).kind = StageKind.Locale := rfl

@[simp] theorem kind_Keymap (o) : (Stage.Keymap o).kind = StageKind.Keymap := rfl

@[simp] theorem kind_Hostname (o) : (Stage.Hostname o).kind = StageKind.Hostname := rfl

@[simp] theorem kind_Timezone (o) : (Stage.Timezone o).kind = StageKind.Timezone := rfl

@[simp] theorem kind_Chrony (o) : (Stage.Chrony o).kind = StageKind.Chrony := rfl

@[simp] theorem kind_Users (o) : (Stage.Users o).kind = StageKind.Users := rfl

@[simp] theorem kind_Groups (o) : (Stage.Groups o).kind = StageKind.Groups := rfl

@[simp] theorem kind_Systemd (o) : (Stage.Systemd o).kind = StageKind.Systemd := rfl

@[simp] theorem kind_Firewall (o) : (Stage.Firewall o).kind = StageKind.Firewall := rfl

@[simp] theorem kind_SELinux (o) : (Stage.SELinux o).kind = StageKind.SELinux := rfl

theorem map_kind_ite (c : Prop) [Decidable c] (s : Stage) :
    (if c then [s] else []).map Stage.kind = if c then [s.kind] else [] := by
  split <;> rfl

theorem map_kind_option {α : Type} (x : Option α) (g : α → Stage) (K : StageKind)
    (h : ∀ v, (g v).kind = K) :
    ((x.map g).toList).map Stage.kind = if x.isSome then [K] else [] := by
  cases x <;> simp [h]

/-- The kinds of the stages of a successful translation, in order. -/
theorem kinds_stagesOf (o : output) (ar : arch) (b : Blueprint) (repos : List RepoConfig)
    (cks : List (String × String)) (uo : UsersStageOptions) :
    (stagesOf o ar b repos cks uo).map Stage.kind =
      [StageKind.DNF, StageKind.FixBLS]
      ++ (if o.Bootable then [StageKind.FSTab] else [])
      ++ [StageKind.GRUB2, StageKind.Locale]
      ++ (if b.keyboard.isSome then [StageKind.Keymap] else [])
      ++ (if b.hostname.isSome then [StageKind.Hostname] else [])
      ++ (if b.timezone.isSome then [StageKind.Timezone] else [])
      ++ (if b.ntpServers.length > 0 then [StageKind.Chrony] else [])
      ++ (if b.users.length > 0 then [StageKind.Users] else [])
      ++ (if b.groups.length > 0 then [StageKind.Groups] else [])
      ++ (if b.services.isSome ∨ o.EnabledServices.isSome then [StageKind.Systemd] else [])
      ++ (if b.firewall.isSome then [StageKind.Firewall] else [])
      ++ [StageKind.SELinux] := by
  unfold stagesOf
  simp only [List.map_append, map_kind_ite,
    map_kind_option b.keyboard (fun k => Stage.Keymap ⟨k⟩) StageKind.Keymap (fun _ => rfl),
    map_kind_option b.hostname (fun h => Stage.Hostname ⟨h⟩) StageKind.Hostname (fun _ => rfl),
    map_kind_option b.timezone (fun t => Stage.Timezone ⟨t⟩) StageKind.Timezone (fun _ => rfl),
    map_kind_option b.firewall (fun fw => Stage.Firewall (firewallStageOptions fw))
      StageKind.Firewall (fun _ => rfl),
    List.map_cons, List.map_nil, kind_DNF, kind_FixBLS, kind_GRUB2, kind_Locale,
    kind_SELinux, kind_FSTab, kind_Chrony, kind_Users, kind_Groups, kind_Systemd]

theorem filter_kind_ite (K : StageKind) (c : Prop) [Decidable c] (s : Stage) (h : s.kind ≠ K) :
    (if c then [s] else []).filter (fun s => decide (s.kind = K)) = [] := by
  split <;> simp [h]

theorem filter_kind_option {α : Type} (K : StageKind) (x : Option α) (g : α → Stage)
    (h : ∀ v, (g v).kind ≠ K) :
    ((x.map g).toList).filter (fun s => decide (s.kind = K)) = [] := by
  cases x <;> simp [h]

/-- The package-install stage occurs once in the closed form. -/
theorem filter_DNF_stagesOf (o : output) (ar : arch) (b : Blueprint) (repos : List RepoConfig)
    (cks : List (String × String)) (uo : UsersStageOptions) :
    (stagesOf o ar b repos cks uo).filter (fun s => decide (s.kind = StageKind.DNF))
      = [Stage.DNF (dnfStageOptions ar repos cks
          (o.Packages ++ b.packages ++ (if o.Bootable then ar.BootloaderPackages else []))
          o.ExcludedPackages)] := by
  unfold stagesOf
  simp [List.filter_cons, filter_kind_ite, filter_kind_option]

/-- The GRUB2 stage occurs once in the closed form. -/
theorem filter_GRUB2_stagesOf (o : output) (ar : arch) (b : Blueprint)
    (repos : List RepoConfig) (cks : List (String × String)) (uo : UsersStageOptions) :
    (stagesOf o ar b repos cks uo).filter (fun s => decide (s.kind = StageKind.GRUB2))
      = [Stage.GRUB2
          { RootFilesystemUUID := rootUUID
            KernelOptions :=
              match b.kernel with
              | some kernel => o.KernelOptions ++ " " ++ kernel.Append
              | none => o.KernelOptions
            Legacy := true }] := by
  unfold stagesOf
  simp [List.filter_cons, filter_kind_ite, filter_kind_option]

/-- The locale stage occurs once in the closed form. -/
theorem filter_Locale_stagesOf (o : output) (ar : arch) (b : Blueprint)
    (repos : List RepoConfig) (cks : List (String × String)) (uo : UsersStageOptions) :
    (stagesOf o ar b repos cks uo).filter (fun s => decide (s.kind = StageKind.Locale))
      = [Stage.Locale { Language := b.language.getD "en_US" }] := by
  unfold stagesOf
  simp [List.filter_cons, filter_kind_ite, filter_kind_option]

/-- The names in the include list that `Pipeline` hands to the
package-install stage. -/
theorem mem_include_list (o : output) (ar : arch) (b : Blueprint) (repos : List RepoConfig)
    (cks : List (String × String)) (name : String) :
    name ∈ (dnfStageOptions ar repos cks
      (o.Packages ++ b.packages ++ (if o.Bootable then ar.BootloaderPackages else []))
      o.ExcludedPackages).Packages ↔
      (name ∈ o.Packages ∨ name ∈ b.packages ∨
        (o.Bootable = true ∧ name ∈ ar.BootloaderPackages)) := by
  rw [dnfStageOptions_Packages, mem_sortStrings]
  cases o.Bootable <;> simp [or_assoc]

/-! ## The properties of the translation -/

/-- C1: for every output format of the catalog built by `New`, the architecture
"x86_64" and every blueprint whose user passwords hash without error,
`Pipeline` returns a nil error and a pipeline whose stage list is non-empty,
whose assembler is non-nil and whose attached build pipeline has a nil
assembler. -/
theorem Pipeline_catalog_wellformed (r : RHEL82) (c : Crypt) (b : Blueprint)
    (repos : List RepoConfig) (cks : List (String × String)) (f : String)
    (hr : New = .ok r) (hf : (mapGet r.outputs f).isSome = true)
    (hc : ∀ u ∈ b.users, hashSucceeds c u) :
    ∃ p bp r', r.Pipeline c b repos cks "x86_64" f = .ok ⟨some p, none, r'⟩ ∧
      p.Stages ≠ [] ∧ p.Assembler.isSome = true ∧ p.Build = some bp ∧ bp.Assembler = none := by
  rw [New_eq] at hr
  cases hr
  obtain ⟨o, h1⟩ := Option.isSome_iff_exists.1 hf
  obtain ⟨uo, hu⟩ := userStageOptions_ok c b.users hc
  have h2 : mapGet newCatalog.arches "x86_64" = some archX86_64 := rfl
  have hasm : ∀ e ∈ newCatalog.outputs, e.2.Assembler.isSome = true := by decide
  refine ⟨_, buildPipeline archX86_64 cks, _,
    Pipeline_success newCatalog c b repos cks "x86_64" f o archX86_64 uo h1 h2 hu, ?_, ?_, rfl, rfl⟩
  · obtain ⟨rest, hrest⟩ := stagesOf_eq_cons o archX86_64 b repos cks uo
    simp [Pipeline.Stages, hrest]
  · exact hasm (f, o) (mapGet_mem _ _ _ h1)

/-- A witness of `Pipeline_catalog_wellformed`: the format "qcow2" with one
user whose password is hashed. -/
theorem Pipeline_catalog_wellformed_witness :
    New = .ok newCatalog ∧ (mapGet newCatalog.outputs "qcow2").isSome = true ∧
    (∀ u ∈ ({ emptyBlueprint with users := [sampleUser] } : Blueprint).users,
      hashSucceeds sampleCrypt u) ∧
    ∃ p bp r', newCatalog.Pipeline sampleCrypt { emptyBlueprint with users := [sampleUser] }
        [] [] "x86_64" "qcow2" = .ok ⟨some p, none, r'⟩ ∧
      p.Stages ≠ [] ∧ p.Assembler.isSome = true ∧ p.Build = some bp ∧ bp.Assembler = none :=
  ⟨New_eq, rfl, fun _ _ pw _ _ => ⟨"$6$" ++ pw, rfl⟩,
    Pipeline_catalog_wellformed newCatalog sampleCrypt { emptyBlueprint with users := [sampleUser] }
      [] [] "qcow2" New_eq rfl (fun _ _ pw _ _ => ⟨"$6$" ++ pw, rfl⟩)⟩

/-- C2: every call of `Pipeline` returns, and in every pipeline it returns the
first stage is the package-install (DNF) stage, the second stage is the
BLS-fix stage and the last stage is the SELinux stage. -/
theorem Pipeline_stage_order (r : RHEL82) (c : Crypt) (b : Blueprint)
    (repos : List RepoConfig) (cks : List (String × String)) (a f : String) :
    ∃ ret, r.Pipeline c b repos cks a f = .ok ret ∧
      ∀ p, ret.pipeline = some p →
        (∃ d, p.Stages.head? = some (Stage.DNF d)) ∧
        p.Stages.get? 1 = some Stage.FixBLS ∧
        (∃ o, p.Stages.getLast? = some (Stage.SELinux o)) := by
  obtain ⟨ret, hret, hcase⟩ := Pipeline_returns r c b repos cks a f
  refine ⟨ret, hret, fun p hp => ?_⟩
  rcases hcase with ⟨hnone, _⟩ | ⟨o, ar, uo, _, _, _, _, hsome⟩
  · rw [hnone] at hp; cases hp
  · rw [hsome] at hp
    cases hp
    obtain ⟨rest, hrest⟩ := stagesOf_eq_cons o ar b repos cks uo
    obtain ⟨front, hfront⟩ := stagesOf_eq_concat o ar b repos cks uo
    refine ⟨⟨dnfStageOptions ar repos cks
      (o.Packages ++ b.packages ++ (if o.Bootable then ar.BootloaderPackages else []))
      o.ExcludedPackages, ?_⟩, ?_, ⟨selinuxStageOptions, ?_⟩⟩
    · simp only [Pipeline.Stages, hrest, List.head?_cons]
    · simp only [Pipeline.Stages, hrest]; rfl
    · simp only [Pipeline.Stages, hfront, List.getLast?_append, List.getLast?_singleton]
      rfl

/-- A witness of `Pipeline_stage_order`: the translation of the empty
blueprint for "tar" returns a pipeline, with the three stages in place. -/
theorem Pipeline_stage_order_witness :
    ∃ ret p, newCatalog.Pipeline sampleCrypt emptyBlueprint [] [] "x86_64" "tar" = .ok ret ∧
      ret.pipeline = some p ∧
      (∃ d, p.Stages.head? = some (Stage.DNF d)) ∧
      p.Stages.get? 1 = some Stage.FixBLS ∧
      (∃ o, p.Stages.getLast? = some (Stage.SELinux o)) := by
  obtain ⟨ret, hret, h⟩ :=
    Pipeline_stage_order newCatalog sampleCrypt emptyBlueprint [] [] "x86_64" "tar"
  have hs := Pipeline_success newCatalog sampleCrypt emptyBlueprint [] [] "x86_64" "tar"
    outputTar archX86_64 ⟨[]⟩ rfl rfl rfl
  rw [hs] at hret
  cases hret
  exact ⟨_, _, hs, rfl, h _ rfl⟩

/-- C3: when the output format name or the architecture name is not a key of
the catalog, `Pipeline` returns a nil pipeline and a non-nil error and leaves
the catalog as it was. The output format is resolved first: when the format
is unknown (the architecture known or not) the error is the
invalid-output-format error naming the format; when the format is known and
the architecture is not, it is the invalid-architecture error naming the
architecture. -/
theorem Pipeline_unknown_name (r : RHEL82) (c : Crypt) (b : Blueprint)
    (repos : List RepoConfig) (cks : List (String × String)) (a f : String)
    (h : mapGet r.outputs f = none ∨ mapGet r.arches a = none) :
    ∃ e, r.Pipeline c b repos cks a f = .ok ⟨none, some e, r⟩ ∧
      e = (if (mapGet r.outputs f).isNone then "invalid output format: " ++ f
           else "invalid architecture: " ++ a) := by
  cases h1 : mapGet r.outputs f with
  | none => exact ⟨_, Pipeline_invalidFormat r c b repos cks a f h1, by simp⟩
  | some o =>
    have h2 : mapGet r.arches a = none := by
      rcases h with h | h
      · rw [h1] at h; cases h
      · exact h
    exact ⟨_, Pipeline_invalidArch r c b repos cks a f o h1 h2, by simp⟩

/-- A witness of `Pipeline_unknown_name`: the architecture "riscv128" with the
known format "ami" gives the invalid-architecture error. -/
theorem Pipeline_unknown_name_witness :
    (mapGet newCatalog.outputs "ami" = none ∨ mapGet newCatalog.arches "riscv128" = none) ∧
    ∃ e, newCatalog.Pipeline sampleCrypt emptyBlueprint [] [] "riscv128" "ami"
        = .ok ⟨none, some e, newCatalog⟩ ∧
      e = (if (mapGet newCatalog.outputs "ami").isNone then "invalid output format: " ++ "ami"
           else "invalid architecture: " ++ "riscv128") :=
  ⟨Or.inr rfl,
    Pipeline_unknown_name newCatalog sampleCrypt emptyBlueprint [] [] "riscv128" "ami" (Or.inr rfl)⟩

/-- C4: `Pipeline` never returns a partial result. Every call returns either a
non-nil pipeline with a nil error or a nil pipeline with a non-nil error; and
when the translation reaches the users (both names are keys of the catalog)
and hashing the password of a user fails, the users before it having hashed
without error, the call returns exactly that error and a nil pipeline. -/
theorem Pipeline_no_partial_result (r : RHEL82) (c : Crypt) (b : Blueprint)
    (repos : List RepoConfig) (cks : List (String × String)) (a f : String) :
    (∃ ret, r.Pipeline c b repos cks a f = .ok ret ∧
      ((ret.pipeline.isSome = true ∧ ret.err = none) ∨
       (ret.pipeline = none ∧ ret.err.isSome = true))) ∧
    (∀ pre u post e, (mapGet r.outputs f).isSome = true → (mapGet r.arches a).isSome = true →
      b.users = pre ++ u :: post → (∀ x ∈ pre, hashSucceeds c x) → hashFails c u e →
      ∃ r', r.Pipeline c b repos cks a f = .ok ⟨none, some e, r'⟩) := by
  constructor
  · obtain ⟨ret, hret, hcase⟩ := Pipeline_returns r c b repos cks a f
    refine ⟨ret, hret, ?_⟩
    rcases hcase with ⟨hnone, e, he⟩ | ⟨o, ar, uo, _, _, _, herr, hsome⟩
    · exact Or.inr ⟨hnone, by simp [he]⟩
    · exact Or.inl ⟨by simp [hsome], herr⟩
  · intro pre u post e hf ha hb hpre hu
    obtain ⟨o, h1⟩ := Option.isSome_iff_exists.1 hf
    obtain ⟨ar, h2⟩ := Option.isSome_iff_exists.1 ha
    have herr : userStageOptions c b.users = .error e := by
      rw [hb]; exact userStageOptions_error c pre u post e hpre hu
    exact ⟨_, Pipeline_hashError r c b repos cks a f o ar e h1 h2 herr⟩

/-- A witness of `Pipeline_no_partial_result`: with a hashing collaborator
that fails, the translation of a blueprint with one user returns the hashing
error and no pipeline. -/
theorem Pipeline_no_partial_result_witness :
    (mapGet newCatalog.outputs "ami").isSome = true ∧
    (mapGet newCatalog.arches "x86_64").isSome = true ∧
    hashFails failingCrypt sampleUser "crypt: hashing failed" ∧
    ∃ r', newCatalog.Pipeline failingCrypt { emptyBlueprint with users := [sampleUser] }
      [] [] "x86_64" "ami" = .ok ⟨none, some "crypt: hashing failed", r'⟩ :=
  ⟨rfl, rfl, ⟨"secret", rfl, rfl, rfl⟩,
    (Pipeline_no_partial_result newCatalog failingCrypt
      { emptyBlueprint with users := [sampleUser] } [] [] "x86_64" "ami").2
      [] sampleUser [] "crypt: hashing failed" rfl rfl rfl
      (fun _ hx => absurd hx (List.not_mem_nil _)) ⟨"secret", rfl, rfl, rfl⟩⟩

/-- C5: for every output format and architecture of the catalog and every
blueprint, the names in the include list of the package-install stage of the
pipeline are exactly the base packages of the output definition, the packages
of the blueprint, and the bootloader packages of the architecture when (and
only when) the output is bootable; so for a bootable output the include list
holds every base package and every bootloader package. -/
theorem Pipeline_include_set (r : RHEL82) (c : Crypt) (b : Blueprint)
    (repos : List RepoConfig) (cks : List (String × String)) (a f : String)
    (o : output) (ar : arch)
    (h1 : mapGet r.outputs f = some o) (h2 : mapGet r.arches a = some ar) :
    ∃ ret, r.Pipeline c b repos cks a f = .ok ret ∧
      ∀ p, ret.pipeline = some p →
        ∃ d rest, p.Stages = Stage.DNF d :: rest ∧
          (∀ name, name ∈ d.Packages ↔
            (name ∈ o.Packages ∨ name ∈ b.packages ∨
              (o.Bootable = true ∧ name ∈ ar.BootloaderPackages))) ∧
          (o.Bootable = true →
            ∀ name, name ∈ o.Packages ∨ name ∈ ar.BootloaderPackages → name ∈ d.Packages) := by
  obtain ⟨ret, hret, hcase⟩ := Pipeline_returns r c b repos cks a f
  refine ⟨ret, hret, fun p hp => ?_⟩
  rcases hcase with ⟨hnone, _⟩ | ⟨o', ar', uo, h1', h2', _, _, hsome⟩
  · rw [hnone] at hp; cases hp
  · rw [h1] at h1'; rw [h2] at h2'
    cases h1'; cases h2'
    rw [hsome] at hp
    cases hp
    obtain ⟨rest, hrest⟩ := stagesOf_eq_cons o ar b repos cks uo
    refine ⟨_, _, hrest, mem_include_list o ar b repos cks, fun hboot name hn => ?_⟩
    rw [mem_include_list]
    rcases hn with hn | hn
    · exact Or.inl hn
    · exact Or.inr (Or.inr ⟨hboot, hn⟩)

/-- A witness of `Pipeline_include_set`: the format "vmdk" with one package
added by the blueprint. -/
theorem Pipeline_include_set_witness :
    mapGet newCatalog.outputs "vmdk" = some outputVmdk ∧
    mapGet newCatalog.arches "x86_64" = some archX86_64 ∧
    ∃ ret p d rest,
      newCatalog.Pipeline sampleCrypt { emptyBlueprint with packages := ["tmux"] } [] []
        "x86_64" "vmdk" = .ok ret ∧
      ret.pipeline = some p ∧ p.Stages = Stage.DNF d :: rest ∧
      (∀ name, name ∈ d.Packages ↔
        (name ∈ outputVmdk.Packages ∨ name ∈ ["tmux"] ∨
          (outputVmdk.Bootable = true ∧ name ∈ archX86_64.BootloaderPackages))) := by
  refine ⟨rfl, rfl, ?_⟩
  obtain ⟨ret, hret, h⟩ := Pipeline_include_set newCatalog sampleCrypt
    { emptyBlueprint with packages := ["tmux"] } [] [] "x86_64" "vmdk" outputVmdk archX86_64
    rfl rfl
  have hs := Pipeline_success newCatalog sampleCrypt
    { emptyBlueprint with packages := ["tmux"] } [] [] "x86_64" "vmdk"
    outputVmdk archX86_64 ⟨[]⟩ rfl rfl rfl
  rw [hs] at hret
  cases hret
  obtain ⟨d, rest, hst, hmem, _⟩ := h _ rfl
  exact ⟨_, _, d, rest, hs, rfl, hst, hmem⟩

/-- C6, as stated, fails: for the bootable format "ami" and a blueprint that
adds the package "firewalld", which "ami" excludes, the include list of the
package-install stage contains "firewalld". -/
theorem Pipeline_excluded_name_included :
    ∃ ret p d rest,
      New = .ok newCatalog ∧
      mapGet newCatalog.outputs "ami" = some outputAmi ∧ outputAmi.Bootable = true ∧
      newCatalog.Pipeline sampleCrypt firewalldBlueprint [] [] "x86_64" "ami" = .ok ret ∧
      ret.pipeline = some p ∧ p.Stages = Stage.DNF d :: rest ∧
      d.Packages = ["@core", "NetworkManager", "checkpolicy", "chrony", "cloud-init",
        "cloud-init", "cloud-utils-growpart", "dhcp-client", "dracut-config-generic",
        "firewalld", "gdisk", "grub2-pc", "insights-client", "kernel", "langpacks-en",
        "net-tools", "redhat-release", "redhat-release-eula", "rng-tools", "rsync",
        "selinux-policy-targeted", "tar", "yum-utils"] ∧
      "firewalld" ∈ outputAmi.ExcludedPackages ∧ "firewalld" ∈ d.Packages := by
  obtain ⟨rest, hrest⟩ := stagesOf_eq_cons outputAmi archX86_64 firewalldBlueprint [] [] ⟨[]⟩
  refine ⟨_, _, dnfStageOptions archX86_64 [] []
      (outputAmi.Packages ++ firewalldBlueprint.packages
        ++ (if outputAmi.Bootable then archX86_64.BootloaderPackages else []))
      outputAmi.ExcludedPackages, Stage.FixBLS :: rest, New_eq, rfl, rfl,
    Pipeline_success newCatalog sampleCrypt firewalldBlueprint
      [] [] "x86_64" "ami" outputAmi archX86_64 ⟨[]⟩ rfl rfl rfl, rfl, hrest, ?_, ?_, ?_⟩
  · rw [dnfStageOptions_Packages]; decide
  · decide
  · rw [dnfStageOptions_Packages]; decide

/-- C6, amended: for every bootable output format of the catalog built by
`New`, the architecture "x86_64" and every blueprint, a name of the excluded
packages of the output definition is in the include list of the
package-install stage only if the package additions of the blueprint name it;
so when the blueprint adds no excluded package, no excluded name is in the
include list. -/
theorem Pipeline_excluded_only_from_blueprint (r : RHEL82) (c : Crypt) (b : Blueprint)
    (repos : List RepoConfig) (cks : List (String × String)) (f : String) (o : output)
    (hr : New = .ok r) (h1 : mapGet r.outputs f = some o) (_hb : o.Bootable = true) :
    ∃ ret, r.Pipeline c b repos cks "x86_64" f = .ok ret ∧
      ∀ p, ret.pipeline = some p →
        ∃ d rest, p.Stages = Stage.DNF d :: rest ∧
          (∀ name ∈ o.ExcludedPackages, name ∈ d.Packages → name ∈ b.packages) ∧
          ((∀ name ∈ b.packages, name ∉ o.ExcludedPackages) →
            ∀ name ∈ o.ExcludedPackages, name ∉ d.Packages) := by
  rw [New_eq] at hr
  cases hr
  have h2 : mapGet newCatalog.arches "x86_64" = some archX86_64 := rfl
  have hdisj : ∀ e ∈ newCatalog.outputs, ∀ name ∈ e.2.ExcludedPackages,
      name ∉ e.2.Packages ∧ name ∉ archX86_64.BootloaderPackages := by decide
  obtain ⟨ret, hret, hcase⟩ := Pipeline_returns newCatalog c b repos cks "x86_64" f
  refine ⟨ret, hret, fun p hp => ?_⟩
  rcases hcase with ⟨hnone, _⟩ | ⟨o', ar', uo, h1', h2', _, _, hsome⟩
  · rw [hnone] at hp; cases hp
  · rw [h1] at h1'; rw [h2] at h2'
    cases h1'; cases h2'
    rw [hsome] at hp
    cases hp
    obtain ⟨rest, hrest⟩ := stagesOf_eq_cons o archX86_64 b repos cks uo
    have key : ∀ name ∈ o.ExcludedPackages,
        name ∈ (dnfStageOptions archX86_64 repos cks
          (o.Packages ++ b.packages
            ++ (if o.Bootable then archX86_64.BootloaderPackages else []))
          o.ExcludedPackages).Packages → name ∈ b.packages := by
      intro name hex hin
      obtain ⟨hn1, hn2⟩ := hdisj (f, o) (mapGet_mem _ _ _ h1) name hex
      rcases (mem_include_list o archX86_64 b repos cks name).1 hin with h | h | ⟨_, h⟩
      · exact absurd h hn1
      · exact h
      · exact absurd h hn2
    exact ⟨_, _, hrest, key, fun hno name hex hin => hno name (key name hex hin) hex⟩

/-- A witness of `Pipeline_excluded_only_from_blueprint`: the bootable format
"qcow2" with a blueprint that adds one package which is not excluded. -/
theorem Pipeline_excluded_only_from_blueprint_witness :
    New = .ok newCatalog ∧ mapGet newCatalog.outputs "qcow2" = some outputQcow2 ∧
    outputQcow2.Bootable = true ∧
    ∃ ret, newCatalog.Pipeline sampleCrypt { emptyBlueprint with packages := ["tmux"] } [] []
        "x86_64" "qcow2" = .ok ret ∧
      ∀ p, ret.pipeline = some p →
        ∃ d rest, p.Stages = Stage.DNF d :: rest ∧
          (∀ name ∈ outputQcow2.ExcludedPackages, name ∈ d.Packages → name ∈ ["tmux"]) ∧
          ((∀ name ∈ ["tmux"], name ∉ outputQcow2.ExcludedPackages) →
            ∀ name ∈ outputQcow2.ExcludedPackages, name ∉ d.Packages) :=
  ⟨New_eq, rfl, rfl,
    Pipeline_excluded_only_from_blueprint newCatalog sampleCrypt
      { emptyBlueprint with packages := ["tmux"] } [] [] "qcow2" outputQcow2 New_eq rfl rfl⟩

/-- C7: in every package-install stage built by `dnfStageOptions` the include
list and the exclude list are each in ascending lexicographic order, whatever
the order of the lists handed over; this holds for the package-install stage
of every pipeline that `Pipeline` returns and for the one of its build
pipeline. -/
theorem dnfStageOptions_sorted :
    (∀ (a : arch) (repos : List RepoConfig) (cks : List (String × String))
        (pk ex : List String),
      List.Sorted (· ≤ ·) (dnfStageOptions a repos cks pk ex).Packages ∧
      List.Sorted (· ≤ ·) (dnfStageOptions a repos cks pk ex).ExcludedPackages) ∧
    (∀ (r : RHEL82) (c : Crypt) (b : Blueprint) (repos : List RepoConfig)
        (cks : List (String × String)) (a f : String),
      ∃ ret, r.Pipeline c b repos cks a f = .ok ret ∧
        ∀ p, ret.pipeline = some p →
          (∀ d, Stage.DNF d ∈ p.Stages →
            List.Sorted (· ≤ ·) d.Packages ∧ List.Sorted (· ≤ ·) d.ExcludedPackages) ∧
          (∃ bp, p.Build = some bp ∧ ∀ d, Stage.DNF d ∈ bp.Stages →
            List.Sorted (· ≤ ·) d.Packages ∧ List.Sorted (· ≤ ·) d.ExcludedPackages)) := by
  have hsorted : ∀ (a : arch) (repos : List RepoConfig) (cks : List (String × String))
      (pk ex : List String),
      List.Sorted (· ≤ ·) (dnfStageOptions a repos cks pk ex).Packages ∧
      List.Sorted (· ≤ ·) (dnfStageOptions a repos cks pk ex).ExcludedPackages := by
    intro a repos cks pk ex
    rw [dnfStageOptions_Packages, dnfStageOptions_ExcludedPackages]
    exact ⟨sorted_sortStrings pk, sorted_sortStrings ex⟩
  refine ⟨hsorted, fun r c b repos cks a f => ?_⟩
  obtain ⟨ret, hret, hcase⟩ := Pipeline_returns r c b repos cks a f
  refine ⟨ret, hret, fun p hp => ?_⟩
  rcases hcase with ⟨hnone, _⟩ | ⟨o, ar, uo, _, _, _, _, hsome⟩
  · rw [hnone] at hp; cases hp
  · rw [hsome] at hp
    cases hp
    refine ⟨fun d hd => ?_, buildPipeline ar cks, rfl, fun d hd => ?_⟩
    · have hmem : Stage.DNF d ∈ (stagesOf o ar b repos cks uo).filter
          (fun s => decide (s.kind = StageKind.DNF)) :=
        List.mem_filter.2 ⟨hd, by simp⟩
      rw [filter_DNF_stagesOf, List.mem_singleton] at hmem
      cases hmem
      exact hsorted _ _ _ _ _
    · rw [buildPipeline_eq] at hd
      simp only [Pipeline.Stages, List.mem_singleton] at hd
      cases hd
      exact hsorted _ _ _ _ _

/-- A witness of `dnfStageOptions_sorted`: unsorted lists handed over come
out sorted, upper case before lower case as in the byte order. -/
theorem dnfStageOptions_sorted_witness :
    (dnfStageOptions archX86_64 [] [] ["tar", "NetworkManager", "@core", "dnf"]
      ["iwl1000-firmware", "iwl100-firmware"]).Packages
      = ["@core", "NetworkManager", "dnf", "tar"] ∧
    (dnfStageOptions archX86_64 [] [] ["tar", "NetworkManager", "@core", "dnf"]
      ["iwl1000-firmware", "iwl100-firmware"]).ExcludedPackages
      = ["iwl100-firmware", "iwl1000-firmware"] ∧
    List.Sorted (· ≤ ·) (dnfStageOptions archX86_64 [] []
      ["tar", "NetworkManager", "@core", "dnf"] ["iwl1000-firmware", "iwl100-firmware"]).Packages ∧
    List.Sorted (· ≤ ·) (dnfStageOptions archX86_64 [] []
      ["tar", "NetworkManager", "@core", "dnf"]
      ["iwl1000-firmware", "iwl100-firmware"]).ExcludedPackages :=
  ⟨by rw [dnfStageOptions_Packages]; decide,
    by rw [dnfStageOptions_ExcludedPackages]; decide,
    dnfStageOptions_sorted.1 archX86_64 [] [] ["tar", "NetworkManager", "@core", "dnf"]
      ["iwl1000-firmware", "iwl100-firmware"]⟩

/-- C8: the kernel options of the bootloader-configuration (GRUB2) stage, which
occurs once in the pipeline, are the kernel options of the output definition
when the blueprint has no kernel customization, and the kernel options of the
output definition followed by one space and the append string when it has
one. -/
theorem Pipeline_kernel_options (r : RHEL82) (c : Crypt) (b : Blueprint)
    (repos : List RepoConfig) (cks : List (String × String)) (a f : String) (o : output)
    (h1 : mapGet r.outputs f = some o) :
    ∃ ret, r.Pipeline c b repos cks a f = .ok ret ∧
      ∀ p, ret.pipeline = some p →
        ∃ g, p.Stages.filter (fun s => decide (s.kind = StageKind.GRUB2)) = [Stage.GRUB2 g] ∧
          (b.kernel = none → g.KernelOptions = o.KernelOptions) ∧
          (∀ k, b.kernel = some k → g.KernelOptions = o.KernelOptions ++ " " ++ k.Append) := by
  obtain ⟨ret, hret, hcase⟩ := Pipeline_returns r c b repos cks a f
  refine ⟨ret, hret, fun p hp => ?_⟩
  rcases hcase with ⟨hnone, _⟩ | ⟨o', ar, uo, h1', _, _, _, hsome⟩
  · rw [hnone] at hp; cases hp
  · rw [h1] at h1'
    cases h1'
    rw [hsome] at hp
    cases hp
    refine ⟨_, filter_GRUB2_stagesOf o ar b repos cks uo, fun hk => ?_, fun k hk => ?_⟩
    · simp only [hk]
    · simp only [hk]

/-- A witness of `Pipeline_kernel_options`: the format "vmdk" with the kernel
append string "debug". -/
theorem Pipeline_kernel_options_witness :
    mapGet newCatalog.outputs "vmdk" = some outputVmdk ∧
    ∃ ret p g,
      newCatalog.Pipeline sampleCrypt { emptyBlueprint with kernel := some ⟨"debug"⟩ } [] []
        "x86_64" "vmdk" = .ok ret ∧
      ret.pipeline = some p ∧
      p.Stages.filter (fun s => decide (s.kind = StageKind.GRUB2)) = [Stage.GRUB2 g] ∧
      g.KernelOptions = "ro net.ifnames=0 debug" := by
  refine ⟨rfl, ?_⟩
  obtain ⟨ret, hret, h⟩ := Pipeline_kernel_options newCatalog sampleCrypt
    { emptyBlueprint with kernel := some ⟨"debug"⟩ } [] [] "x86_64" "vmdk" outputVmdk rfl
  have hs := Pipeline_success newCatalog sampleCrypt
    { emptyBlueprint with kernel := some ⟨"debug"⟩ } [] [] "x86_64" "vmdk"
    outputVmdk archX86_64 ⟨[]⟩ rfl rfl rfl
  rw [hs] at hret
  cases hret
  obtain ⟨g, hg, _, hk⟩ := h _ rfl
  exact ⟨_, _, g, hs, rfl, hg, by rw [hk ⟨"debug"⟩ rfl]; rfl⟩

/-- C9: in the pipeline that `Pipeline` returns, the keymap, hostname, timezone
and firewall stages are each present exactly when the blueprint has the
corresponding field; the time-sync (chrony) stage is present exactly when the
list of NTP servers is non-empty, whether or not a timezone is set; the users
stage and the groups stage are present exactly when the list of users,
respectively of groups, is non-empty. -/
theorem Pipeline_optional_stages (r : RHEL82) (c : Crypt) (b : Blueprint)
    (repos : List RepoConfig) (cks : List (String × String)) (a f : String) :
    ∃ ret, r.Pipeline c b repos cks a f = .ok ret ∧
      ∀ p, ret.pipeline = some p →
        (StageKind.Keymap ∈ p.Stages.map Stage.kind ↔ b.keyboard.isSome = true) ∧
        (StageKind.Hostname ∈ p.Stages.map Stage.kind ↔ b.hostname.isSome = true) ∧
        (StageKind.Timezone ∈ p.Stages.map Stage.kind ↔ b.timezone.isSome = true) ∧
        (StageKind.Firewall ∈ p.Stages.map Stage.kind ↔ b.firewall.isSome = true) ∧
        (StageKind.Chrony ∈ p.Stages.map Stage.kind ↔ b.ntpServers ≠ []) ∧
        (StageKind.Users ∈ p.Stages.map Stage.kind ↔ b.users ≠ []) ∧
        (StageKind.Groups ∈ p.Stages.map Stage.kind ↔ b.groups ≠ []) := by
  obtain ⟨ret, hret, hcase⟩ := Pipeline_returns r c b repos cks a f
  refine ⟨ret, hret, fun p hp => ?_⟩
  rcases hcase with ⟨hnone, _⟩ | ⟨o, ar, uo, _, _, _, _, hsome⟩
  · rw [hnone] at hp; cases hp
  · rw [hsome] at hp
    cases hp
    simp only [Pipeline.Stages, kinds_stagesOf]
    refine ⟨?_, ?_, ?_, ?_, ?_, ?_, ?_⟩ <;>
      simp [List.mem_ite_nil_right, List.length_pos, List.length_pos_iff_ne_nil]

/-- A witness of `Pipeline_optional_stages`: a blueprint that sets a timezone
and an empty NTP server list gets a timezone stage and no chrony stage. -/
theorem Pipeline_optional_stages_witness :
    ∃ ret p,
      newCatalog.Pipeline sampleCrypt
        { emptyBlueprint with timezone := some "Europe/Prague", ntpServers := [] } [] []
        "x86_64" "qcow2" = .ok ret ∧
      ret.pipeline = some p ∧
      StageKind.Timezone ∈ p.Stages.map Stage.kind ∧
      StageKind.Chrony ∉ p.Stages.map Stage.kind ∧
      StageKind.Keymap ∉ p.Stages.map Stage.kind := by
  obtain ⟨ret, hret, h⟩ := Pipeline_optional_stages newCatalog sampleCrypt
    { emptyBlueprint with timezone := some "Europe/Prague", ntpServers := [] } [] []
    "x86_64" "qcow2"
  have hs := Pipeline_success newCatalog sampleCrypt
    { emptyBlueprint with timezone := some "Europe/Prague", ntpServers := [] } [] []
    "x86_64" "qcow2" outputQcow2 archX86_64 ⟨[]⟩ rfl rfl rfl
  rw [hs] at hret
  cases hret
  obtain ⟨hkey, _, htz, _, hntp, _, _⟩ := h _ rfl
  exact ⟨_, _, hs, rfl, htz.2 rfl, fun hc => (hntp.1 hc) rfl,
    fun hc => by have := hkey.1 hc; cases this⟩

/-- C10: the pipeline that `Pipeline` returns contains exactly one locale stage;
its language is "en_US" when the blueprint sets no primary language, and the
language of the blueprint when it sets one. -/
theorem Pipeline_locale_stage (r : RHEL82) (c : Crypt) (b : Blueprint)
    (repos : List RepoConfig) (cks : List (String × String)) (a f : String) :
    ∃ ret, r.Pipeline c b repos cks a f = .ok ret ∧
      ∀ p, ret.pipeline = some p →
        ∃ l, p.Stages.filter (fun s => decide (s.kind = StageKind.Locale)) = [Stage.Locale l] ∧
          (b.language = none → l.Language = "en_US") ∧
          (∀ lang, b.language = some lang → l.Language = lang) := by
  obtain ⟨ret, hret, hcase⟩ := Pipeline_returns r c b repos cks a f
  refine ⟨ret, hret, fun p hp => ?_⟩
  rcases hcase with ⟨hnone, _⟩ | ⟨o, ar, uo, _, _, _, _, hsome⟩
  · rw [hnone] at hp; cases hp
  · rw [hsome] at hp
    cases hp
    refine ⟨_, filter_Locale_stagesOf o ar b repos cks uo, fun hl => ?_, fun lang hl => ?_⟩
    · simp only [hl, Option.getD_none]
    · simp only [hl, Option.getD_some]

/-- A witness of `Pipeline_locale_stage`: the empty blueprint gets the single
locale stage "en_US", a blueprint with the language "cs_CZ" gets that one. -/
theorem Pipeline_locale_stage_witness :
    (∃ ret p,
      newCatalog.Pipeline sampleCrypt emptyBlueprint [] [] "x86_64" "tar" = .ok ret ∧
      ret.pipeline = some p ∧
      p.Stages.filter (fun s => decide (s.kind = StageKind.Locale))
        = [Stage.Locale ⟨"en_US"⟩]) ∧
    (∃ ret p,
      newCatalog.Pipeline sampleCrypt { emptyBlueprint with language := some "cs_CZ" } [] []
        "x86_64" "tar" = .ok ret ∧
      ret.pipeline = some p ∧
      p.Stages.filter (fun s => decide (s.kind = StageKind.Locale))
        = [Stage.Locale ⟨"cs_CZ"⟩]) := by
  constructor
  · obtain ⟨ret, hret, h⟩ := Pipeline_locale_stage newCatalog sampleCrypt emptyBlueprint
      [] [] "x86_64" "tar"
    have hs := Pipeline_success newCatalog sampleCrypt emptyBlueprint [] [] "x86_64" "tar"
      outputTar archX86_64 ⟨[]⟩ rfl rfl rfl
    rw [hs] at hret
    cases hret
    obtain ⟨l, hl, hnone, _⟩ := h _ rfl
    have hlang : l.Language = "en_US" := hnone rfl
    cases l
    cases hlang
    exact ⟨_, _, hs, rfl, hl⟩
  · obtain ⟨ret, hret, h⟩ := Pipeline_locale_stage newCatalog sampleCrypt
      { emptyBlueprint with language := some "cs_CZ" } [] [] "x86_64" "tar"
    have hs := Pipeline_success newCatalog sampleCrypt
      { emptyBlueprint with language := some "cs_CZ" } [] [] "x86_64" "tar"
      outputTar archX86_64 ⟨[]⟩ rfl rfl rfl
    rw [hs] at hret
    cases hret
    obtain ⟨l, hl, _, hsome⟩ := h _ rfl
    have hlang : l.Language = "cs_CZ" := hsome "cs_CZ" rfl
    cases l
    cases hlang
    exact ⟨_, _, hs, rfl, hl⟩

/-! ## Services and the query functions -/

/-- The services stage occurs in the closed form when its guard holds, once. -/
theorem filter_Systemd_stagesOf (o : output) (ar : arch) (b : Blueprint)
    (repos : List RepoConfig) (cks : List (String × String)) (uo : UsersStageOptions) :
    (stagesOf o ar b repos cks uo).filter (fun s => decide (s.kind = StageKind.Systemd))
      = if b.services.isSome ∨ o.EnabledServices.isSome then
          [Stage.Systemd (systemdStageOptions o.EnabledServices o.DisabledServices b.services
            o.DefaultTarget)]
        else [] := by
  unfold stagesOf
  by_cases hc : (b.services.isSome = true ∨ o.EnabledServices.isSome = true)
  · simp only [if_pos hc]
    simp [List.filter_cons, filter_kind_ite, filter_kind_option]
  · simp only [if_neg hc]
    simp [List.filter_cons, filter_kind_ite, filter_kind_option]

/-- A services stage of the closed form is the one `systemdStageOptions`
builds, and it is there when the guard holds. -/
theorem mem_Systemd_stagesOf (o : output) (ar : arch) (b : Blueprint)
    (repos : List RepoConfig) (cks : List (String × String)) (uo : UsersStageOptions)
    (s : SystemdStageOptions) :
    Stage.Systemd s ∈ stagesOf o ar b repos cks uo ↔
      ((b.services.isSome = true ∨ o.EnabledServices.isSome = true) ∧
        s = systemdStageOptions o.EnabledServices o.DisabledServices b.services
          o.DefaultTarget) := by
  have hf : Stage.Systemd s ∈ stagesOf o ar b repos cks uo ↔
      Stage.Systemd s ∈ (stagesOf o ar b repos cks uo).filter
        (fun s => decide (s.kind = StageKind.Systemd)) := by
    simp [List.mem_filter]
  rw [hf, filter_Systemd_stagesOf]
  split <;> simp [*]

theorem systemdStageOptions_DefaultTarget (en : Option (List String)) (dis : List String)
    (s : Option ServicesCustomization) (t : String) :
    (systemdStageOptions en dis s t).DefaultTarget = t := rfl

theorem mem_mapKeys_iff {α : Type} (m : List (String × α)) (k : String) :
    k ∈ mapKeys m ↔ (mapGet m k).isSome = true := by
  induction m with
  | nil => simp [mapKeys, mapGet]
  | cons e rest ih =>
    obtain ⟨k', v'⟩ := e
    by_cases hk : k = k'
    · subst hk
      simp [mapKeys, mapGet, List.lookup]
    · have hb : (k == k') = false := by simpa using hk
      simp only [mapKeys, List.map_cons, List.mem_cons, hk, false_or, mapGet, List.lookup, hb]
      exact ih

theorem mem_ListOutputFormats_iff (r : RHEL82) (f : String) :
    f ∈ r.ListOutputFormats ↔ (mapGet r.outputs f).isSome = true := by
  unfold RHEL82.ListOutputFormats
  rw [mem_sortStrings, mem_mapKeys_iff]

/-- C11: the pipeline that `Pipeline` returns contains a services (systemd)
stage exactly when the blueprint specifies services or the output definition
declares enabled services, and the default target of that stage is the
`DefaultTarget` of the output definition; on the catalog built by `New` the
format "vhd" with a blueprint without services yields a services stage, with
the default target of "vhd". -/
theorem Pipeline_services_stage :
    (∀ (r : RHEL82) (c : Crypt) (b : Blueprint) (repos : List RepoConfig)
        (cks : List (String × String)) (a f : String) (o : output),
      mapGet r.outputs f = some o →
      ∃ ret, r.Pipeline c b repos cks a f = .ok ret ∧
        ∀ p, ret.pipeline = some p →
          (StageKind.Systemd ∈ p.Stages.map Stage.kind ↔
            (b.services.isSome = true ∨ o.EnabledServices.isSome = true)) ∧
          (∀ s, Stage.Systemd s ∈ p.Stages → s.DefaultTarget = o.DefaultTarget)) ∧
    (∀ (r : RHEL82) (c : Crypt) (b : Blueprint) (repos : List RepoConfig)
        (cks : List (String × String)),
      New = .ok r → b.services = none →
      ∃ ret, r.Pipeline c b repos cks "x86_64" "vhd" = .ok ret ∧
        ∀ p, ret.pipeline = some p →
          ∃ s, Stage.Systemd s ∈ p.Stages ∧ s.DefaultTarget = "multi-user.target") := by
  constructor
  · intro r c b repos cks a f o h1
    obtain ⟨ret, hret, hcase⟩ := Pipeline_returns r c b repos cks a f
    refine ⟨ret, hret, fun p hp => ?_⟩
    rcases hcase with ⟨hnone, _⟩ | ⟨o', ar, uo, h1', _, _, _, hsome⟩
    · rw [hnone] at hp; cases hp
    · rw [h1] at h1'
      cases h1'
      rw [hsome] at hp
      cases hp
      refine ⟨?_, fun s hs => ?_⟩
      · simp only [Pipeline.Stages, kinds_stagesOf]
        simp [List.mem_ite_nil_right]
      · rw [Pipeline.Stages, mem_Systemd_stagesOf] at hs
        rw [hs.2, systemdStageOptions_DefaultTarget]
  · intro r c b repos cks hr hb
    rw [New_eq] at hr
    cases hr
    obtain ⟨ret, hret, hcase⟩ := Pipeline_returns newCatalog c b repos cks "x86_64" "vhd"
    refine ⟨ret, hret, fun p hp => ?_⟩
    rcases hcase with ⟨hnone, _⟩ | ⟨o', ar, uo, h1', _, _, _, hsome⟩
    · rw [hnone] at hp; cases hp
    · have h1 : mapGet newCatalog.outputs "vhd" = some outputVhd := rfl
      rw [h1] at h1'
      cases h1'
      rw [hsome] at hp
      cases hp
      refine ⟨systemdStageOptions outputVhd.EnabledServices outputVhd.DisabledServices
        b.services outputVhd.DefaultTarget, ?_, rfl⟩
      rw [Pipeline.Stages, mem_Systemd_stagesOf]
      exact ⟨Or.inr rfl, rfl⟩

/-- A witness of `Pipeline_services_stage`: the empty blueprint for "vhd" gets
a services stage, for "qcow2" it gets none. -/
theorem Pipeline_services_stage_witness :
    (∃ ret p s, newCatalog.Pipeline sampleCrypt emptyBlueprint [] [] "x86_64" "vhd" = .ok ret ∧
      ret.pipeline = some p ∧ Stage.Systemd s ∈ p.Stages ∧
      s.DefaultTarget = "multi-user.target") ∧
    (∃ ret p, newCatalog.Pipeline sampleCrypt emptyBlueprint [] [] "x86_64" "qcow2" = .ok ret ∧
      ret.pipeline = some p ∧ StageKind.Systemd ∉ p.Stages.map Stage.kind) := by
  constructor
  · obtain ⟨ret, hret, h⟩ := Pipeline_services_stage.2 newCatalog sampleCrypt emptyBlueprint
      [] [] New_eq rfl
    have hs := Pipeline_success newCatalog sampleCrypt emptyBlueprint [] [] "x86_64" "vhd"
      outputVhd archX86_64 ⟨[]⟩ rfl rfl rfl
    rw [hs] at hret
    cases hret
    obtain ⟨s, hmem, ht⟩ := h _ rfl
    exact ⟨_, _, s, hs, rfl, hmem, ht⟩
  · obtain ⟨ret, hret, h⟩ := Pipeline_services_stage.1 newCatalog sampleCrypt emptyBlueprint
      [] [] "x86_64" "qcow2" outputQcow2 rfl
    have hs := Pipeline_success newCatalog sampleCrypt emptyBlueprint [] [] "x86_64" "qcow2"
      outputQcow2 archX86_64 ⟨[]⟩ rfl rfl rfl
    rw [hs] at hret
    cases hret
    refine ⟨_, _, hs, rfl, fun hc => ?_⟩
    rcases ((h _ rfl).1.1 hc) with h' | h' <;> cases h'

/-- C12, the code at a failing input: for the format "vhd", whose output
definition enables "sshd" and "waagent", and a blueprint that enables "httpd"
and disables "bluetooth", the enabled list of the services stage is
["bluetooth"]; none of the three enabled services is in it. -/
theorem Pipeline_enabled_services_overwritten :
    systemdStageOptions (some ["sshd", "waagent"]) [] (some ⟨["httpd"], ["bluetooth"]⟩)
      "multi-user.target"
      = { EnabledServices := ["bluetooth"], DisabledServices := [],
          DefaultTarget := "multi-user.target" } ∧
    ∃ ret p s, newCatalog.Pipeline sampleCrypt servicesBlueprint [] [] "x86_64" "vhd" = .ok ret ∧
      ret.pipeline = some p ∧ Stage.Systemd s ∈ p.Stages ∧
      s.EnabledServices = ["bluetooth"] ∧
      s.EnabledServices ≠ ["sshd", "waagent", "httpd"] ∧
      "sshd" ∉ s.EnabledServices ∧ "waagent" ∉ s.EnabledServices ∧
      "httpd" ∉ s.EnabledServices := by
  refine ⟨rfl, _, _, systemdStageOptions outputVhd.EnabledServices outputVhd.DisabledServices
    servicesBlueprint.services outputVhd.DefaultTarget,
    Pipeline_success newCatalog sampleCrypt servicesBlueprint [] [] "x86_64" "vhd"
      outputVhd archX86_64 ⟨[]⟩ rfl rfl rfl, rfl, ?_, ?_⟩
  · rw [Pipeline.Stages, mem_Systemd_stagesOf]
    exact ⟨Or.inl rfl, rfl⟩
  · decide

/-- C13, the code at a failing input: for the format "vhd" and a blueprint that
enables "httpd" and disables "bluetooth", the disabled list of the services
stage is empty: the service the blueprint disables is not in it. -/
theorem Pipeline_disabled_services_dropped :
    ∃ ret p s, newCatalog.Pipeline sampleCrypt servicesBlueprint [] [] "x86_64" "vhd" = .ok ret ∧
      ret.pipeline = some p ∧ Stage.Systemd s ∈ p.Stages ∧
      s.DisabledServices = [] ∧ "bluetooth" ∉ s.DisabledServices ∧
      "bluetooth" ∈ s.EnabledServices := by
  refine ⟨_, _, systemdStageOptions outputVhd.EnabledServices outputVhd.DisabledServices
    servicesBlueprint.services outputVhd.DefaultTarget,
    Pipeline_success newCatalog sampleCrypt servicesBlueprint [] [] "x86_64" "vhd"
      outputVhd archX86_64 ⟨[]⟩ rfl rfl rfl, rfl, ?_, ?_⟩
  · rw [Pipeline.Stages, mem_Systemd_stagesOf]
    exact ⟨Or.inl rfl, rfl⟩
  · decide

/-- C14: `ListOutputFormats` returns the keys of the output table of the
catalog: the result is a rearrangement of the key list (so each key of a map,
whose keys are distinct, occurs once), it is in ascending lexicographic order,
and a name is in it exactly when it is a key; for the catalog built by `New`
the result is the list of the eight format names in order. -/
theorem ListOutputFormats_sorted_keys :
    (∀ r : RHEL82,
      r.ListOutputFormats.Perm (mapKeys r.outputs) ∧
      List.Sorted (· ≤ ·) r.ListOutputFormats ∧
      (∀ f, f ∈ r.ListOutputFormats ↔ (mapGet r.outputs f).isSome = true) ∧
      ((mapKeys r.outputs).Nodup → r.ListOutputFormats.Nodup)) ∧
    (∀ r : RHEL82, New = .ok r →
      (mapKeys r.outputs).Nodup ∧
      r.ListOutputFormats = ["ami", "ext4-filesystem", "openstack", "partitioned-disk",
        "qcow2", "tar", "vhd", "vmdk"]) := by
  constructor
  · intro r
    refine ⟨perm_sortStrings _, sorted_sortStrings _, mem_ListOutputFormats_iff r, fun h => ?_⟩
    exact (perm_sortStrings (mapKeys r.outputs)).nodup_iff.2 h
  · intro r hr
    rw [New_eq] at hr
    cases hr
    exact ⟨by decide, by decide⟩

/-- A witness of `ListOutputFormats_sorted_keys`: the listing of the catalog
that `New` returns. -/
theorem ListOutputFormats_sorted_keys_witness :
    New = .ok newCatalog ∧
    newCatalog.ListOutputFormats = ["ami", "ext4-filesystem", "openstack", "partitioned-disk",
      "qcow2", "tar", "vhd", "vmdk"] ∧
    newCatalog.ListOutputFormats.Nodup :=
  ⟨New_eq, (ListOutputFormats_sorted_keys.2 newCatalog New_eq).2,
    (ListOutputFormats_sorted_keys.1 newCatalog).2.2.2
      (ListOutputFormats_sorted_keys.2 newCatalog New_eq).1⟩

/-- C15: for every name `f`, `FilenameFromType` returns the artifact filename
and the MIME type of the catalog entry of `f` with a nil error when `f` is an
element of `ListOutputFormats`, and two empty strings with a non-nil error
when it is not; so the error is nil exactly for the listed names. -/
theorem FilenameFromType_listed (r : RHEL82) (f : String) :
    (f ∈ r.ListOutputFormats →
      ∃ o, mapGet r.outputs f = some o ∧ r.FilenameFromType f = (o.Name, o.MimeType, none)) ∧
    (f ∉ r.ListOutputFormats →
      r.FilenameFromType f = ("", "", some ("invalid output format: " ++ f))) ∧
    ((r.FilenameFromType f).2.2 = none ↔ f ∈ r.ListOutputFormats) := by
  rw [mem_ListOutputFormats_iff]
  unfold RHEL82.FilenameFromType
  cases h : mapGet r.outputs f with
  | none => simp
  | some o => simp

/-- A witness of `FilenameFromType_listed`: the listed name "ami" and the
unlisted name "iso". -/
theorem FilenameFromType_listed_witness :
    "ami" ∈ newCatalog.ListOutputFormats ∧
    newCatalog.FilenameFromType "ami" = ("image.raw.xz", "application/octet-stream", none) ∧
    "iso" ∉ newCatalog.ListOutputFormats ∧
    newCatalog.FilenameFromType "iso" = ("", "", some "invalid output format: iso") := by
  have hin : "ami" ∈ newCatalog.ListOutputFormats := by decide
  have hout : "iso" ∉ newCatalog.ListOutputFormats := by decide
  obtain ⟨o, ho, hf⟩ := (FilenameFromType_listed newCatalog "ami").1 hin
  have ho' : mapGet newCatalog.outputs "ami" = some outputAmi := rfl
  rw [ho'] at ho
  cases ho
  exact ⟨hin, hf, hout, (FilenameFromType_listed newCatalog "iso").2.1 hout⟩

/-! ## The catalog across calls -/

theorem mapGet_mapSet_self {α : Type} (m : List (String × α)) (k : String) (v : α) :
    mapGet (mapSet m k v) k = some v := by
  induction m with
  | nil => simp [mapSet, mapGet, List.lookup]
  | cons e rest ih =>
    obtain ⟨k', v'⟩ := e
    by_cases hk : k' = k
    · simp [mapSet, hk, mapGet, List.lookup]
    · have hb : (k == k') = false := by simpa using fun h => hk h.symm
      simp only [mapSet, hk, if_false, mapGet, List.lookup, hb]
      exact ih

theorem mapGet_mapSet_ne {α : Type} (m : List (String × α)) (k k2 : String) (v : α)
    (hne : k2 ≠ k) : mapGet (mapSet m k v) k2 = mapGet m k2 := by
  induction m with
  | nil =>
    have hb : (k2 == k) = false := by simpa using hne
    simp [mapSet, mapGet, List.lookup, hb]
  | cons e rest ih =>
    obtain ⟨k', v'⟩ := e
    by_cases hk : k' = k
    · subst hk
      have hb : (k2 == k') = false := by simpa using hne
      simp [mapSet, mapGet, List.lookup, hb]
    · by_cases hk2 : k2 = k'
      · subst hk2
        simp [mapSet, hk, mapGet, List.lookup]
      · have hb : (k2 == k') = false := by simpa using hk2
        simp only [mapSet, hk, if_false, mapGet, List.lookup, hb]
        exact ih

/-- Sorting does not depend on the order of the list that is sorted. -/
theorem sortStrings_congr (l1 l2 : List String) (h : l1.Perm l2) :
    sortStrings l1 = sortStrings l2 :=
  List.eq_of_perm_of_sorted
    (((perm_sortStrings l1).trans h).trans (perm_sortStrings l2).symm)
    (sorted_sortStrings l1) (sorted_sortStrings l2)

/-- The options `dnfStageOptions` builds do not depend on the order of the two
lists handed over. -/
theorem dnfStageOptions_congr (a : arch) (repos : List RepoConfig)
    (cks : List (String × String)) (pk pk' ex ex' : List String)
    (hp : pk'.Perm pk) (he : ex'.Perm ex) :
    dnfStageOptions a repos cks pk' ex' = dnfStageOptions a repos cks pk ex := by
  unfold dnfStageOptions
  rw [sortStrings_congr pk' pk hp, sortStrings_congr ex' ex he]

/-- The stage list does not depend on the order of the two package tables of
the output definition. -/
theorem stagesOf_congr (o : output) (P E : List String) (ar : arch) (b : Blueprint)
    (repos : List RepoConfig) (cks : List (String × String)) (uo : UsersStageOptions)
    (hP : P.Perm o.Packages) (hE : E.Perm o.ExcludedPackages) :
    stagesOf { o with Packages := P, ExcludedPackages := E } ar b repos cks uo
      = stagesOf o ar b repos cks uo := by
  unfold stagesOf
  simp only
  rw [dnfStageOptions_congr ar repos cks
    (o.Packages ++ b.packages ++ (if o.Bootable then ar.BootloaderPackages else []))
    (P ++ b.packages ++ (if o.Bootable then ar.BootloaderPackages else []))
    o.ExcludedPackages E ((hP.append_right _).append_right _) hE]

/-- The catalog after a call: untouched when a name is unknown, else with the
two tables of the entry sorted in place as `sortedInPlace` describes. -/
theorem Pipeline_catalog (r : RHEL82) (c : Crypt) (b : Blueprint) (repos : List RepoConfig)
    (cks : List (String × String)) (a f : String) :
    ∃ ret, r.Pipeline c b repos cks a f = .ok ret ∧
      (ret.catalog = r ∨
       ∃ o ar, mapGet r.outputs f = some o ∧ mapGet r.arches a = some ar ∧
         ret.catalog = sortedInPlace r f o (packagesShared o ar b)) := by
  cases h1 : mapGet r.outputs f with
  | none => exact ⟨_, Pipeline_invalidFormat r c b repos cks a f h1, Or.inl rfl⟩
  | some o =>
    cases h2 : mapGet r.arches a with
    | none => exact ⟨_, Pipeline_invalidArch r c b repos cks a f o h1 h2, Or.inl rfl⟩
    | some ar =>
      cases hu : userStageOptions c b.users with
      | error e =>
        exact ⟨_, Pipeline_hashError r c b repos cks a f o ar e h1 h2 hu,
          Or.inr ⟨o, ar, rfl, rfl, rfl⟩⟩
      | ok uo =>
        exact ⟨_, Pipeline_success r c b repos cks a f o ar uo h1 h2 hu,
          Or.inr ⟨o, ar, rfl, rfl, rfl⟩⟩

/-- Two catalogs with the same architectures whose entries for the format
differ at most in the order of the two package tables give the same pipeline
and the same error. -/
theorem Pipeline_perm_invariant (r r' : RHEL82) (c : Crypt) (b : Blueprint)
    (repos : List RepoConfig) (cks : List (String × String)) (a f : String)
    (harch : r'.arches = r.arches)
    (hout : (mapGet r.outputs f = none ∧ mapGet r'.outputs f = none) ∨
      ∃ o P E, mapGet r.outputs f = some o ∧ P.Perm o.Packages ∧ E.Perm o.ExcludedPackages ∧
        mapGet r'.outputs f = some { o with Packages := P, ExcludedPackages := E }) :
    ∃ ret ret', r.Pipeline c b repos cks a f = .ok ret ∧
      r'.Pipeline c b repos cks a f = .ok ret' ∧
      ret'.pipeline = ret.pipeline ∧ ret'.err = ret.err := by
  rcases hout with ⟨h1, h1'⟩ | ⟨o, P, E, h1, hP, hE, h1'⟩
  · exact ⟨_, _, Pipeline_invalidFormat r c b repos cks a f h1,
      Pipeline_invalidFormat r' c b repos cks a f h1', rfl, rfl⟩
  · cases h2 : mapGet r.arches a with
    | none =>
      have h2' : mapGet r'.arches a = none := by rw [harch]; exact h2
      exact ⟨_, _, Pipeline_invalidArch r c b repos cks a f o h1 h2,
        Pipeline_invalidArch r' c b repos cks a f _ h1' h2', rfl, rfl⟩
    | some ar =>
      have h2' : mapGet r'.arches a = some ar := by rw [harch]; exact h2
      cases hu : userStageOptions c b.users with
      | error e =>
        exact ⟨_, _, Pipeline_hashError r c b repos cks a f o ar e h1 h2 hu,
          Pipeline_hashError r' c b repos cks a f _ ar e h1' h2' hu, rfl, rfl⟩
      | ok uo =>
        refine ⟨_, _, Pipeline_success r c b repos cks a f o ar uo h1 h2 hu,
          Pipeline_success r' c b repos cks a f _ ar uo h1' h2' hu, ?_, rfl⟩
        simp only [stagesOf_congr o P E ar b repos cks uo hP hE]

/-- The lookups of the format in a catalog and in the catalog a call leaves
behind differ at most in the order of the two package tables. -/
theorem lookup_after_call (r : RHEL82) (c : Crypt) (b : Blueprint) (repos : List RepoConfig)
    (cks : List (String × String)) (a f : String) (f2 : String) :
    ∃ ret, r.Pipeline c b repos cks a f = .ok ret ∧ ret.catalog.arches = r.arches ∧
      ((mapGet r.outputs f2 = none ∧ mapGet ret.catalog.outputs f2 = none) ∨
        ∃ o P E, mapGet r.outputs f2 = some o ∧ P.Perm o.Packages ∧
          E.Perm o.ExcludedPackages ∧
          mapGet ret.catalog.outputs f2 = some { o with Packages := P, ExcludedPackages := E }) := by
  have hsame : ∀ r' : RHEL82, mapGet r'.outputs f2 = mapGet r.outputs f2 →
      ((mapGet r.outputs f2 = none ∧ mapGet r'.outputs f2 = none) ∨
        ∃ o P E, mapGet r.outputs f2 = some o ∧ P.Perm o.Packages ∧
          E.Perm o.ExcludedPackages ∧
          mapGet r'.outputs f2 = some { o with Packages := P, ExcludedPackages := E }) := by
    intro r' h
    cases h1 : mapGet r.outputs f2 with
    | none => exact Or.inl ⟨rfl, by rw [h, h1]⟩
    | some o =>
      exact Or.inr ⟨o, o.Packages, o.ExcludedPackages, rfl, List.Perm.refl _, List.Perm.refl _,
        by rw [h, h1]⟩
  obtain ⟨ret, hret, hcat⟩ := Pipeline_catalog r c b repos cks a f
  refine ⟨ret, hret, ?_⟩
  rcases hcat with hcat | ⟨o, ar, h1, _, hcat⟩
  · rw [hcat]
    exact ⟨rfl, hsame r rfl⟩
  · rw [hcat]
    refine ⟨rfl, ?_⟩
    by_cases hf : f2 = f
    · subst hf
      refine Or.inr ⟨o, if packagesShared o ar b then sortStrings o.Packages else o.Packages,
        sortStrings o.ExcludedPackages, h1, ?_, perm_sortStrings _, ?_⟩
      · split
        · exact perm_sortStrings _
        · exact List.Perm.refl _
      · simp only [sortedInPlace, mapGet_mapSet_self]
    · exact hsame _ (by simp only [sortedInPlace, mapGet_mapSet_ne _ _ _ _ hf])

/-- Where the hashing collaborator answers alike for the passwords of the
users, the loop of `userStageOptions` computes the same. -/
theorem userStageOptionsLoop_congr (c c2 : Crypt) (users : List UserCustomization)
    (acc : List (String × UsersStageOptionsUser)) (h : ∀ u ∈ users, sameHash c c2 u) :
    userStageOptionsLoop c users acc = userStageOptionsLoop c2 users acc := by
  induction users generalizing acc with
  | nil => rfl
  | cons u rest ih =>
    have hu := h u (List.mem_cons_self _ _)
    have hrest : ∀ x ∈ rest, sameHash c c2 x := fun x hx => h x (List.mem_cons_of_mem _ hx)
    unfold userStageOptionsLoop
    cases hp : u.Password with
    | none => simpa using ih _ hrest
    | some pw =>
      obtain ⟨h1, h2⟩ := hu pw hp
      cases hc : c.PasswordIsCrypted pw with
      | true =>
        have hc2 : c2.PasswordIsCrypted pw = true := by rw [← h1]; exact hc
        simpa [hc, hc2] using ih _ hrest
      | false =>
        have hc2 : c2.PasswordIsCrypted pw = false := by rw [← h1]; exact hc
        have hh := h2 hc
        cases hx : c.CryptSHA512 pw with
        | error e =>
          have hx2 : c2.CryptSHA512 pw = .error e := by rw [← hh]; exact hx
          simp [hc, hc2, hx, hx2]
        | ok hash =>
          have hx2 : c2.CryptSHA512 pw = .ok hash := by rw [← hh]; exact hx
          simpa [hc, hc2, hx, hx2] using ih _ hrest

/-- Where the hashing collaborator answers alike for the passwords of the
users of the blueprint, a call of `Pipeline` returns the same. -/
theorem Pipeline_crypt_congr (r : RHEL82) (c c2 : Crypt) (b : Blueprint)
    (repos : List RepoConfig) (cks : List (String × String)) (a f : String)
    (h : ∀ u ∈ b.users, sameHash c c2 u) :
    r.Pipeline c2 b repos cks a f = r.Pipeline c b repos cks a f := by
  have hu2 : userStageOptions c2 b.users = userStageOptions c b.users := by
    unfold userStageOptions
    rw [userStageOptionsLoop_congr c c2 b.users [] h]
  cases h1 : mapGet r.outputs f with
  | none =>
    rw [Pipeline_invalidFormat r c b repos cks a f h1,
      Pipeline_invalidFormat r c2 b repos cks a f h1]
  | some o =>
    cases h2 : mapGet r.arches a with
    | none =>
      rw [Pipeline_invalidArch r c b repos cks a f o h1 h2,
        Pipeline_invalidArch r c2 b repos cks a f o h1 h2]
    | some ar =>
      cases hu : userStageOptions c b.users with
      | error e =>
        rw [Pipeline_hashError r c b repos cks a f o ar e h1 h2 hu,
          Pipeline_hashError r c2 b repos cks a f o ar e h1 h2 (by rw [hu2]; exact hu)]
      | ok uo =>
        rw [Pipeline_success r c b repos cks a f o ar uo h1 h2 hu,
          Pipeline_success r c2 b repos cks a f o ar uo h1 h2 (by rw [hu2]; exact hu)]

/-- C16, the claim as stated fails: `Pipeline` has no hashing input and no
seed, it obtains the hash of a plain password from the package `crypt` where
it needs it. Two calls with identical inputs (the catalog of `New`, a
blueprint with the one user "admin" with the plain password "secret", no
repositories, "x86_64", "tar"), the second on the catalog the first has left
behind, return pipelines that differ when the package salts the hash
differently in the two calls: the password of the users stage is
"$6$saltAAAA$secret" in the first and "$6$saltBBBB$secret" in the second. -/
theorem Pipeline_hash_not_an_input :
    ∃ ret ret2 p p2 uo uo2 u u2,
      newCatalog.Pipeline (saltedCrypt "saltAAAA") { emptyBlueprint with users := [sampleUser] }
        [] [] "x86_64" "tar" = .ok ret ∧
      ret.catalog.Pipeline (saltedCrypt "saltBBBB") { emptyBlueprint with users := [sampleUser] }
        [] [] "x86_64" "tar" = .ok ret2 ∧
      ret.pipeline = some p ∧ ret2.pipeline = some p2 ∧
      Stage.Users uo ∈ p.Stages ∧ Stage.Users uo2 ∈ p2.Stages ∧
      mapGet uo.Users "admin" = some u ∧ mapGet uo2.Users "admin" = some u2 ∧
      u.Password = some "$6$saltAAAA$secret" ∧ u2.Password = some "$6$saltBBBB$secret" ∧
      ret2.pipeline ≠ ret.pipeline := by
  let user : String → UsersStageOptionsUser := fun password =>
    { Groups := [], Description := none, Home := none, Shell := none
      Password := some password, Key := none, UID := none, GID := none }
  have hs := Pipeline_success newCatalog (saltedCrypt "saltAAAA")
    { emptyBlueprint with users := [sampleUser] } [] [] "x86_64" "tar"
    outputTar archX86_64 ⟨[("admin", user "$6$saltAAAA$secret")]⟩ rfl rfl rfl
  have hs2 := Pipeline_success
    (sortedInPlace newCatalog "tar" outputTar
      (packagesShared outputTar archX86_64 { emptyBlueprint with users := [sampleUser] }))
    (saltedCrypt "saltBBBB") { emptyBlueprint with users := [sampleUser] } [] [] "x86_64" "tar"
    _ archX86_64 ⟨[("admin", user "$6$saltBBBB$secret")]⟩ rfl rfl rfl
  refine ⟨_, _, _, _, ⟨[("admin", user "$6$saltAAAA$secret")]⟩,
    ⟨[("admin", user "$6$saltBBBB$secret")]⟩, user "$6$saltAAAA$secret",
    user "$6$saltBBBB$secret", hs, hs2, rfl, rfl, ?_, ?_, rfl, rfl, rfl, rfl, ?_⟩
  · simp [Pipeline.Stages, stagesOf, emptyBlueprint]
  · simp [Pipeline.Stages, stagesOf, emptyBlueprint]
  · intro h
    have hst := congrArg
      (fun o : Option Pipeline => o.map (fun q => q.Stages.filter
        (fun s => decide (s.kind = StageKind.Users)))) h
    simp only [Option.map, Pipeline.Stages, Option.some.injEq] at hst
    simp [stagesOf, emptyBlueprint, user, List.filter_cons] at hst

/-- C16, amended: determinism relative to the hashing collaborator. Where the
package `crypt` answers alike in the two calls for the passwords of the users
of the blueprint (in particular where no user has a password), the pipeline
and the error that `Pipeline` returns for given inputs are the same on a
catalog and on the catalog that an earlier call (with any inputs, in
particular the same ones) has left behind: two such calls with identical
inputs return equal pipelines, or equal errors, also when the second is made
on the same catalog instance after the first. -/
theorem Pipeline_deterministic (r : RHEL82) (c c2 : Crypt) (b : Blueprint)
    (repos : List RepoConfig) (cks : List (String × String)) (a f : String)
    (c0 : Crypt) (b0 : Blueprint) (repos0 : List RepoConfig) (cks0 : List (String × String))
    (a0 f0 : String) (hc : ∀ u ∈ b.users, sameHash c c2 u) :
    ∃ ret0 ret ret2, r.Pipeline c0 b0 repos0 cks0 a0 f0 = .ok ret0 ∧
      r.Pipeline c b repos cks a f = .ok ret ∧
      ret0.catalog.Pipeline c2 b repos cks a f = .ok ret2 ∧
      ret2.pipeline = ret.pipeline ∧ ret2.err = ret.err := by
  obtain ⟨ret0, hret0, harch, hout⟩ := lookup_after_call r c0 b0 repos0 cks0 a0 f0 f
  obtain ⟨ret, ret2, h, h2, hp, he⟩ :=
    Pipeline_perm_invariant r ret0.catalog c b repos cks a f harch hout
  have hcongr := Pipeline_crypt_congr ret0.catalog c c2 b repos cks a f hc
  exact ⟨ret0, ret, ret2, hret0, h, by rw [hcongr]; exact h2, hp, he⟩

/-- A witness of `Pipeline_deterministic`: a blueprint with the user "admin",
whose plain password is hashed, translated twice for "tar" on the same catalog
with the same salt: the two pipelines are equal and have a users stage. -/
theorem Pipeline_deterministic_witness :
    (∀ u ∈ ({ emptyBlueprint with users := [sampleUser] } : Blueprint).users,
      sameHash (saltedCrypt "saltAAAA") (saltedCrypt "saltAAAA") u) ∧
    ∃ ret0 ret ret2 p,
      newCatalog.Pipeline (saltedCrypt "saltAAAA") { emptyBlueprint with users := [sampleUser] }
        [] [] "x86_64" "tar" = .ok ret0 ∧
      newCatalog.Pipeline (saltedCrypt "saltAAAA") { emptyBlueprint with users := [sampleUser] }
        [] [] "x86_64" "tar" = .ok ret ∧
      ret0.catalog.Pipeline (saltedCrypt "saltAAAA")
        { emptyBlueprint with users := [sampleUser] } [] [] "x86_64" "tar" = .ok ret2 ∧
      ret2.pipeline = ret.pipeline ∧ ret2.err = ret.err ∧
      ret.pipeline = some p ∧ StageKind.Users ∈ p.Stages.map Stage.kind := by
  have hsame : ∀ u ∈ ({ emptyBlueprint with users := [sampleUser] } : Blueprint).users,
      sameHash (saltedCrypt "saltAAAA") (saltedCrypt "saltAAAA") u :=
    fun _ _ _ _ => ⟨rfl, fun _ => rfl⟩
  obtain ⟨ret0, ret, ret2, h0, h, h2, hp, he⟩ :=
    Pipeline_deterministic newCatalog (saltedCrypt "saltAAAA") (saltedCrypt "saltAAAA")
      { emptyBlueprint with users := [sampleUser] } [] [] "x86_64" "tar"
      (saltedCrypt "saltAAAA") { emptyBlueprint with users := [sampleUser] } [] [] "x86_64" "tar"
      hsame
  have hs := Pipeline_success newCatalog (saltedCrypt "saltAAAA")
    { emptyBlueprint with users := [sampleUser] } [] [] "x86_64" "tar"
    outputTar archX86_64 _ rfl rfl rfl
  have hret : ret = _ := Except.ok.inj (h.symm.trans hs)
  refine ⟨hsame, ret0, ret, ret2, _, h0, h, h2, hp, he, by rw [hret], ?_⟩
  simp [Pipeline.Stages, kinds_stagesOf, emptyBlueprint]

/-- C17, the code at a failing input: a call of `Pipeline` with the empty
blueprint on the catalog built by `New` reorders catalog tables. After the
call for "ami" the excluded packages of the entry "ami" hold
"iwl100-firmware" before "iwl1000-firmware", the reverse of the table of
`New`; after the call for "tar" the packages of the entry "tar" are in sorted
order, not in the order of the table of `New`. -/
theorem Pipeline_reorders_catalog :
    (∃ ret o, newCatalog.Pipeline sampleCrypt emptyBlueprint [] [] "x86_64" "ami" = .ok ret ∧
      mapGet newCatalog.outputs "ami" = some outputAmi ∧
      mapGet ret.catalog.outputs "ami" = some o ∧
      (outputAmi.ExcludedPackages.get? 9, outputAmi.ExcludedPackages.get? 10)
        = (some "iwl1000-firmware", some "iwl100-firmware") ∧
      (o.ExcludedPackages.get? 9, o.ExcludedPackages.get? 10)
        = (some "iwl100-firmware", some "iwl1000-firmware") ∧
      o.ExcludedPackages ≠ outputAmi.ExcludedPackages) ∧
    (∃ ret o, newCatalog.Pipeline sampleCrypt emptyBlueprint [] [] "x86_64" "tar" = .ok ret ∧
      mapGet newCatalog.outputs "tar" = some outputTar ∧
      mapGet ret.catalog.outputs "tar" = some o ∧
      outputTar.Packages = ["policycoreutils", "selinux-policy-targeted", "kernel",
        "firewalld", "chrony", "dracut-config-generic", "langpacks-en"] ∧
      o.Packages = ["chrony", "dracut-config-generic", "firewalld", "kernel", "langpacks-en",
        "policycoreutils", "selinux-policy-targeted"] ∧
      o.Packages ≠ outputTar.Packages) := by
  constructor
  · refine ⟨_, { outputAmi with
        ExcludedPackages := sortStrings outputAmi.ExcludedPackages },
      Pipeline_success newCatalog sampleCrypt emptyBlueprint [] [] "x86_64" "ami"
        outputAmi archX86_64 ⟨[]⟩ rfl rfl rfl, rfl, ?_, ?_⟩
    · simp only [sortedInPlace, mapGet_mapSet_self]
      rfl
    · decide
  · refine ⟨_, { outputTar with
        Packages := sortStrings outputTar.Packages
        ExcludedPackages := sortStrings outputTar.ExcludedPackages },
      Pipeline_success newCatalog sampleCrypt emptyBlueprint [] [] "x86_64" "tar"
        outputTar archX86_64 ⟨[]⟩ rfl rfl rfl, rfl, ?_, ?_⟩
    · simp only [sortedInPlace, mapGet_mapSet_self]
      rfl
    · decide

/-! ## Stage order, boot stages, build pipeline -/

theorem sublist_ite_singleton {α : Type} (c : Prop) [Decidable c] (x : α) :
    (if c then [x] else []).Sublist [x] := by
  split
  · exact List.Sublist.refl _
  · exact List.nil_sublist _

/-- The stage kinds of the closed form are a subsequence of `stageOrder`. -/
theorem kinds_stagesOf_sublist (o : output) (ar : arch) (b : Blueprint)
    (repos : List RepoConfig) (cks : List (String × String)) (uo : UsersStageOptions) :
    ((stagesOf o ar b repos cks uo).map Stage.kind).Sublist stageOrder := by
  rw [kinds_stagesOf]
  have hfixed : stageOrder =
      [StageKind.DNF, StageKind.FixBLS] ++ [StageKind.FSTab]
      ++ [StageKind.GRUB2, StageKind.Locale] ++ [StageKind.Keymap] ++ [StageKind.Hostname]
      ++ [StageKind.Timezone] ++ [StageKind.Chrony] ++ [StageKind.Users]
      ++ [StageKind.Groups] ++ [StageKind.Systemd] ++ [StageKind.Firewall]
      ++ [StageKind.SELinux] := rfl
  rw [hfixed]
  refine List.Sublist.append (List.Sublist.append (List.Sublist.append (List.Sublist.append
    (List.Sublist.append (List.Sublist.append (List.Sublist.append (List.Sublist.append
    (List.Sublist.append (List.Sublist.append (List.Sublist.append ?_ ?_) ?_) ?_) ?_) ?_) ?_)
    ?_) ?_) ?_) ?_) ?_
  all_goals first
    | exact List.Sublist.refl _
    | exact sublist_ite_singleton _ _

/-- C22: every call of `Pipeline` returns, and in every pipeline it returns the
sequence of stage kinds is a subsequence of the fixed list package-install,
BLS-fix, fstab, GRUB2, locale, keymap, hostname, timezone, chrony, users,
groups, systemd, firewall, SELinux; so each stage kind occurs at most once and
the stages occur in this relative order. -/
theorem Pipeline_stage_sequence (r : RHEL82) (c : Crypt) (b : Blueprint)
    (repos : List RepoConfig) (cks : List (String × String)) (a f : String) :
    ∃ ret, r.Pipeline c b repos cks a f = .ok ret ∧
      ∀ p, ret.pipeline = some p →
        (p.Stages.map Stage.kind).Sublist
          [StageKind.DNF, StageKind.FixBLS, StageKind.FSTab, StageKind.GRUB2,
            StageKind.Locale, StageKind.Keymap, StageKind.Hostname, StageKind.Timezone,
            StageKind.Chrony, StageKind.Users, StageKind.Groups, StageKind.Systemd,
            StageKind.Firewall, StageKind.SELinux] ∧
        (p.Stages.map Stage.kind).Nodup ∧
        (∀ k, (p.Stages.map Stage.kind).count k ≤ 1) := by
  obtain ⟨ret, hret, hcase⟩ := Pipeline_returns r c b repos cks a f
  refine ⟨ret, hret, fun p hp => ?_⟩
  rcases hcase with ⟨hnone, _⟩ | ⟨o, ar, uo, _, _, _, _, hsome⟩
  · rw [hnone] at hp; cases hp
  · rw [hsome] at hp
    cases hp
    have hsub := kinds_stagesOf_sublist o ar b repos cks uo
    have hnodup : ((stagesOf o ar b repos cks uo).map Stage.kind).Nodup :=
      List.Nodup.sublist hsub (by decide)
    exact ⟨hsub, hnodup, fun k => List.nodup_iff_count_le_one.1 hnodup k⟩

/-- A witness of `Pipeline_stage_sequence`: the stage kinds of the translation
of a blueprint with a hostname and a user for "qcow2". -/
theorem Pipeline_stage_sequence_witness :
    ∃ ret p,
      newCatalog.Pipeline sampleCrypt
        { emptyBlueprint with hostname := some "host", users := [sampleUser] } [] []
        "x86_64" "qcow2" = .ok ret ∧
      ret.pipeline = some p ∧
      p.Stages.map Stage.kind = [StageKind.DNF, StageKind.FixBLS, StageKind.FSTab,
        StageKind.GRUB2, StageKind.Locale, StageKind.Hostname, StageKind.Users,
        StageKind.SELinux] ∧
      (p.Stages.map Stage.kind).Nodup := by
  obtain ⟨ret, hret, h⟩ := Pipeline_stage_sequence newCatalog sampleCrypt
    { emptyBlueprint with hostname := some "host", users := [sampleUser] } [] []
    "x86_64" "qcow2"
  obtain ⟨uo, huo⟩ := userStageOptions_ok sampleCrypt
    ({ emptyBlueprint with hostname := some "host", users := [sampleUser] } : Blueprint).users
    (fun _ _ pw _ _ => ⟨"$6$" ++ pw, rfl⟩)
  have hs := Pipeline_success newCatalog sampleCrypt
    { emptyBlueprint with hostname := some "host", users := [sampleUser] } [] []
    "x86_64" "qcow2" outputQcow2 archX86_64 uo rfl rfl huo
  rw [hs] at hret
  cases hret
  refine ⟨_, _, hs, rfl, ?_, (h _ rfl).2.1⟩
  rw [Pipeline.Stages, kinds_stagesOf]
  rfl

/-- C23: the pipeline that `Pipeline` returns contains an fstab stage exactly
when the output definition is bootable, and it contains the GRUB2 stage for
every output format: the pipeline starts package-install, BLS-fix, GRUB2 when
the output is not bootable and package-install, BLS-fix, fstab, GRUB2 when it
is. In the catalog built by `New` the formats "tar" and "ext4-filesystem" are
not bootable. -/
theorem Pipeline_boot_stages :
    (∀ (r : RHEL82) (c : Crypt) (b : Blueprint) (repos : List RepoConfig)
        (cks : List (String × String)) (a f : String) (o : output),
      mapGet r.outputs f = some o →
      ∃ ret, r.Pipeline c b repos cks a f = .ok ret ∧
        ∀ p, ret.pipeline = some p →
          (StageKind.FSTab ∈ p.Stages.map Stage.kind ↔ o.Bootable = true) ∧
          StageKind.GRUB2 ∈ p.Stages.map Stage.kind ∧
          (o.Bootable = false → (p.Stages.map Stage.kind).take 3
            = [StageKind.DNF, StageKind.FixBLS, StageKind.GRUB2]) ∧
          (o.Bootable = true → (p.Stages.map Stage.kind).take 4
            = [StageKind.DNF, StageKind.FixBLS, StageKind.FSTab, StageKind.GRUB2])) ∧
    (∀ r : RHEL82, New = .ok r →
      (∃ o, mapGet r.outputs "tar" = some o ∧ o.Bootable = false) ∧
      (∃ o, mapGet r.outputs "ext4-filesystem" = some o ∧ o.Bootable = false)) := by
  constructor
  · intro r c b repos cks a f o h1
    obtain ⟨ret, hret, hcase⟩ := Pipeline_returns r c b repos cks a f
    refine ⟨ret, hret, fun p hp => ?_⟩
    rcases hcase with ⟨hnone, _⟩ | ⟨o', ar, uo, h1', _, _, _, hsome⟩
    · rw [hnone] at hp; cases hp
    · rw [h1] at h1'
      cases h1'
      rw [hsome] at hp
      cases hp
      simp only [Pipeline.Stages, kinds_stagesOf]
      refine ⟨?_, ?_, fun hb => ?_, fun hb => ?_⟩
      · simp [List.mem_ite_nil_right]
      · simp
      · simp [hb]
      · simp [hb]
  · intro r hr
    rw [New_eq] at hr
    cases hr
    exact ⟨⟨_, rfl, rfl⟩, ⟨_, rfl, rfl⟩⟩

/-- A witness of `Pipeline_boot_stages`: for "tar" the GRUB2 stage directly
follows the BLS-fix stage and there is no fstab stage. -/
theorem Pipeline_boot_stages_witness :
    mapGet newCatalog.outputs "tar" = some outputTar ∧ outputTar.Bootable = false ∧
    ∃ ret p,
      newCatalog.Pipeline sampleCrypt emptyBlueprint [] [] "x86_64" "tar" = .ok ret ∧
      ret.pipeline = some p ∧
      (p.Stages.map Stage.kind).take 3
        = [StageKind.DNF, StageKind.FixBLS, StageKind.GRUB2] ∧
      StageKind.FSTab ∉ p.Stages.map Stage.kind := by
  refine ⟨rfl, rfl, ?_⟩
  obtain ⟨ret, hret, h⟩ := Pipeline_boot_stages.1 newCatalog sampleCrypt emptyBlueprint [] []
    "x86_64" "tar" outputTar rfl
  have hs := Pipeline_success newCatalog sampleCrypt emptyBlueprint [] [] "x86_64" "tar"
    outputTar archX86_64 ⟨[]⟩ rfl rfl rfl
  rw [hs] at hret
  cases hret
  obtain ⟨hfstab, _, hnb, _⟩ := h _ rfl
  exact ⟨_, _, hs, rfl, hnb rfl, fun hc => by have := hfstab.1 hc; cases this⟩

theorem foldl_AddPackage_Repositories (l : List String) (o : DNFStageOptions) :
    (l.foldl (fun o pkg => o.AddPackage pkg) o).Repositories = o.Repositories := by
  induction l generalizing o with
  | nil => rfl
  | cons x xs ih => simp only [List.foldl_cons]; rw [ih]; rfl

theorem foldl_ExcludePackage_Repositories (l : List String) (o : DNFStageOptions) :
    (l.foldl (fun o pkg => o.ExcludePackage pkg) o).Repositories = o.Repositories := by
  induction l generalizing o with
  | nil => rfl
  | cons x xs ih => simp only [List.foldl_cons]; rw [ih]; rfl

/-- The repositories of the options `dnfStageOptions` builds: those of the
distro for the architecture, then the additional ones, each with its
checksum. -/
theorem dnfStageOptions_Repositories (a : arch) (repos : List RepoConfig)
    (cks : List (String × String)) (pk ex : List String) :
    (dnfStageOptions a repos cks pk ex).Repositories
      = (Repositories a.Name ++ repos).map (fun repo =>
          { BaseURL := repo.BaseURL
            MetaLink := repo.Metalink
            MirrorList := repo.MirrorList
            Checksum := mapGetD cks repo.Id }) := by
  unfold dnfStageOptions
  simp only [foldl_ExcludePackage_Repositories, foldl_AddPackage_Repositories,
    (foldl_AddRepository _ _ _).2.2, List.nil_append]

/-- C24: the build pipeline attached by `Pipeline` has exactly one stage, a
package-install stage whose include list is the sorted list of the ten
bootstrap packages and the build packages of the architecture, whose exclude
list is empty and whose repositories are those of the distro alone; it has no
assembler and no build pipeline of its own, and every call with the same
architecture and checksums, whatever the output format, the blueprint and the
additional repositories, attaches the same build pipeline. -/
theorem Pipeline_build_pipeline (r : RHEL82) (c : Crypt) (b : Blueprint)
    (repos : List RepoConfig) (cks : List (String × String)) (a f : String) (ar : arch)
    (h2 : mapGet r.arches a = some ar) :
    ∃ ret, r.Pipeline c b repos cks a f = .ok ret ∧
      ∀ p, ret.pipeline = some p →
        ∃ bp d, p.Build = some bp ∧ bp.Stages = [Stage.DNF d] ∧
          d.Packages = sortStrings
            (["dnf", "dracut-config-generic", "e2fsprogs", "glibc", "policycoreutils",
              "python36", "qemu-img", "systemd", "tar", "xfsprogs"] ++ ar.BuildPackages) ∧
          d.ExcludedPackages = [] ∧
          d.Repositories = (Repositories ar.Name).map (fun repo =>
            { BaseURL := repo.BaseURL
              MetaLink := repo.Metalink
              MirrorList := repo.MirrorList
              Checksum := mapGetD cks repo.Id }) ∧
          bp.Assembler = none ∧ bp.Build = none ∧
          (∀ (c' : Crypt) (b' : Blueprint) (repos' : List RepoConfig) (f' : String),
            ∃ ret', r.Pipeline c' b' repos' cks a f' = .ok ret' ∧
              ∀ p', ret'.pipeline = some p' → p'.Build = some bp) := by
  obtain ⟨ret, hret, hcase⟩ := Pipeline_returns r c b repos cks a f
  refine ⟨ret, hret, fun p hp => ?_⟩
  rcases hcase with ⟨hnone, _⟩ | ⟨o, ar', uo, _, h2', _, _, hsome⟩
  · rw [hnone] at hp; cases hp
  · rw [h2] at h2'
    cases h2'
    rw [hsome] at hp
    cases hp
    refine ⟨buildPipeline ar cks, dnfStageOptions ar [] cks (bootstrapPackages
      ++ ar.BuildPackages) [], rfl, rfl, dnfStageOptions_Packages _ _ _ _ _, ?_, ?_, rfl, rfl,
      fun c' b' repos' f' => ?_⟩
    · rw [dnfStageOptions_ExcludedPackages]; rfl
    · rw [dnfStageOptions_Repositories, List.append_nil]
    · obtain ⟨ret', hret', hcase'⟩ := Pipeline_returns r c' b' repos' cks a f'
      refine ⟨ret', hret', fun p' hp' => ?_⟩
      rcases hcase' with ⟨hnone', _⟩ | ⟨o', ar'', uo', _, h2'', _, _, hsome'⟩
      · rw [hnone'] at hp'; cases hp'
      · rw [h2] at h2''
        cases h2''
        rw [hsome'] at hp'
        cases hp'
        rfl

/-- A witness of `Pipeline_build_pipeline`: the include list of the build
pipeline for "x86_64" on the catalog that `New` returns. -/
theorem Pipeline_build_pipeline_witness :
    mapGet newCatalog.arches "x86_64" = some archX86_64 ∧
    ∃ ret p bp d,
      newCatalog.Pipeline sampleCrypt firewalldBlueprint [] [] "x86_64" "vhd" = .ok ret ∧
      ret.pipeline = some p ∧ p.Build = some bp ∧ bp.Stages = [Stage.DNF d] ∧
      d.Packages = ["dnf", "dracut-config-generic", "e2fsprogs", "glibc", "grub2-pc",
        "policycoreutils", "python36", "qemu-img", "systemd", "tar", "xfsprogs"] ∧
      d.ExcludedPackages = [] ∧ bp.Assembler = none := by
  refine ⟨rfl, ?_⟩
  obtain ⟨ret, hret, h⟩ := Pipeline_build_pipeline newCatalog sampleCrypt firewalldBlueprint
    [] [] "x86_64" "vhd" archX86_64 rfl
  have hs := Pipeline_success newCatalog sampleCrypt firewalldBlueprint [] [] "x86_64" "vhd"
    outputVhd archX86_64 ⟨[]⟩ rfl rfl rfl
  rw [hs] at hret
  cases hret
  obtain ⟨bp, d, hb, hst, hpk, hex, _, hasm, _, _⟩ := h _ rfl
  exact ⟨_, _, bp, d, hs, rfl, hb, hst, by rw [hpk]; decide, hex, hasm⟩

/-! ## The root filesystem identifier and the artifact filename -/

/-- The fstab stage occurs in the closed form when the output is bootable,
once, with the options of `fsTabStageOptions`. -/
theorem filter_FSTab_stagesOf (o : output) (ar : arch) (b : Blueprint)
    (repos : List RepoConfig) (cks : List (String × String)) (uo : UsersStageOptions) :
    (stagesOf o ar b repos cks uo).filter (fun s => decide (s.kind = StageKind.FSTab))
      = if o.Bootable then [Stage.FSTab fsTabStageOptions] else [] := by
  unfold stagesOf
  cases o.Bootable
  · simp [List.filter_cons, filter_kind_ite, filter_kind_option]
  · simp [List.filter_cons, filter_kind_ite, filter_kind_option]

theorem qemuAssembler_spec (format filename : String) (size : Nat) :
    ∃ asm, qemuAssembler format filename size = some asm ∧
      asm.rootUUIDIs rootUUID ∧ asm.Filename = filename := by
  refine ⟨_, rfl, ?_, rfl⟩
  intro part hpart _
  simp only [List.mem_singleton] at hpart
  subst hpart
  exact uuidParse_rootUUIDLiteral

/-- Every entry of the catalog that `New` returns has an assembler, whose
root filesystem identifier is the fixed one and whose `Filename` is the
artifact filename of the entry. -/
theorem newCatalog_entry (f : String) (o : output)
    (h1 : mapGet newCatalog.outputs f = some o) :
    ∃ asm, o.Assembler = some asm ∧ asm.rootUUIDIs rootUUID ∧ o.Name = asm.Filename := by
  have hmem := mapGet_mem _ _ _ h1
  simp only [newCatalog, List.mem_cons, Prod.mk.injEq, List.mem_nil_iff, or_false] at hmem
  rcases hmem with ⟨_, h⟩ | ⟨_, h⟩ | ⟨_, h⟩ | ⟨_, h⟩ | ⟨_, h⟩ | ⟨_, h⟩ | ⟨_, h⟩ | ⟨_, h⟩
  · subst h
    obtain ⟨asm, h, hu, hf⟩ := qemuAssembler_spec "raw.xz" "image.raw.xz" (6 * GigaByte)
    exact ⟨asm, h, hu, hf.symm⟩
  · subst h
    exact ⟨_, rfl, rfl, rfl⟩
  · subst h
    obtain ⟨asm, h, hu, hf⟩ := qemuAssembler_spec "raw" "disk.img" (3 * GigaByte)
    exact ⟨asm, h, hu, hf.symm⟩
  · subst h
    obtain ⟨asm, h, hu, hf⟩ := qemuAssembler_spec "qcow2" "disk.qcow2" (3 * GigaByte)
    exact ⟨asm, h, hu, hf.symm⟩
  · subst h
    obtain ⟨asm, h, hu, hf⟩ := qemuAssembler_spec "qcow2" "image.qcow2" (3 * GigaByte)
    exact ⟨asm, h, hu, hf.symm⟩
  · subst h
    exact ⟨_, rfl, trivial, rfl⟩
  · subst h
    obtain ⟨asm, h, hu, hf⟩ := qemuAssembler_spec "vpc" "image.vhd" (3 * GigaByte)
    exact ⟨asm, h, hu, hf.symm⟩
  · subst h
    obtain ⟨asm, h, hu, hf⟩ := qemuAssembler_spec "vmdk" "disk.vmdk" (3 * GigaByte)
    exact ⟨asm, h, hu, hf.symm⟩

/-- The same holds for every entry of every catalog a program can hold: a call
of `Pipeline` changes neither the assembler nor the filename of an entry. -/
theorem Reachable_entry (r : RHEL82) (hr : Reachable r) (f : String) (o : output)
    (h1 : mapGet r.outputs f = some o) :
    ∃ asm, o.Assembler = some asm ∧ asm.rootUUIDIs rootUUID ∧ o.Name = asm.Filename := by
  induction hr generalizing f o with
  | new r h =>
    rw [New_eq] at h
    cases h
    exact newCatalog_entry f o h1
  | call r c b repos cks a f0 ret _ h ih =>
    obtain ⟨ret', hret', _, hout⟩ := lookup_after_call r c b repos cks a f0 f
    rw [h] at hret'
    cases hret'
    rcases hout with ⟨_, hnone⟩ | ⟨o0, P, E, h0, _, _, h0'⟩
    · rw [hnone] at h1; cases h1
    · rw [h0'] at h1
      cases h1
      exact ih f o0 h0

/-- A GRUB2 stage of the closed form carries the fixed root filesystem UUID. -/
theorem mem_GRUB2_stagesOf (o : output) (ar : arch) (b : Blueprint)
    (repos : List RepoConfig) (cks : List (String × String)) (uo : UsersStageOptions)
    (g : GRUB2StageOptions) (h : Stage.GRUB2 g ∈ stagesOf o ar b repos cks uo) :
    g.RootFilesystemUUID = rootUUID := by
  have hm : Stage.GRUB2 g ∈ (stagesOf o ar b repos cks uo).filter
      (fun s => decide (s.kind = StageKind.GRUB2)) := by
    rw [List.mem_filter]
    exact ⟨h, by simp⟩
  rw [filter_GRUB2_stagesOf, List.mem_singleton] at hm
  cases hm
  rfl

/-- An fstab stage of the closed form is the one `fsTabStageOptions` builds. -/
theorem mem_FSTab_stagesOf (o : output) (ar : arch) (b : Blueprint)
    (repos : List RepoConfig) (cks : List (String × String)) (uo : UsersStageOptions)
    (t : FSTabStageOptions) (h : Stage.FSTab t ∈ stagesOf o ar b repos cks uo) :
    t = fsTabStageOptions := by
  have hm : Stage.FSTab t ∈ (stagesOf o ar b repos cks uo).filter
      (fun s => decide (s.kind = StageKind.FSTab)) := by
    rw [List.mem_filter]
    exact ⟨h, by simp⟩
  rw [filter_FSTab_stagesOf] at hm
  cases hb : o.Bootable
  · rw [hb] at hm
    simp at hm
  · rw [hb] at hm
    simp only [if_true, List.mem_singleton] at hm
    cases hm
    rfl

/-- C25: parsing the fixed UUID literal succeeds, so `grub2StageOptions`,
`rawFSAssembler` and `New` never take the "invalid UUID" panic and every call
of `Pipeline` returns. In every pipeline returned, each GRUB2 stage carries
the parsed UUID, each fstab stage has the single entry for "/" whose UUID
string parses to the same UUID, and (on every catalog a program can hold) the
assembler options carry the same UUID: the "/" filesystem of the QEMU
partition as a string that parses to it, the raw filesystem assembler as the
parsed value. -/
theorem Pipeline_root_uuid :
    uuidParse rootUUIDLiteral = .ok rootUUID ∧
    (∀ k, ∃ g, grub2StageOptions k = .ok g) ∧
    (∀ fn, ∃ asm, rawFSAssembler fn = .ok asm) ∧
    (∃ r, New = .ok r) ∧
    (∀ (r : RHEL82) (c : Crypt) (b : Blueprint) (repos : List RepoConfig)
        (cks : List (String × String)) (a f : String),
      ∃ ret, r.Pipeline c b repos cks a f = .ok ret ∧
        ∀ p, ret.pipeline = some p →
          (∀ g, Stage.GRUB2 g ∈ p.Stages → g.RootFilesystemUUID = rootUUID) ∧
          (∀ t, Stage.FSTab t ∈ p.Stages →
            t.FileSystems.map (fun e => e.Path) = ["/"] ∧
            ∀ e ∈ t.FileSystems, uuidParse e.UUID = .ok rootUUID) ∧
          (Reachable r → ∀ asm, p.Assembler = some asm → asm.rootUUIDIs rootUUID)) := by
  refine ⟨rfl, fun k => ⟨_, grub2StageOptions_eq k⟩, fun fn => ⟨_, rfl⟩, ⟨_, New_eq⟩, ?_⟩
  intro r c b repos cks a f
  obtain ⟨ret, hret, hcase⟩ := Pipeline_returns r c b repos cks a f
  refine ⟨ret, hret, fun p hp => ?_⟩
  rcases hcase with ⟨hnone, _⟩ | ⟨o, ar, uo, h1, _, _, _, hsome⟩
  · rw [hnone] at hp; cases hp
  · rw [hsome] at hp
    cases hp
    refine ⟨fun g hg => mem_GRUB2_stagesOf o ar b repos cks uo g hg, fun t ht => ?_,
      fun hr asm hasm => ?_⟩
    · have et := mem_FSTab_stagesOf o ar b repos cks uo t ht
      subst et
      refine ⟨rfl, fun e he => ?_⟩
      have he2 : e = ⟨rootUUIDLiteral, "xfs", "/", "defaults", 0, 0⟩ := by
        simpa [fsTabStageOptions, FSTabStageOptions.AddFilesystem] using he
      subst he2
      exact uuidParse_rootUUIDLiteral
    · obtain ⟨asm0, h0, hu, _⟩ := Reachable_entry r hr f o h1
      simp only [Pipeline.Assembler] at hasm
      rw [h0] at hasm
      cases hasm
      exact hu

/-- A witness of `Pipeline_root_uuid`: the "qcow2" pipeline on the catalog of
`New` has a GRUB2 stage, an fstab stage and a QEMU assembler with a partition
mounted at "/", and the three agree on the UUID. -/
theorem Pipeline_root_uuid_witness :
    ∃ ret p g t asm part,
      newCatalog.Pipeline sampleCrypt emptyBlueprint [] [] "x86_64" "qcow2" = .ok ret ∧
      ret.pipeline = some p ∧ Stage.GRUB2 g ∈ p.Stages ∧ Stage.FSTab t ∈ p.Stages ∧
      p.Assembler = some (Assembler.QEMU asm) ∧ part ∈ asm.Partitions ∧
      part.Filesystem.Mountpoint = "/" ∧
      g.RootFilesystemUUID = rootUUID ∧
      (∀ e ∈ t.FileSystems, uuidParse e.UUID = .ok rootUUID) ∧
      uuidParse part.Filesystem.UUID = .ok rootUUID := by
  obtain ⟨ret, hret, h⟩ := Pipeline_root_uuid.2.2.2.2 newCatalog sampleCrypt emptyBlueprint
    [] [] "x86_64" "qcow2"
  have hs := Pipeline_success newCatalog sampleCrypt emptyBlueprint [] [] "x86_64" "qcow2"
    outputQcow2 archX86_64 ⟨[]⟩ rfl rfl rfl
  rw [hs] at hret
  cases hret
  obtain ⟨hg, ht, hasm⟩ := h _ rfl
  have hgm : Stage.GRUB2 ⟨rootUUID, outputQcow2.KernelOptions, true⟩
      ∈ stagesOf outputQcow2 archX86_64 emptyBlueprint [] [] ⟨[]⟩ := by
    simp [stagesOf, outputQcow2, emptyBlueprint]
  have htm : Stage.FSTab fsTabStageOptions
      ∈ stagesOf outputQcow2 archX86_64 emptyBlueprint [] [] ⟨[]⟩ := by
    simp [stagesOf, outputQcow2]
  have hq := hasm (Reachable.new _ New_eq) _ rfl
  exact ⟨_, _, _, _, _, _, hs, rfl, hgm, htm, rfl, List.mem_singleton.2 rfl, rfl,
    hg _ hgm, (ht _ htm).2, hq _ (List.mem_singleton.2 rfl) rfl⟩

/-- C26: for every output format of the catalog that `New` builds (and of
every catalog a program can hold afterwards), every call of `Pipeline` for
that format returns, and the pipeline it returns has an assembler whose
`Filename` option is the filename that `FilenameFromType` reports (with no
error) for the format. -/
theorem FilenameFromType_assembler (r : RHEL82) (c : Crypt) (b : Blueprint)
    (repos : List RepoConfig) (cks : List (String × String)) (a f : String)
    (hr : Reachable r) (hf : f ∈ r.ListOutputFormats) :
    (r.FilenameFromType f).2.2 = none ∧
    ∃ ret, r.Pipeline c b repos cks a f = .ok ret ∧
      ∀ p, ret.pipeline = some p →
        ∃ asm, p.Assembler = some asm ∧ (r.FilenameFromType f).1 = asm.Filename := by
  rw [mem_ListOutputFormats_iff] at hf
  obtain ⟨o0, h0⟩ := Option.isSome_iff_exists.1 hf
  obtain ⟨asm, hasm, _, hname⟩ := Reachable_entry r hr f o0 h0
  have hfn : r.FilenameFromType f = (o0.Name, o0.MimeType, none) := by
    simp only [RHEL82.FilenameFromType, h0]
  obtain ⟨ret, hret, hcase⟩ := Pipeline_returns r c b repos cks a f
  refine ⟨by rw [hfn], ret, hret, fun p hp => ?_⟩
  rcases hcase with ⟨hnone, _⟩ | ⟨o, ar, uo, h1, _, _, _, hsome⟩
  · rw [hnone] at hp; cases hp
  · rw [h0] at h1
    cases h1
    rw [hsome] at hp
    cases hp
    exact ⟨asm, hasm, by rw [hfn]; exact hname⟩

/-- A witness of `FilenameFromType_assembler`: on the catalog of `New` the
format "vmdk" is announced as "disk.vmdk", and the pipeline returned for it
has an assembler with that `Filename`. -/
theorem FilenameFromType_assembler_witness :
    Reachable newCatalog ∧ "vmdk" ∈ newCatalog.ListOutputFormats ∧
    (newCatalog.FilenameFromType "vmdk").1 = "disk.vmdk" ∧
    ∃ ret p asm,
      newCatalog.Pipeline sampleCrypt emptyBlueprint [] [] "x86_64" "vmdk" = .ok ret ∧
      ret.pipeline = some p ∧ p.Assembler = some asm ∧ asm.Filename = "disk.vmdk" := by
  have hr : Reachable newCatalog := Reachable.new _ New_eq
  have hf : "vmdk" ∈ newCatalog.ListOutputFormats := by
    rw [mem_ListOutputFormats_iff]; rfl
  obtain ⟨_, ret, hret, h⟩ := FilenameFromType_assembler newCatalog sampleCrypt emptyBlueprint
    [] [] "x86_64" "vmdk" hr hf
  have hs := Pipeline_success newCatalog sampleCrypt emptyBlueprint [] [] "x86_64" "vmdk"
    outputVmdk archX86_64 ⟨[]⟩ rfl rfl rfl
  rw [hs] at hret
  cases hret
  obtain ⟨asm, hasm, hname⟩ := h _ rfl
  exact ⟨hr, hf, rfl, _, _, asm, hs, rfl, hasm, hname.symm⟩

end rhel82

namespace image

/-! ## The properties of the installer image -/

/-- C18: when the FIPS flag of the image is set, `InstantiateManifest` puts
"fips=1" in the kernel options of the boot-tree pipeline and in the kernel
options of the ISO-tree pipeline (at the end of each), and the additional
Anaconda modules of the installer pipeline are those of the image, all kept
and in order, followed by the security module. -/
theorem InstantiateManifest_fips {E : Ext} (env : Collaborators E)
    (img : AnacondaOSTreeInstaller E) (m : E.Manifest) (repos : List E.RepoConfig)
    (runner : E.Runner) (rng : E.Rand) (h : img.FIPS = true) :
    "fips=1" ∈ (img.InstantiateManifest env m repos runner rng).bootTreePipeline.KernelOpts ∧
    "fips=1" ∈ (img.InstantiateManifest env m repos runner rng).isoTreePipeline.KernelOpts ∧
    (img.InstantiateManifest env m repos runner rng).isoTreePipeline.KernelOpts
      = env.isoTreeKernelOpts ++ ["fips=1"] ∧
    (img.InstantiateManifest env m repos runner rng).anacondaPipeline.AdditionalAnacondaModules
      = img.AdditionalAnacondaModules ++ ["org.fedoraproject.Anaconda.Modules.Security"] := by
  have hboot : (img.InstantiateManifest env m repos runner rng).bootTreePipeline.KernelOpts
      = ["inst.stage2=hd:LABEL=" ++ img.ISOLabel,
          "inst.ks=hd:LABEL=" ++ img.ISOLabel ++ ":" ++ env.KickstartPathOSBuild,
          "fips=1"] := by
    simp [AnacondaOSTreeInstaller.InstantiateManifest, h]
  have hiso : (img.InstantiateManifest env m repos runner rng).isoTreePipeline.KernelOpts
      = env.isoTreeKernelOpts ++ ["fips=1"] := by
    simp [AnacondaOSTreeInstaller.InstantiateManifest, h]
  refine ⟨?_, ?_, hiso, ?_⟩
  · rw [hboot]
    simp
  · rw [hiso]
    simp
  · simp [AnacondaOSTreeInstaller.InstantiateManifest, h]

/-- A witness of `InstantiateManifest_fips`: the sample image with the FIPS
flag set. -/
theorem InstantiateManifest_fips_witness :
    (sampleImage 4 true).FIPS = true ∧
    ((sampleImage 4 true).InstantiateManifest sampleEnv "m" [] "runner" 7).bootTreePipeline.KernelOpts
      = ["inst.stage2=hd:LABEL=Fedora-IoT", "inst.ks=hd:LABEL=Fedora-IoT:/osbuild.ks",
          "fips=1"] ∧
    "fips=1" ∈
      ((sampleImage 4 true).InstantiateManifest sampleEnv "m" [] "runner" 7).isoTreePipeline.KernelOpts ∧
    ((sampleImage 4 true).InstantiateManifest sampleEnv "m" [] "runner"
        7).anacondaPipeline.AdditionalAnacondaModules
      = ["org.fedoraproject.Anaconda.Modules.Users",
          "org.fedoraproject.Anaconda.Modules.Security"] :=
  ⟨rfl, by decide,
    (InstantiateManifest_fips sampleEnv (sampleImage 4 true) "m" [] "runner" 7 rfl).2.1,
    (InstantiateManifest_fips sampleEnv (sampleImage 4 true) "m" [] "runner" 7 rfl).2.2.2⟩

/-- C19: the kernel options of the boot-tree pipeline start with the two
arguments "inst.stage2=hd:LABEL=L" and "inst.ks=hd:LABEL=L:P", in that order,
followed only by "fips=1" when the FIPS flag is set; `L` is the ISO label of the
image, which is also the ISO label of the boot-tree pipeline and the label
handed to the final ISO pipeline, and `P` is the kickstart path, which is also
the path of the kickstart of the ISO-tree pipeline. -/
theorem InstantiateManifest_label {E : Ext} (env : Collaborators E)
    (img : AnacondaOSTreeInstaller E) (m : E.Manifest) (repos : List E.RepoConfig)
    (runner : E.Runner) (rng : E.Rand) :
    (img.InstantiateManifest env m repos runner rng).bootTreePipeline.KernelOpts
      = ["inst.stage2=hd:LABEL=" ++ img.ISOLabel,
          "inst.ks=hd:LABEL=" ++ img.ISOLabel ++ ":" ++ env.KickstartPathOSBuild]
        ++ (if img.FIPS then ["fips=1"] else []) ∧
    (img.InstantiateManifest env m repos runner rng).bootTreePipeline.KernelOpts.take 2
      = ["inst.stage2=hd:LABEL=" ++ img.ISOLabel,
          "inst.ks=hd:LABEL=" ++ img.ISOLabel ++ ":" ++ env.KickstartPathOSBuild] ∧
    (img.InstantiateManifest env m repos runner rng).bootTreePipeline.ISOLabel = img.ISOLabel ∧
    (img.InstantiateManifest env m repos runner rng).isoPipeline.isoLabel = img.ISOLabel ∧
    ((img.InstantiateManifest env m repos runner rng).isoTreePipeline.Kickstart.map
      (fun k => k.Path)) = some env.KickstartPathOSBuild := by
  cases hf : img.FIPS <;> simp [AnacondaOSTreeInstaller.InstantiateManifest, hf]

/-- An instance of `InstantiateManifest_label`: the label "Fedora-IoT" is in
both arguments. -/
theorem InstantiateManifest_label_witness :
    ((sampleImage 4 false).InstantiateManifest sampleEnv "m" [] "runner" 7).bootTreePipeline.KernelOpts
      = ["inst.stage2=hd:LABEL=Fedora-IoT", "inst.ks=hd:LABEL=Fedora-IoT:/osbuild.ks"] ∧
    ((sampleImage 4 false).InstantiateManifest sampleEnv "m" [] "runner" 7).isoPipeline.isoLabel
      = "Fedora-IoT" := by
  have h := InstantiateManifest_label sampleEnv (sampleImage 4 false) "m" [] "runner" 7
  exact ⟨by rw [h.1]; decide, h.2.2.2.1⟩

/-- C20: the ISOLinux flag of the ISO-tree pipeline and the ISOLinux flag of the
final ISO pipeline are each true exactly when the architecture of the
platform is x86_64, and the two flags are equal. -/
theorem InstantiateManifest_isolinux {E : Ext} (env : Collaborators E)
    (img : AnacondaOSTreeInstaller E) (m : E.Manifest) (repos : List E.RepoConfig)
    (runner : E.Runner) (rng : E.Rand) :
    ((img.InstantiateManifest env m repos runner rng).isoTreePipeline.ISOLinux = true ↔
      img.Platform.GetArch = env.ARCH_X86_64) ∧
    ((img.InstantiateManifest env m repos runner rng).isoPipeline.ISOLinux = true ↔
      img.Platform.GetArch = env.ARCH_X86_64) ∧
    (img.InstantiateManifest env m repos runner rng).isoTreePipeline.ISOLinux
      = (img.InstantiateManifest env m repos runner rng).isoPipeline.ISOLinux ∧
    (img.InstantiateManifest env m repos runner rng).isoPipeline.treePipeline
      = (img.InstantiateManifest env m repos runner rng).isoTreePipeline := by
  cases hf : img.FIPS <;> simp [AnacondaOSTreeInstaller.InstantiateManifest, hf]

/-- An instance of `InstantiateManifest_isolinux`: the flags are set for the
architecture identity of x86_64 and clear for another one. -/
theorem InstantiateManifest_isolinux_witness :
    ((sampleImage 4 false).InstantiateManifest sampleEnv "m" [] "runner" 7).isoPipeline.ISOLinux
      = true ∧
    ((sampleImage 1 false).InstantiateManifest sampleEnv "m" [] "runner" 7).isoPipeline.ISOLinux
      = false ∧
    ((sampleImage 1 false).InstantiateManifest sampleEnv "m" [] "runner" 7).isoTreePipeline.ISOLinux
      = false := by
  have h4 := InstantiateManifest_isolinux sampleEnv (sampleImage 4 false) "m" [] "runner" 7
  have h1 := InstantiateManifest_isolinux sampleEnv (sampleImage 1 false) "m" [] "runner" 7
  refine ⟨h4.2.1.2 rfl, ?_, ?_⟩
  · cases hx : ((sampleImage 1 false).InstantiateManifest sampleEnv "m" [] "runner"
        7).isoPipeline.ISOLinux with
    | false => rfl
    | true => exact absurd (h1.2.1.1 hx) (by decide)
  · cases hx : ((sampleImage 1 false).InstantiateManifest sampleEnv "m" [] "runner"
        7).isoTreePipeline.ISOLinux with
    | false => rfl
    | true => exact absurd (h1.1.1 hx) (by decide)

end image

/-! # The wire format of a repository configuration: round trip -/

namespace rpmmd

/-- A member under another key is not found. -/
theorem lookup_singleton_ne (k k1 : String) (v : Value) (h : k ≠ k1) :
    List.lookup k [(k1, v)] = none := by
  have hb : (k == k1) = false := by simpa using h
  simp [List.lookup, hb]

theorem lookup_singleton_self (k : String) (v : Value) :
    List.lookup k [(k, v)] = some v := by
  simp [List.lookup]

theorem lookup_stringField_ne (k k1 s : String) (h : k ≠ k1) :
    List.lookup k (stringField k1 s) = none := by
  unfold stringField
  split
  · rfl
  · exact lookup_singleton_ne _ _ _ h

theorem lookup_listField_ne (k k1 : String) (l : List String) (h : k ≠ k1) :
    List.lookup k (listField k1 l) = none := by
  cases l with
  | nil => rfl
  | cons x xs => exact lookup_singleton_ne _ _ _ h

theorem lookup_boolPtrField_ne (k k1 : String) (p : Option Bool) (h : k ≠ k1) :
    List.lookup k (boolPtrField k1 p) = none := by
  cases p with
  | none => rfl
  | some b => exact lookup_singleton_ne _ _ _ h

theorem lookup_intPtrField_ne (k k1 : String) (p : Option Int) (h : k ≠ k1) :
    List.lookup k (intPtrField k1 p) = none := by
  cases p with
  | none => rfl
  | some b => exact lookup_singleton_ne _ _ _ h

theorem lookup_boolField_ne (k k1 : String) (b : Bool) (h : k ≠ k1) :
    List.lookup k (boolField k1 b) = none := by
  cases b with
  | false => rfl
  | true => exact lookup_singleton_ne _ _ _ h

theorem getString_stringField (k s : String) (rest : Object) (h : List.lookup k rest = none) :
    getString (stringField k s ++ rest) k = .ok s := by
  unfold getString stringField
  by_cases hs : s = ""
  · simp [hs, h]
  · simp [hs, lookup_singleton_self]

theorem getList_listField (k : String) (l : List String) (rest : Object)
    (h : List.lookup k rest = none) :
    getList (listField k l ++ rest) k = .ok l := by
  unfold getList
  cases l with
  | nil => simp [listField, h]
  | cons x xs => simp [listField, lookup_singleton_self]

theorem getBoolPtr_boolPtrField (k : String) (p : Option Bool) (rest : Object)
    (h : List.lookup k rest = none) :
    getBoolPtr (boolPtrField k p ++ rest) k = .ok p := by
  unfold getBoolPtr
  cases p with
  | none => simp [boolPtrField, h]
  | some b => simp [boolPtrField, lookup_singleton_self]

theorem getIntPtr_intPtrField (k : String) (p : Option Int) (rest : Object)
    (h : List.lookup k rest = none) :
    getIntPtr (intPtrField k p ++ rest) k = .ok p := by
  unfold getIntPtr
  cases p with
  | none => simp [intPtrField, h]
  | some b => simp [intPtrField, lookup_singleton_self]

theorem getBool_boolField (k : String) (b : Bool) (rest : Object)
    (h : List.lookup k rest = none) :
    getBool (boolField k b ++ rest) k = .ok b := by
  unfold getBool
  cases b with
  | false => simp [boolField, h]
  | true => simp [boolField, lookup_singleton_self]

theorem getString_skip (k : String) (pre rest : Object) (h : List.lookup k pre = none) :
    getString (pre ++ rest) k = getString rest k := by
  unfold getString
  rw [List.lookup_append, h, Option.none_or]

theorem getList_skip (k : String) (pre rest : Object) (h : List.lookup k pre = none) :
    getList (pre ++ rest) k = getList rest k := by
  unfold getList
  rw [List.lookup_append, h, Option.none_or]

theorem getBoolPtr_skip (k : String) (pre rest : Object) (h : List.lookup k pre = none) :
    getBoolPtr (pre ++ rest) k = getBoolPtr rest k := by
  unfold getBoolPtr
  rw [List.lookup_append, h, Option.none_or]

theorem getIntPtr_skip (k : String) (pre rest : Object) (h : List.lookup k pre = none) :
    getIntPtr (pre ++ rest) k = getIntPtr rest k := by
  unfold getIntPtr
  rw [List.lookup_append, h, Option.none_or]

theorem getBool_skip (k : String) (pre rest : Object) (h : List.lookup k pre = none) :
    getBool (pre ++ rest) k = getBool rest k := by
  unfold getBool
  rw [List.lookup_append, h, Option.none_or]

theorem getString_stringField_end (k s : String) : getString (stringField k s) k = .ok s := by
  have h := getString_stringField k s [] rfl
  rwa [List.append_nil] at h

theorem wire_id (r : RepoConfig) (l : List String) (s : String) :
    getString (wire r l s) "id" = .ok r.Id := by
  unfold wire
  simp only [List.append_assoc]
  apply getString_stringField
  simp [List.lookup_append, lookup_stringField_ne, lookup_listField_ne, lookup_boolPtrField_ne,
    lookup_intPtrField_ne, lookup_boolField_ne]

theorem wire_name (r : RepoConfig) (l : List String) (s : String) :
    getString (wire r l s) "name" = .ok r.Name := by
  unfold wire
  simp only [List.append_assoc]
  iterate 1 rw [getString_skip _ _ _ (by simp [lookup_stringField_ne, lookup_listField_ne, lookup_boolPtrField_ne,
    lookup_intPtrField_ne, lookup_boolField_ne])]
  apply getString_stringField
  simp [List.lookup_append, lookup_stringField_ne, lookup_listField_ne, lookup_boolPtrField_ne,
    lookup_intPtrField_ne, lookup_boolField_ne]

theorem wire_baseurls (r : RepoConfig) (l : List String) (s : String) :
    getList (wire r l s) "baseurls" = .ok l := by
  unfold wire
  simp only [List.append_assoc]
  iterate 2 rw [getList_skip _ _ _ (by simp [lookup_stringField_ne, lookup_listField_ne, lookup_boolPtrField_ne,
    lookup_intPtrField_ne, lookup_boolField_ne])]
  apply getList_listField
  simp [List.lookup_append, lookup_stringField_ne, lookup_listField_ne, lookup_boolPtrField_ne,
    lookup_intPtrField_ne, lookup_boolField_ne]

theorem wire_metalink (r : RepoConfig) (l : List String) (s : String) :
    getString (wire r l s) "metalink" = .ok r.Metalink := by
  unfold wire
  simp only [List.append_assoc]
  iterate 3 rw [getString_skip _ _ _ (by simp [lookup_stringField_ne, lookup_listField_ne, lookup_boolPtrField_ne,
    lookup_intPtrField_ne, lookup_boolField_ne])]
  apply getString_stringField
  simp [List.lookup_append, lookup_stringField_ne, lookup_listField_ne, lookup_boolPtrField_ne,
    lookup_intPtrField_ne, lookup_boolField_ne]

theorem wire_mirrorlist (r : RepoConfig) (l : List String) (s : String) :
    getString (wire r l s) "mirrorlist" = .ok r.MirrorList := by
  unfold wire
  simp only [List.append_assoc]
  iterate 4 rw [getString_skip _ _ _ (by simp [lookup_stringField_ne, lookup_listField_ne, lookup_boolPtrField_ne,
    lookup_intPtrField_ne, lookup_boolField_ne])]
  apply getString_stringField
  simp [List.lookup_append, lookup_stringField_ne, lookup_listField_ne, lookup_boolPtrField_ne,
    lookup_intPtrField_ne, lookup_boolField_ne]

theorem wire_gpgkeys (r : RepoConfig) (l : List String) (s : String) :
    getList (wire r l s) "gpgkeys" = .ok r.GPGKeys := by
  unfold wire
  simp only [List.append_assoc]
  iterate 5 rw [getList_skip _ _ _ (by simp [lookup_stringField_ne, lookup_listField_ne, lookup_boolPtrField_ne,
    lookup_intPtrField_ne, lookup_boolField_ne])]
  apply getList_listField
  simp [List.lookup_append, lookup_stringField_ne, lookup_listField_ne, lookup_boolPtrField_ne,
    lookup_intPtrField_ne, lookup_boolField_ne]

theorem wire_check_gpg (r : RepoConfig) (l : List String) (s : String) :
    getBoolPtr (wire r l s) "check_gpg" = .ok r.CheckGPG := by
  unfold wire
  simp only [List.append_assoc]
  iterate 6 rw [getBoolPtr_skip _ _ _ (by simp [lookup_stringField_ne, lookup_listField_ne, lookup_boolPtrField_ne,
    lookup_intPtrField_ne, lookup_boolField_ne])]
  apply getBoolPtr_boolPtrField
  simp [List.lookup_append, lookup_stringField_ne, lookup_listField_ne, lookup_boolPtrField_ne,
    lookup_intPtrField_ne, lookup_boolField_ne]

theorem wire_check_repo_gpg (r : RepoConfig) (l : List String) (s : String) :
    getBoolPtr (wire r l s) "check_repo_gpg" = .ok r.CheckRepoGPG := by
  unfold wire
  simp only [List.append_assoc]
  iterate 7 rw [getBoolPtr_skip _ _ _ (by simp [lookup_stringField_ne, lookup_listField_ne, lookup_boolPtrField_ne,
    lookup_intPtrField_ne, lookup_boolField_ne])]
  apply getBoolPtr_boolPtrField
  simp [List.lookup_append, lookup_stringField_ne, lookup_listField_ne, lookup_boolPtrField_ne,
    lookup_intPtrField_ne, lookup_boolField_ne]

theorem wire_priority (r : RepoConfig) (l : List String) (s : String) :
    getIntPtr (wire r l s) "priority" = .ok r.Priority := by
  unfold wire
  simp only [List.append_assoc]
  iterate 8 rw [getIntPtr_skip _ _ _ (by simp [lookup_stringField_ne, lookup_listField_ne, lookup_boolPtrField_ne,
    lookup_intPtrField_ne, lookup_boolField_ne])]
  apply getIntPtr_intPtrField
  simp [List.lookup_append, lookup_stringField_ne, lookup_listField_ne, lookup_boolPtrField_ne,
    lookup_intPtrField_ne, lookup_boolField_ne]

theorem wire_ignore_ssl (r : RepoConfig) (l : List String) (s : String) :
    getBoolPtr (wire r l s) "ignore_ssl" = .ok r.IgnoreSSL := by
  unfold wire
  simp only [List.append_assoc]
  iterate 9 rw [getBoolPtr_skip _ _ _ (by simp [lookup_stringField_ne, lookup_listField_ne, lookup_boolPtrField_ne,
    lookup_intPtrField_ne, lookup_boolField_ne])]
  apply getBoolPtr_boolPtrField
  simp [List.lookup_append, lookup_stringField_ne, lookup_listField_ne, lookup_boolPtrField_ne,
    lookup_intPtrField_ne, lookup_boolField_ne]

theorem wire_metadata_expire (r : RepoConfig) (l : List String) (s : String) :
    getString (wire r l s) "metadata_expire" = .ok r.MetadataExpire := by
  unfold wire
  simp only [List.append_assoc]
  iterate 10 rw [getString_skip _ _ _ (by simp [lookup_stringField_ne, lookup_listField_ne, lookup_boolPtrField_ne,
    lookup_intPtrField_ne, lookup_boolField_ne])]
  apply getString_stringField
  simp [List.lookup_append, lookup_stringField_ne, lookup_listField_ne, lookup_boolPtrField_ne,
    lookup_intPtrField_ne, lookup_boolField_ne]

theorem wire_rhsm (r : RepoConfig) (l : List String) (s : String) :
    getBool (wire r l s) "rhsm" = .ok r.RHSM := by
  unfold wire
  simp only [List.append_assoc]
  iterate 11 rw [getBool_skip _ _ _ (by simp [lookup_stringField_ne, lookup_listField_ne, lookup_boolPtrField_ne,
    lookup_intPtrField_ne, lookup_boolField_ne])]
  apply getBool_boolField
  simp [List.lookup_append, lookup_stringField_ne, lookup_listField_ne, lookup_boolPtrField_ne,
    lookup_intPtrField_ne, lookup_boolField_ne]

theorem wire_enabled (r : RepoConfig) (l : List String) (s : String) :
    getBoolPtr (wire r l s) "enabled" = .ok r.Enabled := by
  unfold wire
  simp only [List.append_assoc]
  iterate 12 rw [getBoolPtr_skip _ _ _ (by simp [lookup_stringField_ne, lookup_listField_ne, lookup_boolPtrField_ne,
    lookup_intPtrField_ne, lookup_boolField_ne])]
  apply getBoolPtr_boolPtrField
  simp [List.lookup_append, lookup_stringField_ne, lookup_listField_ne, lookup_boolPtrField_ne,
    lookup_intPtrField_ne, lookup_boolField_ne]

theorem wire_image_type_tags (r : RepoConfig) (l : List String) (s : String) :
    getList (wire r l s) "image_type_tags" = .ok r.ImageTypeTags := by
  unfold wire
  simp only [List.append_assoc]
  iterate 13 rw [getList_skip _ _ _ (by simp [lookup_stringField_ne, lookup_listField_ne, lookup_boolPtrField_ne,
    lookup_intPtrField_ne, lookup_boolField_ne])]
  apply getList_listField
  simp [List.lookup_append, lookup_stringField_ne, lookup_listField_ne, lookup_boolPtrField_ne,
    lookup_intPtrField_ne, lookup_boolField_ne]

theorem wire_package_sets (r : RepoConfig) (l : List String) (s : String) :
    getList (wire r l s) "package_sets" = .ok r.PackageSets := by
  unfold wire
  simp only [List.append_assoc]
  iterate 14 rw [getList_skip _ _ _ (by simp [lookup_stringField_ne, lookup_listField_ne, lookup_boolPtrField_ne,
    lookup_intPtrField_ne, lookup_boolField_ne])]
  apply getList_listField
  simp [List.lookup_append, lookup_stringField_ne, lookup_listField_ne, lookup_boolPtrField_ne,
    lookup_intPtrField_ne, lookup_boolField_ne]

theorem wire_baseurl (r : RepoConfig) (l : List String) (s : String) :
    getString (wire r l s) "baseurl" = .ok s := by
  unfold wire
  simp only [List.append_assoc]
  iterate 15 rw [getString_skip _ _ _ (by simp [lookup_stringField_ne, lookup_listField_ne, lookup_boolPtrField_ne,
    lookup_intPtrField_ne, lookup_boolField_ne])]
  exact getString_stringField_end _ _

/-- Decoding a wire record: every field is read back, and the URL list is the
explicit list when that is not empty, otherwise the legacy field split at the
commas. -/
theorem Unmarshal_wire (r : RepoConfig) (l : List String) (s : String) :
    Unmarshal (wire r l s)
      = .ok { r with BaseURLs :=
          match l with
          | [] => if s = "" then [] else stringsSplit s ','
          | _ :: _ => l } := by
  unfold Unmarshal
  simp only [wire_id, wire_name, wire_baseurls, wire_metalink, wire_mirrorlist, wire_gpgkeys,
    wire_check_gpg, wire_check_repo_gpg, wire_priority, wire_ignore_ssl, wire_metadata_expire,
    wire_rhsm, wire_enabled, wire_image_type_tags, wire_package_sets, wire_baseurl,
    bind, Except.bind, pure, Except.pure]

theorem splitChars_nosep (sep : Char) (w : List Char) (hw : sep ∉ w) :
    splitChars sep w = [w] := by
  induction w with
  | nil => rfl
  | cons c cs ih =>
    have hc : c ≠ sep := fun h => hw (by simp [h])
    have hcs : sep ∉ cs := fun h => hw (List.mem_cons_of_mem _ h)
    simp [splitChars, hc, ih hcs]

theorem splitChars_append_sep (sep : Char) (w rest : List Char) (hw : sep ∉ w) :
    splitChars sep (w ++ sep :: rest) = w :: splitChars sep rest := by
  induction w with
  | nil => simp [splitChars]
  | cons c cs ih =>
    have hc : c ≠ sep := fun h => hw (by simp [h])
    have hcs : sep ∉ cs := fun h => hw (List.mem_cons_of_mem _ h)
    simp [splitChars, hc, ih hcs]

/-- Splitting undoes joining, for a list of at least one word and words
without the separator. -/
theorem splitChars_joinChars (sep : Char) (ws : List (List Char)) (hne : ws ≠ [])
    (hw : ∀ w ∈ ws, sep ∉ w) : splitChars sep (joinChars sep ws) = ws := by
  induction ws with
  | nil => exact absurd rfl hne
  | cons w rest ih =>
    cases rest with
    | nil => exact splitChars_nosep sep w (hw w (List.mem_singleton.2 rfl))
    | cons w2 ws2 =>
      have h1 : sep ∉ w := hw w (List.mem_cons_self _ _)
      have h2 := ih (List.cons_ne_nil _ _) (fun x hx => hw x (List.mem_cons_of_mem _ hx))
      simp only [joinChars]
      rw [splitChars_append_sep sep w _ h1, h2]

theorem stringsSplit_stringsJoin (sep : Char) (urls : List String) (hne : urls ≠ [])
    (hw : ∀ u ∈ urls, sep ∉ u.data) : stringsSplit (stringsJoin urls sep) sep = urls := by
  unfold stringsSplit stringsJoin
  have h := splitChars_joinChars sep (urls.map String.data) (by simpa using hne)
    (by
      intro w hwm
      obtain ⟨u, hu, rfl⟩ := List.mem_map.1 hwm
      exact hw u hu)
  simp only [h, List.map_map]
  have hid : (String.mk ∘ String.data) = id := by
    funext u
    rfl
  rw [hid, List.map_id]

theorem stringsJoin_ne_empty (sep : Char) (urls : List String) (hne : urls ≠ [])
    (hw : ∀ u ∈ urls, u ≠ "") : stringsJoin urls sep ≠ "" := by
  cases urls with
  | nil => exact absurd rfl hne
  | cons u rest =>
    have hu : u.data ≠ [] := by
      intro h
      apply hw u (List.mem_cons_self _ _)
      cases u
      simp only at h
      subst h
      rfl
    intro hj
    have hd : joinChars sep ((u :: rest).map String.data) = [] := by
      have := congrArg String.data hj
      simpa [stringsJoin] using this
    cases rest with
    | nil => exact hu (by simpa [joinChars] using hd)
    | cons u2 r2 =>
      simp only [List.map_cons, joinChars] at hd
      exact hu (List.append_eq_nil.1 hd).1

/-- The three cases of `TestOldWorkerRepositoryCompatUnmarshal`: the model
decodes each input of the test to the value the test expects. -/
theorem TestOldWorkerRepositoryCompatUnmarshal :
    Unmarshal [("name", Value.str "fedora"), ("baseurl", Value.str "http://example.com/fedora")]
      = .ok { zeroRepoConfig with
          Name := "fedora", BaseURLs := ["http://example.com/fedora"] } ∧
    Unmarshal jsonMultipleLegacy
      = .ok { zeroRepoConfig with
          Name := "multiple"
          BaseURLs := ["http://example.com/one", "http://example.com/two"] } ∧
    Unmarshal [("id", Value.str "all"), ("name", Value.str "all"),
        ("baseurls", Value.strs ["http://example.com/all"]),
        ("metalink", Value.str "http://example.com/metalink"),
        ("mirrorlist", Value.str "http://example.com/mirrorlist"),
        ("gpgkeys", Value.strs ["key1", "key2"]), ("check_gpg", Value.bool true),
        ("check_repo_gpg", Value.bool true), ("ignore_ssl", Value.bool true),
        ("priority", Value.num 10), ("metadata_expire", Value.str "test"),
        ("rhsm", Value.bool true), ("enabled", Value.bool true),
        ("image_type_tags", Value.strs ["one", "two"]),
        ("package_sets", Value.strs ["1", "2"]),
        ("baseurl", Value.str "http://example.com/all")]
      = .ok repoAll :=
  ⟨rfl, rfl, rfl⟩

/-- The three cases of `TestOldWorkerRepositoryCompatMarshal`: the model
encodes each value of the test to the members of the text the test expects,
in the same order. -/
theorem TestOldWorkerRepositoryCompatMarshal :
    ({ zeroRepoConfig with
        Id := "fedora", Name := "fedora"
        BaseURLs := ["http://example.com/fedora"] } : RepoConfig).Marshal
      = [("id", Value.str "fedora"), ("name", Value.str "fedora"),
          ("baseurls", Value.strs ["http://example.com/fedora"]),
          ("baseurl", Value.str "http://example.com/fedora")] ∧
    ({ zeroRepoConfig with
        Id := "multiple", Name := "multiple"
        BaseURLs := ["http://example.com/one", "http://example.com/two"] } : RepoConfig).Marshal
      = [("id", Value.str "multiple"), ("name", Value.str "multiple"),
          ("baseurls", Value.strs ["http://example.com/one", "http://example.com/two"]),
          ("baseurl", Value.str "http://example.com/one,http://example.com/two")] ∧
    repoAll.Marshal
      = [("id", Value.str "all"), ("name", Value.str "all"),
          ("baseurls", Value.strs ["http://example.com/all"]),
          ("metalink", Value.str "http://example.com/metalink"),
          ("mirrorlist", Value.str "http://example.com/mirrorlist"),
          ("gpgkeys", Value.strs ["key1", "key2"]), ("check_gpg", Value.bool true),
          ("check_repo_gpg", Value.bool true), ("priority", Value.num 10),
          ("ignore_ssl", Value.bool true), ("metadata_expire", Value.str "test"),
          ("rhsm", Value.bool true), ("enabled", Value.bool true),
          ("image_type_tags", Value.strs ["one", "two"]),
          ("package_sets", Value.strs ["1", "2"]),
          ("baseurl", Value.str "http://example.com/all")] :=
  ⟨rfl, rfl, rfl⟩

/-- C21: for every `RepoConfig` value, marshalling it and unmarshalling the
result returns that value again; and a wire record without an explicit URL
list, whose legacy field "baseurl" holds one URL or several URLs joined by
commas (the URLs not empty and without a comma), unmarshals to the
`RepoConfig` whose `BaseURLs` is the list of those URLs, the other fields as
they are on the wire. -/
theorem RepoConfig_round_trip :
    (∀ r : RepoConfig, Unmarshal r.Marshal = .ok r) ∧
    (∀ (r : RepoConfig) (urls : List String), urls ≠ [] →
      (∀ u ∈ urls, u ≠ "" ∧ ',' ∉ u.data) →
      Unmarshal (wire r [] (stringsJoin urls ',')) = .ok { r with BaseURLs := urls }) := by
  constructor
  · intro r
    unfold RepoConfig.Marshal
    rw [Unmarshal_wire]
    cases hl : r.BaseURLs with
    | nil =>
      have hj : stringsJoin ([] : List String) ',' = "" := rfl
      simp only [hj, if_true]
      cases r
      simp only at hl
      subst hl
      rfl
    | cons u us =>
      cases r
      simp only at hl
      subst hl
      rfl
  · intro r urls hne hurls
    rw [Unmarshal_wire]
    have hj : stringsJoin urls ',' ≠ "" :=
      stringsJoin_ne_empty ',' urls hne (fun u hu => (hurls u hu).1)
    have hs : stringsSplit (stringsJoin urls ',') ',' = urls :=
      stringsSplit_stringsJoin ',' urls hne (fun u hu => (hurls u hu).2)
    simp only [hj, if_false, hs]

/-- A witness of `RepoConfig_round_trip`: the repository "all" of the tests
goes through the wire unchanged, and the legacy input "multiple" of the test,
"one" and "two" joined by a comma, unmarshals to the list of the two URLs. -/
theorem RepoConfig_round_trip_witness :
    Unmarshal repoAll.Marshal = .ok repoAll ∧
    Unmarshal jsonMultipleLegacy
      = .ok { zeroRepoConfig with
          Name := "multiple"
          BaseURLs := ["http://example.com/one", "http://example.com/two"] } := by
  refine ⟨RepoConfig_round_trip.1 repoAll, ?_⟩
  have h := RepoConfig_round_trip.2 { zeroRepoConfig with Name := "multiple" }
    ["http://example.com/one", "http://example.com/two"] (by decide) (by decide)
  exact h

end rpmmd
